import Mathlib

/-!
# Post-processing pipeline: embedding and properties

A shallow embedding of `Source/Render/HSL.h`, `Source/PostProcessPoly.cpp` and
`Source/PostProcess.cpp`.

* `float` values are elements of an ordered field `α` with a floor function
  (exact arithmetic: `ℚ` or `ℝ`), so rounding is not modelled.
* Where rounding decides a property, the namespace `Binary32` embeds the same
  statements once more with every operation rounded to IEEE 754 binary32.
* A quotient whose divisor is zero has no value in exact arithmetic: a value
  computed from such a quotient is `none`.
* The Direct3D device is a record of what is bound (render target, effect
  variables) together with the list of the draw calls issued so far.
-/

namespace HSL

/-- Four floats `x, y, z, w` (`ImVec4`, `D3DXVECTOR4`, `CVector4`). -/
structure Vec4 (α : Type) where
  x : α
  y : α
  z : α
  w : α
deriving DecidableEq, Repr

variable {α : Type} [LinearOrderedField α] [FloorRing α]

/-- Division of exact arithmetic: no value when the divisor is zero. -/
def checkedDiv (a b : α) : Option α :=
  if b = 0 then none else some (a / b)

/-- The C library `fmodf`: the remainder of `x / y` with the quotient rounded
towards zero, so the result has the sign of `x`. -/
def fmodf (x y : α) : α :=
  if 0 ≤ x / y then x - y * (⌊x / y⌋ : α) else x - y * (⌈x / y⌉ : α)

/-- The saturation computed by `RGBToHSL` (HSL.h lines 23-27). -/
def saturation (Cmax Cmin delta l : α) : Option α :=
  if Cmax = Cmin then some 0
  else checkedDiv delta (1 - |2 * l - 1|)

/-- The hue before the degree conversion computed by `RGBToHSL`
(HSL.h lines 29-37). -/
def hueSextant (ra ga ba Cmax delta : α) : Option α :=
  if Cmax = 0 then some 0
  else if ra = Cmax then checkedDiv (ga - ba) delta
  else if ga = Cmax then (checkedDiv (ba - ra) delta).map (fun q => 2 + q)
  else (checkedDiv (ra - ga) delta).map (fun q => 4 + q)

/-- The degree conversion of `RGBToHSL` (HSL.h lines 39-42). -/
def toDegrees (h : α) : α :=
  if h * 60 < 0 then h * 60 + 360 else h * 60

/-- `RGBToHSL` of HSL.h: the result is `h.x, s.y, l.z, w.a`; there is no
result when the saturation or the hue takes a quotient by zero. -/
def RGBToHSL (rgb : Vec4 α) : Option (Vec4 α) :=
  let ra := rgb.x
  let ga := rgb.y
  let ba := rgb.z
  let Cmax := max ra (max ga ba)
  let Cmin := min ra (min ga ba)
  let delta := Cmax - Cmin
  let l := (Cmax + Cmin) / 2
  match saturation Cmax Cmin delta l, hueSextant ra ga ba Cmax delta with
  | some s, some h => some ⟨toDegrees h, s, l, rgb.w⟩
  | _, _ => none

/-- `HSLToRBG` of HSL.h. -/
def HSLToRBG (hsl : Vec4 α) : Vec4 α :=
  let c := 1 - |2 * hsl.z - 1| * hsl.y
  let x := c * (1 - |fmodf (hsl.x / 60) 2 - 1|)
  let m := hsl.z - c / 2
  let result : α × α × α :=
    if hsl.x < 60 then (c, x, 0)
    else if hsl.x < 120 then (x, c, 0)
    else if hsl.x < 180 then (0, c, x)
    else if hsl.x < 240 then (0, x, c)
    else if hsl.x < 300 then (x, 0, c)
    else (c, 0, x)
  ⟨result.1 + m, result.2.1 + m, result.2.2 + m, hsl.w⟩

end HSL


namespace PostProcessPoly

open HSL

/-- The enumeration `PostProcesses` of PostProcessPoly.cpp, in declaration
order (`NumPostProcesses` is the number of entries). -/
inductive PostProcesses
  | Copy | Tint | Tint2 | GreyNoise | Burn | Distort | Spiral | HeatHaze | Water | Retro
  | Grayscale | Invert | GaussianBlurHori | GaussianBlurVert | BloomSelection | Bloom | Gameboy
deriving DecidableEq, Repr

/-- The entries of `PostProcesses` in the order of their values `0 .. 16`. -/
def allPostProcesses : List PostProcesses :=
  [.Copy, .Tint, .Tint2, .GreyNoise, .Burn, .Distort, .Spiral, .HeatHaze, .Water, .Retro,
   .Grayscale, .Invert, .GaussianBlurHori, .GaussianBlurVert, .BloomSelection, .Bloom, .Gameboy]

/-- The number of post-processes. -/
def NumPostProcesses : Nat := 17

/-- The technique name for each post-process (`PPTechniqueNames`). -/
def PPTechniqueNames : PostProcesses → String
  | .Copy => "PPCopy"
  | .Tint => "PPTint"
  | .Tint2 => "PPTint2"
  | .GreyNoise => "PPGreyNoise"
  | .Burn => "PPBurn"
  | .Distort => "PPDistort"
  | .Spiral => "PPSpiral"
  | .HeatHaze => "PPHeatHaze"
  | .Water => "PPWater"
  | .Retro => "PPRetro"
  | .Grayscale => "PPGrayscale"
  | .Invert => "PPInvert"
  | .GaussianBlurHori => "PPGaussianBlurHori"
  | .GaussianBlurVert => "PPGaussianBlurVert"
  | .BloomSelection => "PPBloomSelection"
  | .Bloom => "PPBloom"
  | .Gameboy => "PPGameboy"

/-- The textures a view can refer to: the two scene textures, the bloom
texture, the back buffer of the swap chain and the three loaded images. -/
inductive Texture
  | SceneTexture | SceneTexture2 | BloomTexture | BackBuffer | Noise | Burn | Distort
deriving DecidableEq, Repr

/-- The render target views. -/
inductive RenderTargetView
  | SceneRenderTarget | SceneRenderTarget2 | BloomRenderTarget | BackBufferRenderTarget
deriving DecidableEq, Repr

/-- The shader resource views. -/
inductive ShaderResourceView
  | SceneShaderResource | SceneShaderResource2 | BloomShaderResource
  | NoiseMap | BurnMap | DistortMap
deriving DecidableEq, Repr

/-- The texture a render target view was created on (`PostProcessSetup`,
`CreateRenderTargetView`). -/
def RenderTargetView.texture : RenderTargetView → Texture
  | .SceneRenderTarget => .SceneTexture
  | .SceneRenderTarget2 => .SceneTexture2
  | .BloomRenderTarget => .BloomTexture
  | .BackBufferRenderTarget => .BackBuffer

/-- The texture a shader resource view was created on (`PostProcessSetup`,
`CreateShaderResourceView` and `D3DX10CreateShaderResourceViewFromFile`). -/
def ShaderResourceView.texture : ShaderResourceView → Texture
  | .SceneShaderResource => .SceneTexture
  | .SceneShaderResource2 => .SceneTexture2
  | .BloomShaderResource => .BloomTexture
  | .NoiseMap => .Noise
  | .BurnMap => .Burn
  | .DistortMap => .Distort

/-- One `Draw(4, 0)` call: the technique whose pass was applied before it, the
render target bound on the device and the resources held by the effect
variables `SceneTexture` and `PostProcessMap` at that moment. -/
structure Draw where
  technique : PostProcesses
  renderTarget : Option RenderTargetView
  SceneTexture : Option ShaderResourceView
  PostProcessMap : Option ShaderResourceView
deriving DecidableEq, Repr

/-- A draw is free of the read/write hazard when a render target and a scene
texture are bound and they are views of different textures. -/
def Draw.hazardFree (d : Draw) : Prop :=
  ∃ rt sr, d.renderTarget = some rt ∧ d.SceneTexture = some sr ∧ rt.texture ≠ sr.texture

/-- The global variables of PostProcessPoly.cpp that the post-processing code
reads or writes, the two function statics of the chain editor, the view bound
as render target and the draws issued so far. An effect variable (`...Var`)
holds the value last set on it, `none` when the program has set no value. -/
structure Globals (α : Type) where
  CurrentPostProcessList : List PostProcesses
  CurrentPostProcessListString : List String
  listBoxIndex : Nat
  BurnLevel : α
  SpiralTimer : α
  HeatHazeTimer : α
  TintHueRotateTimer : α
  WiggleTimer : α
  firstSceneRenderer : Bool
  BackBufferWidth : Nat
  BackBufferHeight : Nat
  PPTintColour : Vec4 α
  PPTint2Rotate : Bool
  PPTint2Colour1 : Option (Vec4 α)
  PPTint2Colour2 : Option (Vec4 α)
  GrainSize : α
  DistortLevel : α
  PPWaterColour : Vec4 α
  Pixelation : α
  ColourDepth : α
  GaussianBlurSigma : α
  BloomStrenght : α
  BloomThreshold : α
  BloomPixelation : α
  BloomIntensity : α
  BloomOriginalIntensity : α
  BloomSaturation : α
  BloomOriginalSaturation : α
  GameboyPixels : α
  GameboyColourDepth : α
  GameboyColour : Vec4 α
  renderTarget : Option RenderTargetView
  SceneTextureVar : Option ShaderResourceView
  PostProcessMapVar : Option ShaderResourceView
  PPAreaTopLeftVar : Option (α × α)
  PPAreaBottomRightVar : Option (α × α)
  PPAreaDepthVar : Option α
  TintColourVar : Option (α × α × α)
  TintColour2Var : Option (α × α × α)
  NoiseScaleVar : Option (α × α)
  NoiseOffsetVar : Option (α × α)
  DistortLevelVar : Option α
  BurnLevelVar : Option α
  SpiralTimerVar : Option α
  HeatHazeTimerVar : Option α
  BloomThresholdVar : Option α
  BloomPixelationVar : Option α
  BloomIntensityVar : Option α
  BloomOriginalIntensityVar : Option α
  BloomSaturationVar : Option α
  BloomOriginalSaturationVar : Option α
  GameboyPixelsVar : Option α
  GameboyColourDepthVar : Option α
  GameboyColourVar : Option (α × α × α)
  PixelationVar : Option α
  ColourPalletVar : Option α
  GaussianBlurSigmaVar : Option α
  draws : List Draw

section Pipeline

variable {α : Type} [LinearOrderedField α]

/-- The speed constants of PostProcessPoly.cpp. -/
def BurnSpeed : α := 2 / 10

/-- The constant `SpiralSpeed`. -/
def SpiralSpeed : α := 1

/-- The constant `HeatHazeSpeed`. -/
def HeatHazeSpeed : α := 1

/-- The constant `TintHueRotateSpeed`. -/
def TintHueRotateSpeed : α := 10

/-- The constant `WiggleSpeed`. -/
def WiggleSpeed : α := 1

/-- The values the globals are initialised with: no effect variable has been
set, nothing is bound and nothing drawn. The extern back buffer dimensions,
which the window creation sets, are taken to be 1280 x 960. -/
def startup : Globals α where
  CurrentPostProcessList := [.Copy]
  CurrentPostProcessListString := ["PPCopy"]
  listBoxIndex := 0
  BurnLevel := 0
  SpiralTimer := 0
  HeatHazeTimer := 0
  TintHueRotateTimer := 0
  WiggleTimer := 0
  firstSceneRenderer := false
  BackBufferWidth := 1280
  BackBufferHeight := 960
  PPTintColour := ⟨1, 0, 0, 1⟩
  PPTint2Rotate := true
  PPTint2Colour1 := some ⟨0, 0, 1, 1⟩
  PPTint2Colour2 := some ⟨1, 1, 0, 1⟩
  GrainSize := 140
  DistortLevel := 3 / 100
  PPWaterColour := ⟨0, 1, 1, 1⟩
  Pixelation := 128
  ColourDepth := 4
  GaussianBlurSigma := 40
  BloomStrenght := 40
  BloomThreshold := 3 / 10
  BloomPixelation := 512
  BloomIntensity := 13 / 10
  BloomOriginalIntensity := 1
  BloomSaturation := 1
  BloomOriginalSaturation := 1
  GameboyPixels := 150
  GameboyColourDepth := 4
  GameboyColour := ⟨509 / 1000, 675 / 1000, 59 / 1000, 1⟩
  renderTarget := none
  SceneTextureVar := none
  PostProcessMapVar := none
  PPAreaTopLeftVar := none
  PPAreaBottomRightVar := none
  PPAreaDepthVar := none
  TintColourVar := none
  TintColour2Var := none
  NoiseScaleVar := none
  NoiseOffsetVar := none
  DistortLevelVar := none
  BurnLevelVar := none
  SpiralTimerVar := none
  HeatHazeTimerVar := none
  BloomThresholdVar := none
  BloomPixelationVar := none
  BloomIntensityVar := none
  BloomOriginalIntensityVar := none
  BloomSaturationVar := none
  BloomOriginalSaturationVar := none
  GameboyPixelsVar := none
  GameboyColourDepthVar := none
  GameboyColourVar := none
  PixelationVar := none
  ColourPalletVar := none
  GaussianBlurSigmaVar := none
  draws := []

/-- Three floats `x, y, z` (`CVector3`). -/
structure CVector3 (α : Type) where
  x : α
  y : α
  z : α

/-- The camera as `SetPostProcessArea` uses it. `CVector4`, `CMatrix4x4` and
`CCamera` are declared in headers outside the sources, so each of the two
matrices is given by the map `v ↦ v * M` it induces on `CVector4`. -/
structure CCamera (α : Type) where
  GetViewMatrix : Vec4 α → Vec4 α
  GetProjMatrix : Vec4 α → Vec4 α

/-- The first 12 bytes of a colour, which `SetRawValue(&c, 0, 12)` copies:
its red, green and blue floats. -/
def rgb12 (c : Vec4 α) : α × α × α := (c.x, c.y, c.z)

/-- `SetFullScreenPostProcessArea`: the whole screen is the area to affect. -/
def SetFullScreenPostProcessArea (s : Globals α) : Globals α :=
  { s with
    PPAreaTopLeftVar := some (0, 0)
    PPAreaBottomRightVar := some (1, 1)
    PPAreaDepthVar := some 0 }

/-- The statements `PPTechniques[t]->GetPassByIndex(0)->Apply(0);
g_pd3dDevice->Draw(4, 0);`: one draw with what is bound at this moment. -/
def ApplyAndDraw (t : PostProcesses) (s : Globals α) : Globals α :=
  { s with draws := s.draws ++ [⟨t, s.renderTarget, s.SceneTextureVar, s.PostProcessMapVar⟩] }

/-- The shader resource view of the ping-pong texture that `firstSceneRenderer`
designates: `SceneShaderResource` when it is set, `SceneShaderResource2`
otherwise. -/
def readView (firstSceneRenderer : Bool) : ShaderResourceView :=
  if firstSceneRenderer then .SceneShaderResource else .SceneShaderResource2

/-- The render target view of the other ping-pong texture: `SceneRenderTarget2`
when `firstSceneRenderer` is set, `SceneRenderTarget` otherwise. -/
def writeView (firstSceneRenderer : Bool) : RenderTargetView :=
  if firstSceneRenderer then .SceneRenderTarget2 else .SceneRenderTarget

/-- `case Tint` of `SelectPostProcess`. -/
def caseTint (s : Globals α) : Globals α :=
  { s with TintColourVar := some (rgb12 s.PPTintColour) }

/-- `case Tint2` of `SelectPostProcess`. -/
def caseTint2 (s : Globals α) : Globals α :=
  { s with
    TintColourVar := s.PPTint2Colour1.map rgb12
    TintColour2Var := s.PPTint2Colour2.map rgb12 }

/-- `case GreyNoise` of `SelectPostProcess`; `RandomUVs` are the two values
that the calls `Random(0.0f, 1.0f)` return. -/
def caseGreyNoise (RandomUVs : α × α) (s : Globals α) : Globals α :=
  { s with
    NoiseScaleVar :=
      match checkedDiv (s.BackBufferWidth : α) s.GrainSize,
            checkedDiv (s.BackBufferHeight : α) s.GrainSize with
      | some u, some v => some (u, v)
      | _, _ => none
    NoiseOffsetVar := some RandomUVs
    PostProcessMapVar := some .NoiseMap }

/-- `case Burn` of `SelectPostProcess`. -/
def caseBurn (s : Globals α) : Globals α :=
  { s with BurnLevelVar := some s.BurnLevel, PostProcessMapVar := some .BurnMap }

/-- `case Distort` of `SelectPostProcess`. -/
def caseDistort (s : Globals α) : Globals α :=
  { s with DistortLevelVar := some s.DistortLevel, PostProcessMapVar := some .DistortMap }

/-- `case Spiral` of `SelectPostProcess`; `Cos` is the cosine of the maths
library. -/
def caseSpiral (Cos : α → α) (s : Globals α) : Globals α :=
  { s with SpiralTimerVar := some ((1 - Cos s.SpiralTimer) * 4) }

/-- `case HeatHaze` of `SelectPostProcess`. -/
def caseHeatHaze (s : Globals α) : Globals α :=
  { s with HeatHazeTimerVar := some s.HeatHazeTimer }

/-- `case Water` of `SelectPostProcess`. -/
def caseWater (s : Globals α) : Globals α :=
  { s with
    TintColourVar := some (rgb12 s.PPWaterColour)
    SpiralTimerVar := some s.WiggleTimer }

/-- `case GaussianBlurHori: case GaussianBlurVert:` of `SelectPostProcess`. -/
def caseGaussianBlur (s : Globals α) : Globals α :=
  { s with GaussianBlurSigmaVar := some 5 }

/-- `case Retro` of `SelectPostProcess`: its block has no `break`, so control
continues into the Gaussian blur case. -/
def caseRetro (s : Globals α) : Globals α :=
  caseGaussianBlur
    { s with PixelationVar := some s.Pixelation, ColourPalletVar := some s.ColourDepth }

/-- `case Gameboy` of `SelectPostProcess`. -/
def caseGameboy (s : Globals α) : Globals α :=
  { s with
    GameboyPixelsVar := some s.GameboyPixels
    GameboyColourDepthVar := some s.GameboyColourDepth
    GameboyColourVar := some (rgb12 s.GameboyColour) }

/-- The settings that `case Bloom` binds first. -/
def bloomSettings (s : Globals α) : Globals α :=
  { s with
    GaussianBlurSigmaVar := some s.BloomStrenght
    BloomThresholdVar := some s.BloomThreshold
    BloomPixelationVar := some s.BloomPixelation
    BloomIntensityVar := some s.BloomIntensity
    BloomOriginalIntensityVar := some s.BloomOriginalIntensity
    BloomSaturationVar := some s.BloomSaturation
    BloomOriginalSaturationVar := some s.BloomOriginalSaturation }

/-- The block "draw bloom selection to bloom tex" of `case Bloom`. -/
def bloomSelectionPass (s : Globals α) : Globals α :=
  let s := { s with renderTarget := some .BloomRenderTarget }
  let s := { s with SceneTextureVar := some (readView s.firstSceneRenderer) }
  ApplyAndDraw .BloomSelection (SetFullScreenPostProcessArea s)

/-- The block "draw blur to scene tex" of `case Bloom`. -/
def bloomBlurHoriPass (s : Globals α) : Globals α :=
  let s := { s with renderTarget := some (writeView s.firstSceneRenderer) }
  let s := { s with SceneTextureVar := some .BloomShaderResource }
  ApplyAndDraw .GaussianBlurHori (SetFullScreenPostProcessArea s)

/-- The block "draw final blur to bloom tex" of `case Bloom`. -/
def bloomBlurVertPass (s : Globals α) : Globals α :=
  let s := { s with renderTarget := some .BloomRenderTarget }
  let s := { s with SceneTextureVar := some (readView (!s.firstSceneRenderer)) }
  ApplyAndDraw .GaussianBlurVert (SetFullScreenPostProcessArea s)

/-- The three draws inside `case Bloom`, for the value of `firstSceneRenderer`
and the content of `PostProcessMap` on entry. -/
def bloomSubPasses (firstSceneRenderer : Bool) (PostProcessMap : Option ShaderResourceView) :
    List Draw :=
  [⟨.BloomSelection, some .BloomRenderTarget, some (readView firstSceneRenderer), PostProcessMap⟩,
   ⟨.GaussianBlurHori, some (writeView firstSceneRenderer), some .BloomShaderResource,
     PostProcessMap⟩,
   ⟨.GaussianBlurVert, some .BloomRenderTarget, some (readView (!firstSceneRenderer)),
     PostProcessMap⟩]

/-- `case Bloom` of `SelectPostProcess`: settings, three passes, the bloom
texture as `PostProcessMap`; its block has no `break`, so control continues
into the Gameboy case. -/
def caseBloom (s : Globals α) : Globals α :=
  let s := bloomBlurVertPass (bloomBlurHoriPass (bloomSelectionPass (bloomSettings s)))
  caseGameboy { s with PostProcessMapVar := some .BloomShaderResource }

/-- `SelectPostProcess`: set up the shaders for the given filter. Tags without
a case label (`Copy`, `Grayscale`, `Invert`, `BloomSelection`) do nothing. -/
def SelectPostProcess (Cos : α → α) (RandomUVs : α × α) (filter : PostProcesses)
    (s : Globals α) : Globals α :=
  match filter with
  | .Tint => caseTint s
  | .Tint2 => caseTint2 s
  | .GreyNoise => caseGreyNoise RandomUVs s
  | .Burn => caseBurn s
  | .Distort => caseDistort s
  | .Spiral => caseSpiral Cos s
  | .HeatHaze => caseHeatHaze s
  | .Water => caseWater s
  | .Retro => caseRetro s
  | .GaussianBlurHori => caseGaussianBlur s
  | .GaussianBlurVert => caseGaussianBlur s
  | .Bloom => caseBloom s
  | .Gameboy => caseGameboy s
  | .Copy => s
  | .Grayscale => s
  | .Invert => s
  | .BloomSelection => s

/-- The target and texture selection of one iteration of the loop of
`FullScreenPostProcess` (the `if (i == listCount - 1) ... else if ... else`),
with `i` and `listCount` the `int` variables of the source. -/
def selectBuffers (listCount i : Int) (s : Globals α) : Globals α :=
  if i = listCount - 1 then
    let s := { s with renderTarget := some .BackBufferRenderTarget }
    if s.firstSceneRenderer then
      { s with SceneTextureVar := some .SceneShaderResource, firstSceneRenderer := false }
    else
      { s with SceneTextureVar := some .SceneShaderResource2, firstSceneRenderer := true }
  else if s.firstSceneRenderer then
    { s with
      renderTarget := some .SceneRenderTarget2
      SceneTextureVar := some .SceneShaderResource
      firstSceneRenderer := false }
  else
    { s with
      renderTarget := some .SceneRenderTarget
      SceneTextureVar := some .SceneShaderResource2
      firstSceneRenderer := true }

/-- The body of the loop of `FullScreenPostProcess` for the entry `filter` at
index `i`. -/
def stageBody (Cos : α → α) (RandomUVs : α × α) (listCount i : Nat) (filter : PostProcesses)
    (s : Globals α) : Globals α :=
  let s := SelectPostProcess Cos RandomUVs filter s
  let s := selectBuffers (listCount : Int) (i : Int) s
  ApplyAndDraw filter (SetFullScreenPostProcessArea s)

/-- The state after the iterations `0 .. k - 1` of the loop of
`FullScreenPostProcess`, the loop bound being `listCount`; `RandomUVs i` are
the random numbers drawn in iteration `i`. -/
def FullScreenLoop (Cos : α → α) (RandomUVs : Nat → α × α) (listCount : Nat) :
    Nat → Globals α → Globals α
  | 0, s => s
  | k + 1, s =>
    let s := FullScreenLoop Cos RandomUVs listCount k s
    match s.CurrentPostProcessList[k]? with
    | some filter => stageBody Cos (RandomUVs k) listCount k filter s
    | none => s

/-- `FullScreenPostProcess`: one stage per entry of `CurrentPostProcessList`. -/
def FullScreenPostProcess (Cos : α → α) (RandomUVs : Nat → α × α) (s : Globals α) :
    Globals α :=
  let listCount := s.CurrentPostProcessList.length
  FullScreenLoop Cos RandomUVs listCount listCount s

/-- The draw that ends iteration `i` of the loop of `FullScreenPostProcess`:
the last draw issued once the iterations `0 .. i` have run. -/
def stageDraw (Cos : α → α) (RandomUVs : Nat → α × α) (s : Globals α) (i : Nat) :
    Option Draw :=
  (FullScreenLoop Cos RandomUVs s.CurrentPostProcessList.length (i + 1) s).draws.getLast?

/-- The value of `firstSceneRenderer` when iteration `i` of the loop of
`FullScreenPostProcess` starts. -/
def flagAtStage (Cos : α → α) (RandomUVs : Nat → α × α) (s : Globals α) (i : Nat) : Bool :=
  (FullScreenLoop Cos RandomUVs s.CurrentPostProcessList.length i s).firstSceneRenderer

/-- The search loop of the "Add" button: the first tag, in enumeration order,
whose technique name compares equal to `dropBoxCurrent`. -/
def findTechnique (dropBoxCurrent : String) : Option PostProcesses :=
  allPostProcesses.find? (fun p => PPTechniqueNames p == dropBoxCurrent)

/-- The "Add" button of `RenderImGui`, `dropBoxCurrent` being the text held by
the combo box: the text is pushed, then the tag if the search finds one. -/
def Add (dropBoxCurrent : String) (s : Globals α) : Globals α :=
  let s := { s with
    CurrentPostProcessListString := s.CurrentPostProcessListString ++ [dropBoxCurrent] }
  match findTechnique dropBoxCurrent with
  | some p => { s with CurrentPostProcessList := s.CurrentPostProcessList ++ [p] }
  | none => s

/-- A click on row `i` of the list box of `RenderImGui`; the list box has the
rows `0 .. listBoxCount - 1`. -/
def SelectRow (i : Nat) (s : Globals α) : Globals α :=
  if i < s.CurrentPostProcessListString.length then { s with listBoxIndex := i } else s

/-- The call `v.erase(v.begin() + i)`: defined only for `i < v.size()`. -/
def eraseAt {β : Type} (v : List β) (i : Nat) : Option (List β) :=
  if i < v.length then some (v.eraseIdx i) else none

/-- The call `swap(v[i], v[j])`: defined only when both indices are inside
the vector. -/
def swapAt {β : Type} (v : List β) (i j : Nat) : Option (List β) :=
  match v[i]?, v[j]? with
  | some a, some b => some ((v.set i b).set j a)
  | _, _ => none

/-- The value of `v.size() - 1` in the unsigned type `size_t`, taken to be 64
bits wide, for a vector of `n` elements. -/
def sizeMinusOne (n : Nat) : Nat := (n + 2 ^ 64 - 1) % 2 ^ 64

/-- The "Remove" button of `RenderImGui`; `none` when an erase is applied
outside its vector. -/
def Remove (s : Globals α) : Option (Globals α) :=
  let listBoxCount := s.CurrentPostProcessListString.length
  if listBoxCount > 1 then
    match eraseAt s.CurrentPostProcessList s.listBoxIndex,
          eraseAt s.CurrentPostProcessListString s.listBoxIndex with
    | some l, some n =>
      some { s with CurrentPostProcessList := l, CurrentPostProcessListString := n }
    | _, _ => none
  else some s

/-- The "Move Up" button of `RenderImGui`; `none` when a swap reaches outside
its vector. -/
def MoveUp (s : Globals α) : Option (Globals α) :=
  let listBoxCount := s.CurrentPostProcessListString.length
  if listBoxCount > 1 ∧ s.listBoxIndex > 0 then
    match swapAt s.CurrentPostProcessList s.listBoxIndex (s.listBoxIndex - 1),
          swapAt s.CurrentPostProcessListString s.listBoxIndex (s.listBoxIndex - 1) with
    | some l, some n =>
      some { s with
        CurrentPostProcessList := l
        CurrentPostProcessListString := n
        listBoxIndex := s.listBoxIndex - 1 }
    | _, _ => none
  else some s

/-- The "Move Down" button of `RenderImGui`; `none` when a swap reaches outside
its vector. -/
def MoveDown (s : Globals α) : Option (Globals α) :=
  let listBoxCount := s.CurrentPostProcessListString.length
  if listBoxCount > 1 ∧ s.listBoxIndex < sizeMinusOne s.CurrentPostProcessList.length then
    match swapAt s.CurrentPostProcessList s.listBoxIndex (s.listBoxIndex + 1),
          swapAt s.CurrentPostProcessListString s.listBoxIndex (s.listBoxIndex + 1) with
    | some l, some n =>
      some { s with
        CurrentPostProcessList := l
        CurrentPostProcessListString := n
        listBoxIndex := s.listBoxIndex + 1 }
    | _, _ => none
  else some s

/-- The actions of the chain editor in the "Render" window: "Add" with the
combo box holding the name of a tag (it only ever holds an entry of
`PPTechniqueNames`), a click on a list box row, and the three buttons. -/
inductive ChainEdit
  | Add (n : PostProcesses)
  | SelectRow (i : Nat)
  | Remove
  | MoveUp
  | MoveDown
deriving DecidableEq, Repr

/-- One action of the chain editor. -/
def applyEdit (e : ChainEdit) (s : Globals α) : Option (Globals α) :=
  match e with
  | .Add n => some (Add (PPTechniqueNames n) s)
  | .SelectRow i => some (SelectRow i s)
  | .Remove => Remove s
  | .MoveUp => MoveUp s
  | .MoveDown => MoveDown s

/-- A sequence of actions of the chain editor, first action first. -/
def applyEdits : List ChainEdit → Globals α → Option (Globals α)
  | [], s => some s
  | e :: es, s => (applyEdit e s).bind (applyEdits es)

/-- `SetPostProcessArea`: the top-left, bottom-right and depth coordinates of
the area to post-process. An output that takes a quotient by zero is `none`. -/
def SetPostProcessArea (camera : CCamera α) (areaCentre : CVector3 α) (width height : α)
    (depthOffset : α) (s : Globals α) : Globals α :=
  let cameraSpaceCentre := camera.GetViewMatrix ⟨areaCentre.x, areaCentre.y, areaCentre.z, 1⟩
  let cameraSpaceCentre :=
    { cameraSpaceCentre with
      x := cameraSpaceCentre.x - width / 2
      y := cameraSpaceCentre.y + height / 2 }
  let cameraTopLeft := cameraSpaceCentre
  let cameraSpaceCentre :=
    { cameraSpaceCentre with
      x := cameraSpaceCentre.x + width
      y := cameraSpaceCentre.y - height }
  let cameraBottomRight := cameraSpaceCentre
  let projTopLeft := camera.GetProjMatrix cameraTopLeft
  let projBottomRight := camera.GetProjMatrix cameraBottomRight
  let topLeftX := checkedDiv projTopLeft.x projTopLeft.w
  let topLeftY := checkedDiv projTopLeft.y projTopLeft.w
  let bottomRightX := checkedDiv projBottomRight.x projBottomRight.w
  let bottomRightY := checkedDiv projBottomRight.y projBottomRight.w
  let topLeftZ := checkedDiv (projTopLeft.z + depthOffset) (projTopLeft.w + depthOffset)
  let topLeftX := topLeftX.map (fun x => x / 2 + 1 / 2)
  let topLeftY := topLeftY.map (fun y => -y / 2 + 1 / 2)
  let bottomRightX := bottomRightX.map (fun x => x / 2 + 1 / 2)
  let bottomRightY := bottomRightY.map (fun y => -y / 2 + 1 / 2)
  { s with
    PPAreaTopLeftVar :=
      match topLeftX, topLeftY with
      | some x, some y => some (x, y)
      | _, _ => none
    PPAreaBottomRightVar :=
      match bottomRightX, bottomRightY with
      | some x, some y => some (x, y)
      | _, _ => none
    PPAreaDepthVar := topLeftZ }

end Pipeline

section Animation

variable {α : Type} [LinearOrderedField α] [FloorRing α]

/-- The hue rotation that `UpdatePostProcesses` applies to one tint colour:
to HSL, hue plus `TintHueRotateTimer`, less 360 when above 360, back to RGB. -/
def rotateTint (TintHueRotateTimer : α) (colour : Vec4 α) : Option (Vec4 α) :=
  (RGBToHSL colour).map fun HslColor =>
    let x := HslColor.x + TintHueRotateTimer
    let x := if x > 360 then x - 360 else x
    HSLToRBG { HslColor with x := x }

/-- `UpdatePostProcesses`. `Mod` is the function of that name of the maths
library, which is outside the sources. The call `UpdateTimeVar(updateTime)`
passes the time to the scene shaders and touches none of the globals here. -/
def UpdatePostProcesses (Mod : α → α → α) (updateTime : α) (s : Globals α) : Globals α :=
  let s := { s with BurnLevel := Mod (s.BurnLevel + BurnSpeed * updateTime) 1 }
  let s := { s with SpiralTimer := s.SpiralTimer + SpiralSpeed * updateTime }
  let s := { s with HeatHazeTimer := s.HeatHazeTimer + HeatHazeSpeed * updateTime }
  let s := { s with WiggleTimer := s.WiggleTimer + WiggleSpeed * updateTime }
  let s := { s with TintHueRotateTimer := TintHueRotateSpeed * updateTime }
  if s.PPTint2Rotate then
    let s := { s with PPTint2Colour1 := s.PPTint2Colour1.bind (rotateTint s.TintHueRotateTimer) }
    { s with PPTint2Colour2 := s.PPTint2Colour2.bind (rotateTint s.TintHueRotateTimer) }
  else s

/-- The calls `UpdatePostProcesses(t)` for the update times `t` of a list, in
order. -/
def UpdateSequence (Mod : α → α → α) : List α → Globals α → Globals α
  | [], s => s
  | t :: ts, s => UpdateSequence Mod ts (UpdatePostProcesses Mod t s)

end Animation

end PostProcessPoly

namespace PostProcess

/-- The enumeration `PostProcesses` of PostProcess.cpp. -/
inductive PostProcesses
  | Copy | Tint | Tint2 | GreyNoise | Burn | Distort | Spiral | Water | Retro | Grayscale | Invert
deriving DecidableEq, Repr

/-- The handling of the Control key in `UpdateScene` of PostProcess.cpp
("remove post process"), on the vector `CurrentPostProcessList`. -/
def RemovePostProcess (CurrentPostProcessList : List PostProcesses) : List PostProcesses :=
  if CurrentPostProcessList.length > 1 then CurrentPostProcessList.dropLast
  else CurrentPostProcessList

end PostProcess

namespace PostProcessPoly

open HSL

/-- Modelled from the spec: `Mod` of the maths library, which is outside the
sources. The spec gives `level = (level + burnSpeed*dt) mod 1.0`, "wraps,
never negative": the mathematical modulo. -/
def Mod {α : Type} [LinearOrderedField α] [FloorRing α] (x y : α) : α :=
  x - y * (⌊x / y⌋ : α)

/-- A state with the chain `[Tint, Invert]`, the second row selected. -/
def exampleTintInvert : Globals ℚ :=
  { (startup : Globals ℚ) with
    CurrentPostProcessList := [.Tint, .Invert]
    CurrentPostProcessListString := ["PPTint", "PPInvert"]
    listBoxIndex := 1 }

/-- A state with the chain `[Copy, Bloom, Invert]`. -/
def exampleWithBloom : Globals ℚ :=
  { (startup : Globals ℚ) with
    CurrentPostProcessList := [.Copy, .Bloom, .Invert]
    CurrentPostProcessListString := ["PPCopy", "PPBloom", "PPInvert"] }

/-- A camera at the origin looking along `z`, with a perspective projection
that scales `x` by 2 and `y` by 3. -/
def exampleCamera : CCamera ℚ where
  GetViewMatrix := fun v => v
  GetProjMatrix := fun v => ⟨2 * v.x, 3 * v.y, v.z - v.w, v.z⟩

/-- An area centre 100 units in front of `exampleCamera`. -/
def exampleCentre : CVector3 ℚ := ⟨0, 0, 100⟩

/-- The hue that `UpdatePostProcesses` hands to `HSLToRBG` for a colour of hue
`hue`: the statements `Hsl.x += TintHueRotateTimer; if (Hsl.x > 360) Hsl.x -= 360;`
as they stand inside `rotateTint`. -/
def rotatedHue {α : Type} [LinearOrderedField α] (TintHueRotateTimer hue : α) : α :=
  let x := hue + TintHueRotateTimer
  if x > 360 then x - 360 else x

/-- What one call of `RenderScene` issues, in order: the two calls of
`EntityManager.RenderAllEntities` (with the render target bound at that moment
and the flag that asks for the post-processed polygons only), the full-screen
quad draws, `RenderImGui`, `RenderSceneText` and `SwapChain->Present`. -/
inductive FrameEvent
  | RenderAllEntities (renderTarget : Option RenderTargetView) (postProcessOnly : Bool)
  | Draw (d : Draw)
  | RenderImGui
  | RenderSceneText
  | Present
deriving DecidableEq, Repr

/-- The result of one call of `RenderScene`: the events issued and the globals
afterwards, `none` when the chain editor inside `RenderImGui` reached outside
a vector. -/
structure Frame (α : Type) where
  events : List FrameEvent
  globals : Option (Globals α)

/-- The draws issued between two states, as events. -/
def newDraws {α : Type} (before after : Globals α) : List FrameEvent :=
  (after.draws.drop before.draws.length).map FrameEvent.Draw

/-- `RenderScene` of PostProcessPoly.cpp. `camera` is `MainCamera` once its
matrices are calculated, `cubeyPosition` the position of the entity "Cubey"
and `RenderImGui` what the user interface does to the globals in this frame.
The viewport, clear, camera and light calls touch none of the globals here.
The filters `Copy` and `Spiral` draw no random numbers. -/
def RenderScene {α : Type} [LinearOrderedField α] (camera : CCamera α)
    (cubeyPosition : CVector3 α) (Cos : α → α) (RandomUVs : Nat → α × α)
    (RenderImGui : Globals α → Option (Globals α)) (s : Globals α) : Frame α :=
  let s1 := { s with renderTarget := some .SceneRenderTarget, firstSceneRenderer := true }
  let sceneRender := [FrameEvent.RenderAllEntities s1.renderTarget false]
  let s2 := { s1 with
    renderTarget := some .SceneRenderTarget2
    SceneTextureVar := some .SceneShaderResource
    firstSceneRenderer := false }
  let s3 := ApplyAndDraw .Copy
    (SetFullScreenPostProcessArea (SelectPostProcess Cos (RandomUVs 0) .Copy s2))
  let polyRender := [FrameEvent.RenderAllEntities s3.renderTarget true]
  let s4 := ApplyAndDraw .Spiral
    (SelectPostProcess Cos (RandomUVs 0) .Spiral
      (SetPostProcessArea camera cubeyPosition 20 20 (-9) s3))
  let s5 := FullScreenPostProcess Cos RandomUVs s4
  let s6 := { s5 with SceneTextureVar := none }
  { events := sceneRender ++ newDraws s2 s3 ++ polyRender ++ newDraws s3 s4 ++ newDraws s4 s5 ++
      [FrameEvent.RenderImGui, FrameEvent.RenderSceneText, FrameEvent.Present]
    globals := RenderImGui s6 }

/-- A state whose chain is empty. -/
def exampleEmptyChain : Globals ℚ :=
  { (startup : Globals ℚ) with
    CurrentPostProcessList := []
    CurrentPostProcessListString := [] }

/-- The state `exampleWithBloom` with Tint in the place of Bloom. -/
def exampleWithoutBloom : Globals ℚ :=
  { (startup : Globals ℚ) with
    CurrentPostProcessList := [.Copy, .Tint, .Invert]
    CurrentPostProcessListString := ["PPCopy", "PPTint", "PPInvert"] }

/-- A state in which the first colour of Tint2 is `(1/2, 1/4, 1/4, 1)`. -/
def exampleDullTint : Globals ℚ :=
  { (startup : Globals ℚ) with PPTint2Colour1 := some ⟨1 / 2, 1 / 4, 1 / 4, 1⟩ }

end PostProcessPoly

namespace PostProcessPoly

open HSL

section Panels

variable {α : Type} [LinearOrderedField α]

/-- The "Default" button of the panel "PPTint" of `RenderImGui`. -/
def DefaultPPTint (s : Globals α) : Globals α :=
  { s with PPTintColour := ⟨1, 0, 0, 1⟩ }

/-- The "Default" button of the panel "PPTint2" of `RenderImGui`: its two
statements both assign `PPTintColour`. -/
def DefaultPPTint2 (s : Globals α) : Globals α :=
  let s := { s with PPTintColour := ⟨0, 0, 1, 1⟩ }
  { s with PPTintColour := ⟨1, 1, 0, 1⟩ }

/-- The "Default" button of the panel "PPGrayNoise" of `RenderImGui`. -/
def DefaultPPGrayNoise (s : Globals α) : Globals α :=
  { s with GrainSize := 140 }

/-- The "Default" button of the panel "PPDistort" of `RenderImGui`. -/
def DefaultPPDistort (s : Globals α) : Globals α :=
  { s with DistortLevel := 3 / 100 }

/-- The "Default" button of the panel "PPWater" of `RenderImGui`. -/
def DefaultPPWater (s : Globals α) : Globals α :=
  { s with PPWaterColour := ⟨0, 1, 1, 1⟩ }

/-- The "Default" button of the panel "PPRetro" of `RenderImGui`: it assigns
`DistortLevel` and `ColourDepth`. -/
def DefaultPPRetro (s : Globals α) : Globals α :=
  { s with DistortLevel := 120, ColourDepth := 4 }

/-- The "Default" button of the panel "PPGaussianBlur" of `RenderImGui`. -/
def DefaultPPGaussianBlur (s : Globals α) : Globals α :=
  { s with GaussianBlurSigma := 5 }

/-- The "Default" button of the panel "PPBloom" of `RenderImGui`. -/
def DefaultPPBloom (s : Globals α) : Globals α :=
  { s with
    GaussianBlurSigma := 40
    BloomThreshold := 3 / 10
    BloomPixelation := 512
    BloomIntensity := 13 / 10
    BloomOriginalIntensity := 1
    BloomSaturation := 1
    BloomOriginalSaturation := 1 }

/-- The "Default" button of the panel "PPGameboy" of `RenderImGui`. -/
def DefaultPPGameboy (s : Globals α) : Globals α :=
  { s with
    GameboyPixels := 150
    GameboyColourDepth := 4
    GameboyColour := ⟨509 / 1000, 675 / 1000, 59 / 1000, 1⟩ }

/-- The slider "Blur Strength Slider" of the panel "PPGaussianBlur", moved to
`value`: `ImGui::SliderFloat` writes through `&GaussianBlurSigma`. -/
def BlurStrengthSlider (value : α) (s : Globals α) : Globals α :=
  { s with GaussianBlurSigma := value }

/-- The slider "Bloom Strength Slider" of the panel "PPBloom", moved to
`value`: `ImGui::SliderFloat` writes through `&GaussianBlurSigma`. -/
def BloomStrengthSlider (value : α) (s : Globals α) : Globals α :=
  { s with GaussianBlurSigma := value }

/-- The colour picker "PPTint2Color1" of the panel "PPTint2" of `RenderImGui`,
the user choosing the red, green and blue values `col`: `ImGui::ColorEdit3`
writes three floats through `(float*)&PPTint2Colour1`, the fourth stays. A
colour without a value (`none`, after a quotient by zero) is left as it is,
its fourth component being part of it. -/
def ColorEdit3PPTint2Color1 (col : α × α × α) (s : Globals α) : Globals α :=
  { s with
    PPTint2Colour1 := s.PPTint2Colour1.map fun c => ⟨col.1, col.2.1, col.2.2, c.w⟩ }

/-- The colour picker "PPTint2Color2" of the panel "PPTint2" of `RenderImGui`:
`ImGui::ColorEdit3` writes three floats through `(float*)&PPTint2Colour2`. -/
def ColorEdit3PPTint2Color2 (col : α × α × α) (s : Globals α) : Globals α :=
  { s with
    PPTint2Colour2 := s.PPTint2Colour2.map fun c => ⟨col.1, col.2.1, col.2.2, c.w⟩ }

/-- The animated parameter state: `BurnLevel`, `SpiralTimer`, `HeatHazeTimer`,
`WiggleTimer`, `PPTint2Colour1` and `PPTint2Colour2`. -/
def animatedState (s : Globals α) : α × α × α × α × Option (Vec4 α) × Option (Vec4 α) :=
  (s.BurnLevel, s.SpiralTimer, s.HeatHazeTimer, s.WiggleTimer, s.PPTint2Colour1,
    s.PPTint2Colour2)

end Panels

/-- A state in which the user has edited the Tint2 colours, the Retro
pixelation and the blur strength away from their initial values. -/
def exampleEdited : Globals ℚ :=
  { (startup : Globals ℚ) with
    PPTint2Colour1 := some ⟨1 / 6, 0, 1, 1⟩
    PPTint2Colour2 := some ⟨5 / 6, 1, 0, 1⟩
    Pixelation := 64
    GaussianBlurSigma := 10 }

end PostProcessPoly

namespace PostProcess

/-- The textures of PostProcess.cpp: the two scene textures, the back buffer
of the swap chain and the three loaded images. -/
inductive Texture
  | SceneTexture | SceneTexture2 | BackBuffer | Noise | Burn | Distort
deriving DecidableEq, Repr

/-- The render target views of PostProcess.cpp. -/
inductive RenderTargetView
  | SceneRenderTarget | SceneRenderTarget2 | BackBufferRenderTarget
deriving DecidableEq, Repr

/-- The shader resource views of PostProcess.cpp. -/
inductive ShaderResourceView
  | SceneShaderResource | SceneShaderResource2 | NoiseMap | BurnMap | DistortMap
deriving DecidableEq, Repr

/-- The texture a render target view was created on (`PostProcessSetup`). -/
def RenderTargetView.texture : RenderTargetView → Texture
  | .SceneRenderTarget => .SceneTexture
  | .SceneRenderTarget2 => .SceneTexture2
  | .BackBufferRenderTarget => .BackBuffer

/-- The texture a shader resource view was created on (`PostProcessSetup`). -/
def ShaderResourceView.texture : ShaderResourceView → Texture
  | .SceneShaderResource => .SceneTexture
  | .SceneShaderResource2 => .SceneTexture2
  | .NoiseMap => .Noise
  | .BurnMap => .Burn
  | .DistortMap => .Distort

/-- One `Draw(4, 0)` call of PostProcess.cpp: the technique applied before it,
the render target bound and the resources held by the effect variables
`SceneTexture` and `PostProcessMap` at that moment. -/
structure Draw where
  technique : PostProcesses
  renderTarget : Option RenderTargetView
  SceneTexture : Option ShaderResourceView
  PostProcessMap : Option ShaderResourceView
deriving DecidableEq, Repr

/-- What `RenderScene` of PostProcess.cpp issues: the scene render (with the
render target bound at that moment), the quad draws, `RenderImGui`,
`RenderSceneText` and `SwapChain->Present`. -/
inductive FrameEvent
  | RenderAllEntities (renderTarget : Option RenderTargetView)
  | Draw (d : Draw)
  | RenderImGui
  | RenderSceneText
  | Present
deriving DecidableEq, Repr

/-- The variables of PostProcess.cpp that `RenderScene` reads or writes: the
chain, the globals, the three statics of the switch (`BurnLevel` of the Burn
case, `Wiggle` of the Spiral case, `Wiggle` of the Water case), the render
target bound, the effect variables (`none`: nothing set or bound) and the
events issued so far. -/
structure Globals (α : Type) where
  CurrentPostProcessList : List PostProcesses
  firstSceneRenderer : Bool
  motionBlurEnabled : Bool
  motionBlurAmount : α
  BackBufferWidth : Nat
  BackBufferHeight : Nat
  BurnLevel : α
  SpiralWiggle : α
  WaterWiggle : α
  renderTarget : Option RenderTargetView
  SceneTextureVar : Option ShaderResourceView
  SceneTexture2Var : Option ShaderResourceView
  PostProcessMapVar : Option ShaderResourceView
  TintColourVar : Option (α × α × α)
  TintColour2Var : Option (α × α × α)
  NoiseScaleVar : Option (α × α)
  NoiseOffsetVar : Option (α × α)
  DistortLevelVar : Option α
  BurnLevelVar : Option α
  WiggleVar : Option α
  BlurLevelVar : Option α
  PixelationVar : Option α
  ColourPalletVar : Option α
  events : List FrameEvent

section Render

variable {α : Type} [LinearOrderedField α]

/-- The values the variables of PostProcess.cpp are initialised with; the
extern back buffer dimensions are taken to be 1280 x 960. -/
def startup : Globals α where
  CurrentPostProcessList := [.Copy, .Invert]
  firstSceneRenderer := false
  motionBlurEnabled := false
  motionBlurAmount := 2 / 10
  BackBufferWidth := 1280
  BackBufferHeight := 960
  BurnLevel := 0
  SpiralWiggle := 0
  WaterWiggle := 0
  renderTarget := none
  SceneTextureVar := none
  SceneTexture2Var := none
  PostProcessMapVar := none
  TintColourVar := none
  TintColour2Var := none
  NoiseScaleVar := none
  NoiseOffsetVar := none
  DistortLevelVar := none
  BurnLevelVar := none
  WiggleVar := none
  BlurLevelVar := none
  PixelationVar := none
  ColourPalletVar := none
  events := []

/-- The `switch` on `CurrentPostProcessList[i]` in the loop of `RenderScene`
("prepare individual post-process settings"). `Cos` and `Mod` are the functions
of the maths library and `RandomUVs` the two values that `Random(-1, 1)`
returns. Tags without a case label do nothing. -/
def prepareSettings (Cos : α → α) (Mod : α → α → α) (RandomUVs : α × α) (updateTime : α)
    (filter : PostProcesses) (s : Globals α) : Globals α :=
  match filter with
  | .Tint => { s with TintColourVar := some (1, 0, 0) }
  | .Tint2 => { s with TintColourVar := some (0, 0, 1), TintColour2Var := some (1, 1, 0) }
  | .GreyNoise =>
    { s with
      NoiseScaleVar := some ((s.BackBufferWidth : α) / 140, (s.BackBufferHeight : α) / 140)
      NoiseOffsetVar := some (RandomUVs.1 * updateTime, RandomUVs.2 * updateTime)
      PostProcessMapVar := some .NoiseMap }
  | .Burn =>
    { s with
      BurnLevelVar := some s.BurnLevel
      BurnLevel := Mod (s.BurnLevel + 2 / 10 * updateTime) 1
      PostProcessMapVar := some .BurnMap }
  | .Distort =>
    { s with DistortLevelVar := some (3 / 100), PostProcessMapVar := some .DistortMap }
  | .Spiral =>
    { s with
      WiggleVar := some ((1 - Cos s.SpiralWiggle) * 4)
      SpiralWiggle := s.SpiralWiggle + 1 * updateTime }
  | .Water =>
    { s with
      TintColourVar := some (0, 1, 1)
      WiggleVar := some s.WaterWiggle
      WaterWiggle := s.WaterWiggle + 1 * updateTime }
  | .Retro => { s with PixelationVar := some 128, ColourPalletVar := some 4 }
  | .Copy => s
  | .Grayscale => s
  | .Invert => s

/-- The second render pass of one loop iteration of `RenderScene`, for the
entry `filter`: bind the other scene texture as target and the current one as
`SceneTexture`, flip `firstSceneRenderer`, apply the technique and draw, then
unbind `SceneTexture`. -/
def renderStage (filter : PostProcesses) (s : Globals α) : Globals α :=
  let s :=
    if s.firstSceneRenderer then
      { s with
        renderTarget := some .SceneRenderTarget2
        SceneTextureVar := some .SceneShaderResource
        firstSceneRenderer := false }
    else
      { s with
        renderTarget := some .SceneRenderTarget
        SceneTextureVar := some .SceneShaderResource2
        firstSceneRenderer := true }
  let s := { s with
    events := s.events ++
      [FrameEvent.Draw ⟨filter, s.renderTarget, s.SceneTextureVar, s.PostProcessMapVar⟩] }
  { s with SceneTextureVar := none }

/-- The state after the iterations `0 .. k - 1` of the loop of `RenderScene`;
`RandomUVs i` are the random numbers drawn in iteration `i`. -/
def RenderLoop (Cos : α → α) (Mod : α → α → α) (RandomUVs : Nat → α × α) (updateTime : α) :
    Nat → Globals α → Globals α
  | 0, s => s
  | k + 1, s =>
    let s := RenderLoop Cos Mod RandomUVs updateTime k s
    match s.CurrentPostProcessList[k]? with
    | some filter => renderStage filter (prepareSettings Cos Mod (RandomUVs k) updateTime filter s)
    | none => s

/-- `RenderScene` of PostProcess.cpp: the scene render into the first scene
texture, the motion blur level, one stage per chain entry, the final Copy to
the back buffer, the interface, the text and the presentation. The viewport,
clear, camera and light calls touch none of the variables here. -/
def RenderScene (Cos : α → α) (Mod : α → α → α) (RandomUVs : Nat → α × α) (updateTime : α)
    (s : Globals α) : Globals α :=
  let s := { s with renderTarget := some .SceneRenderTarget, firstSceneRenderer := true }
  let s := { s with events := s.events ++ [FrameEvent.RenderAllEntities s.renderTarget] }
  let s := { s with
    BlurLevelVar := some (if s.motionBlurEnabled then s.motionBlurAmount else 1) }
  let listCount := s.CurrentPostProcessList.length
  let s := RenderLoop Cos Mod RandomUVs updateTime listCount s
  let s := { s with renderTarget := some .BackBufferRenderTarget }
  let s :=
    if s.firstSceneRenderer then
      { s with SceneTextureVar := some .SceneShaderResource, firstSceneRenderer := false }
    else
      { s with SceneTextureVar := some .SceneShaderResource2, firstSceneRenderer := true }
  let s := { s with
    events := s.events ++
      [FrameEvent.Draw ⟨.Copy, s.renderTarget, s.SceneTextureVar, s.PostProcessMapVar⟩] }
  let s := { s with SceneTexture2Var := none }
  { s with events := s.events ++ [FrameEvent.RenderImGui, FrameEvent.RenderSceneText, FrameEvent.Present] }

end Render

end PostProcess

namespace Binary32

open HSL PostProcessPoly

/-- The number of binary digits of `n` (0 for 0), found by halving at most
`fuel` times; `binaryDigits n n` is the full count. -/
def binaryDigits : Nat → Nat → Nat
  | 0, _ => 0
  | fuel + 1, n => if n = 0 then 0 else binaryDigits fuel (n / 2) + 1

/-- The binary exponent of a non-zero rational `q`: the `e` with
`2 ^ e ≤ |q| < 2 ^ (e + 1)`. -/
def exponent (q : ℚ) : Int :=
  let e : Int := (binaryDigits q.num.natAbs q.num.natAbs : Int) - (binaryDigits q.den q.den : Int)
  if |q| < 2 ^ e then e - 1 else e

/-- The integer nearest to `x`, the even one of the two when `x` lies halfway
between two integers. -/
def roundEven (x : ℚ) : Int :=
  if x - ⌊x⌋ < 1 / 2 then ⌊x⌋
  else if 1 / 2 < x - ⌊x⌋ then ⌊x⌋ + 1
  else if ⌊x⌋ % 2 = 0 then ⌊x⌋
  else ⌊x⌋ + 1

/-- The `float` (IEEE 754 binary32) nearest to the real number `q`, the one
with the even significand when `q` lies halfway: 24 significant bits, and below
`2 ^ (-126)` the fixed spacing `2 ^ (-149)`. Overflow is left out: no value
computed here comes near `2 ^ 128`. -/
def round32 (q : ℚ) : ℚ :=
  if q = 0 then 0
  else
    let ulp : ℚ := 2 ^ (max (exponent q) (-126) - 23)
    (roundEven (q / ulp) : ℚ) * ulp

/-- The `float` sum `a + b`. -/
def add (a b : ℚ) : ℚ := round32 (a + b)

/-- The `float` difference `a - b`. -/
def sub (a b : ℚ) : ℚ := round32 (a - b)

/-- The `float` product `a * b`. -/
def mul (a b : ℚ) : ℚ := round32 (a * b)

/-- The `float` quotient `a / b`; for `b = 0` it is an infinity or a NaN, here
no value. -/
def div (a b : ℚ) : Option ℚ :=
  if b = 0 then none else some (round32 (a / b))

/-- The saturation computed by `RGBToHSL` (HSL.h lines 23-27), every operation
rounded to `float`. -/
def saturation (Cmax Cmin delta l : ℚ) : Option ℚ :=
  if Cmax = Cmin then some 0
  else div delta (sub 1 |sub (mul 2 l) 1|)

/-- The hue before the degree conversion computed by `RGBToHSL` (HSL.h lines
29-37), every operation rounded to `float`. -/
def hueSextant (ra ga ba Cmax delta : ℚ) : Option ℚ :=
  if Cmax = 0 then some 0
  else if ra = Cmax then div (sub ga ba) delta
  else if ga = Cmax then (div (sub ba ra) delta).map (fun q => add 2 q)
  else (div (sub ra ga) delta).map (fun q => add 4 q)

/-- The degree conversion of `RGBToHSL` (HSL.h lines 39-42) in `float`. -/
def toDegrees (h : ℚ) : ℚ :=
  if mul h 60 < 0 then add (mul h 60) 360 else mul h 60

/-- `RGBToHSL` of HSL.h with every operation rounded to `float`; the
components of `rgb` are `float` values. There is no result when the saturation
or the hue takes a quotient by zero. -/
def RGBToHSL (rgb : Vec4 ℚ) : Option (Vec4 ℚ) :=
  let ra := rgb.x
  let ga := rgb.y
  let ba := rgb.z
  let Cmax := max ra (max ga ba)
  let Cmin := min ra (min ga ba)
  let delta := sub Cmax Cmin
  let l := round32 (add Cmax Cmin / 2)
  match saturation Cmax Cmin delta l, hueSextant ra ga ba Cmax delta with
  | some s, some h => some ⟨toDegrees h, s, l, rgb.w⟩
  | _, _ => none

/-- The statements `Hsl.x += TintHueRotateTimer; if (Hsl.x > 360) Hsl.x -= 360;`
of `UpdatePostProcesses` in `float`. -/
def rotatedHue (TintHueRotateTimer hue : ℚ) : ℚ :=
  let x := add hue TintHueRotateTimer
  if x > 360 then sub x 360 else x

/-- `SetPostProcessArea` with every operation rounded to `float`. The two
matrix products are the maps of `camera`, which return `float` values; an
output that takes a quotient by zero is `none`. -/
def SetPostProcessArea (camera : CCamera ℚ) (areaCentre : CVector3 ℚ) (width height : ℚ)
    (depthOffset : ℚ) (s : Globals ℚ) : Globals ℚ :=
  let cameraSpaceCentre := camera.GetViewMatrix ⟨areaCentre.x, areaCentre.y, areaCentre.z, 1⟩
  let cameraSpaceCentre :=
    { cameraSpaceCentre with
      x := sub cameraSpaceCentre.x (round32 (width / 2))
      y := add cameraSpaceCentre.y (round32 (height / 2)) }
  let cameraTopLeft := cameraSpaceCentre
  let cameraSpaceCentre :=
    { cameraSpaceCentre with
      x := add cameraSpaceCentre.x width
      y := sub cameraSpaceCentre.y height }
  let cameraBottomRight := cameraSpaceCentre
  let projTopLeft := camera.GetProjMatrix cameraTopLeft
  let projBottomRight := camera.GetProjMatrix cameraBottomRight
  let topLeftX := div projTopLeft.x projTopLeft.w
  let topLeftY := div projTopLeft.y projTopLeft.w
  let bottomRightX := div projBottomRight.x projBottomRight.w
  let bottomRightY := div projBottomRight.y projBottomRight.w
  let topLeftZ := div (add projTopLeft.z depthOffset) (add projTopLeft.w depthOffset)
  let topLeftX := topLeftX.map (fun x => add (round32 (x / 2)) (1 / 2))
  let topLeftY := topLeftY.map (fun y => add (round32 (-y / 2)) (1 / 2))
  let bottomRightX := bottomRightX.map (fun x => add (round32 (x / 2)) (1 / 2))
  let bottomRightY := bottomRightY.map (fun y => add (round32 (-y / 2)) (1 / 2))
  { s with
    PPAreaTopLeftVar :=
      match topLeftX, topLeftY with
      | some x, some y => some (x, y)
      | _, _ => none
    PPAreaBottomRightVar :=
      match bottomRightX, bottomRightY with
      | some x, some y => some (x, y)
      | _, _ => none
    PPAreaDepthVar := topLeftZ }

end Binary32

namespace PostProcessPoly

section PipelineFacts

variable {α : Type} [LinearOrderedField α]

theorem SelectPostProcess_firstSceneRenderer (Cos : α → α) (R : α × α) (filter : PostProcesses)
    (s : Globals α) :
    (SelectPostProcess Cos R filter s).firstSceneRenderer = s.firstSceneRenderer := by
  cases filter <;>
    simp [SelectPostProcess, caseTint, caseTint2, caseGreyNoise, caseBurn, caseDistort,
      caseSpiral, caseHeatHaze, caseWater, caseRetro, caseGaussianBlur, caseGameboy, caseBloom,
      bloomSettings, bloomSelectionPass, bloomBlurHoriPass, bloomBlurVertPass, ApplyAndDraw,
      SetFullScreenPostProcessArea]

theorem SelectPostProcess_list (Cos : α → α) (R : α × α) (filter : PostProcesses)
    (s : Globals α) :
    (SelectPostProcess Cos R filter s).CurrentPostProcessList = s.CurrentPostProcessList := by
  cases filter <;>
    simp [SelectPostProcess, caseTint, caseTint2, caseGreyNoise, caseBurn, caseDistort,
      caseSpiral, caseHeatHaze, caseWater, caseRetro, caseGaussianBlur, caseGameboy, caseBloom,
      bloomSettings, bloomSelectionPass, bloomBlurHoriPass, bloomBlurVertPass, ApplyAndDraw,
      SetFullScreenPostProcessArea]

theorem SelectPostProcess_draws (Cos : α → α) (R : α × α) (filter : PostProcesses)
    (s : Globals α) :
    (SelectPostProcess Cos R filter s).draws =
      s.draws ++ (if filter = .Bloom then
        bloomSubPasses s.firstSceneRenderer s.PostProcessMapVar else []) := by
  cases filter <;>
    simp [SelectPostProcess, caseTint, caseTint2, caseGreyNoise, caseBurn, caseDistort,
      caseSpiral, caseHeatHaze, caseWater, caseRetro, caseGaussianBlur, caseGameboy, caseBloom,
      bloomSettings, bloomSelectionPass, bloomBlurHoriPass, bloomBlurVertPass, ApplyAndDraw,
      SetFullScreenPostProcessArea, bloomSubPasses]

theorem SelectPostProcess_map_bloom (Cos : α → α) (R : α × α) (s : Globals α) :
    (SelectPostProcess Cos R .Bloom s).PostProcessMapVar = some .BloomShaderResource := by
  simp [SelectPostProcess, caseBloom, caseGameboy]

theorem isLast_iff (listCount i : Nat) : ((i : Int) = (listCount : Int) - 1) ↔ i + 1 = listCount := by
  omega

theorem stageBody_firstSceneRenderer (Cos : α → α) (R : α × α) (listCount i : Nat)
    (filter : PostProcesses) (s : Globals α) :
    (stageBody Cos R listCount i filter s).firstSceneRenderer = !s.firstSceneRenderer := by
  have h := SelectPostProcess_firstSceneRenderer Cos R filter s
  unfold stageBody selectBuffers
  simp only [ApplyAndDraw, SetFullScreenPostProcessArea]
  split_ifs <;> simp_all

theorem stageBody_list (Cos : α → α) (R : α × α) (listCount i : Nat)
    (filter : PostProcesses) (s : Globals α) :
    (stageBody Cos R listCount i filter s).CurrentPostProcessList = s.CurrentPostProcessList := by
  have h := SelectPostProcess_list Cos R filter s
  unfold stageBody selectBuffers
  simp only [ApplyAndDraw, SetFullScreenPostProcessArea]
  split_ifs <;> simp_all

theorem stageBody_draws (Cos : α → α) (R : α × α) (listCount i : Nat)
    (filter : PostProcesses) (s : Globals α) :
    (stageBody Cos R listCount i filter s).draws =
      (SelectPostProcess Cos R filter s).draws ++
        [⟨filter,
          some (if i + 1 = listCount then .BackBufferRenderTarget
            else writeView s.firstSceneRenderer),
          some (readView s.firstSceneRenderer),
          (SelectPostProcess Cos R filter s).PostProcessMapVar⟩] := by
  have h := SelectPostProcess_firstSceneRenderer Cos R filter s
  have hl := isLast_iff listCount i
  unfold stageBody selectBuffers
  simp only [ApplyAndDraw, SetFullScreenPostProcessArea]
  split_ifs <;> simp_all [readView, writeView]

end PipelineFacts

end PostProcessPoly

namespace PostProcessPoly

section LoopFacts

variable {α : Type} [LinearOrderedField α]

theorem FullScreenLoop_list (Cos : α → α) (R : Nat → α × α) (n k : Nat) (s : Globals α) :
    (FullScreenLoop Cos R n k s).CurrentPostProcessList = s.CurrentPostProcessList := by
  induction k with
  | zero => rfl
  | succ k ih =>
    simp only [FullScreenLoop]
    split
    · rw [stageBody_list, ih]
    · exact ih

theorem FullScreenLoop_succ (Cos : α → α) (R : Nat → α × α) (n k : Nat) (s : Globals α)
    (filter : PostProcesses) (h : s.CurrentPostProcessList[k]? = some filter) :
    FullScreenLoop Cos R n (k + 1) s =
      stageBody Cos (R k) n k filter (FullScreenLoop Cos R n k s) := by
  simp only [FullScreenLoop, FullScreenLoop_list, h]

theorem hazardFree_bloomSubPasses (f : Bool) (m : Option ShaderResourceView) :
    ∀ d ∈ bloomSubPasses f m, d.hazardFree := by
  intro d hd
  simp only [bloomSubPasses, List.mem_cons, List.mem_singleton, List.not_mem_nil, or_false] at hd
  rcases hd with rfl | rfl | rfl <;> cases f <;>
    simp [Draw.hazardFree, readView, writeView, RenderTargetView.texture,
      ShaderResourceView.texture]

theorem hazardFree_stage (t : PostProcesses) (last f : Bool) (m : Option ShaderResourceView) :
    Draw.hazardFree ⟨t, some (if last then .BackBufferRenderTarget else writeView f),
      some (readView f), m⟩ := by
  cases f <;> cases last <;>
    simp [Draw.hazardFree, readView, writeView, RenderTargetView.texture,
      ShaderResourceView.texture]

theorem stageBody_hazardFree (Cos : α → α) (R : α × α) (n i : Nat) (filter : PostProcesses)
    (s : Globals α) :
    ∃ extra, (stageBody Cos R n i filter s).draws = s.draws ++ extra ∧ 1 ≤ extra.length ∧
      ∀ d ∈ extra, d.hazardFree := by
  rw [stageBody_draws, SelectPostProcess_draws, List.append_assoc]
  refine ⟨_, rfl, by simp, ?_⟩
  intro d hd
  simp only [List.mem_append, List.mem_singleton] at hd
  rcases hd with hd | hd
  · split_ifs at hd
    · exact hazardFree_bloomSubPasses _ _ d hd
    · simp at hd
  · subst hd
    have := hazardFree_stage filter (decide (i + 1 = n)) s.firstSceneRenderer
      (SelectPostProcess Cos R filter s).PostProcessMapVar
    simpa using this

theorem FullScreenLoop_hazardFree (Cos : α → α) (R : Nat → α × α) (n : Nat) (s : Globals α)
    (k : Nat) (hk : k ≤ s.CurrentPostProcessList.length) :
    ∃ new, (FullScreenLoop Cos R n k s).draws = s.draws ++ new ∧ k ≤ new.length ∧
      ∀ d ∈ new, d.hazardFree := by
  induction k with
  | zero => exact ⟨[], by simp [FullScreenLoop]⟩
  | succ k ih =>
    obtain ⟨new, hnew, hlen, hall⟩ := ih (by omega)
    have hlt : k < s.CurrentPostProcessList.length := by omega
    have hget : s.CurrentPostProcessList[k]? = some (s.CurrentPostProcessList[k]) :=
      List.getElem?_eq_getElem hlt
    obtain ⟨extra, hextra, hlen2, hall2⟩ := stageBody_hazardFree Cos (R k) n k
      (s.CurrentPostProcessList[k]) (FullScreenLoop Cos R n k s)
    refine ⟨new ++ extra, ?_, ?_, ?_⟩
    · rw [FullScreenLoop_succ Cos R n k s _ hget, hextra, hnew, List.append_assoc]
    · simp only [List.length_append]
      omega
    · intro d hd
      rcases List.mem_append.1 hd with hd | hd
      · exact hall d hd
      · exact hall2 d hd

end LoopFacts

/-- C1: for every state on entry (every chain, either value of
`firstSceneRenderer`), the draws that `FullScreenPostProcess` issues, at least
one per chain entry and Bloom's three inner passes included, each have a render
target and a scene texture bound that are views of different textures. -/
theorem C1_fullscreen_hazard_free {α : Type} [LinearOrderedField α] (Cos : α → α)
    (RandomUVs : Nat → α × α) (s : Globals α) :
    ∃ new, (FullScreenPostProcess Cos RandomUVs s).draws = s.draws ++ new ∧
      s.CurrentPostProcessList.length ≤ new.length ∧ ∀ d ∈ new, d.hazardFree :=
  FullScreenLoop_hazardFree Cos RandomUVs _ s _ (le_refl _)

end PostProcessPoly

namespace PostProcessPoly

/-- C2: in a chain of length `n`, stage `i < n` of `FullScreenPostProcess` ends
with a draw of the technique of entry `i` whose scene texture is the ping-pong
texture that `firstSceneRenderer` designates when the stage starts (A if set,
B if not) and whose render target is the back buffer if `i = n - 1` and the
other ping-pong texture otherwise; the stage flips the flag, and when
`i < n - 1` the draw of stage `i + 1` reads the texture stage `i` rendered to. -/
theorem C2_stage_routing {α : Type} [LinearOrderedField α] (Cos : α → α)
    (RandomUVs : Nat → α × α) (s : Globals α) (i : Nat)
    (hi : i < s.CurrentPostProcessList.length) :
    ∃ d, stageDraw Cos RandomUVs s i = some d ∧
      s.CurrentPostProcessList[i]? = some d.technique ∧
      d.SceneTexture = some (if flagAtStage Cos RandomUVs s i then .SceneShaderResource
        else .SceneShaderResource2) ∧
      d.renderTarget = some (if i + 1 = s.CurrentPostProcessList.length
        then .BackBufferRenderTarget
        else if flagAtStage Cos RandomUVs s i then .SceneRenderTarget2
        else .SceneRenderTarget) ∧
      flagAtStage Cos RandomUVs s (i + 1) = !flagAtStage Cos RandomUVs s i ∧
      (i + 1 < s.CurrentPostProcessList.length →
        ∃ d' rt sr, stageDraw Cos RandomUVs s (i + 1) = some d' ∧
          d.renderTarget = some rt ∧ d'.SceneTexture = some sr ∧ sr.texture = rt.texture) := by
  have hget : s.CurrentPostProcessList[i]? = some (s.CurrentPostProcessList[i]) :=
    List.getElem?_eq_getElem hi
  have hflag : flagAtStage Cos RandomUVs s (i + 1) = !flagAtStage Cos RandomUVs s i := by
    simp only [flagAtStage]
    rw [FullScreenLoop_succ Cos RandomUVs _ i s _ hget, stageBody_firstSceneRenderer]
  refine ⟨⟨s.CurrentPostProcessList[i],
      some (if i + 1 = s.CurrentPostProcessList.length then .BackBufferRenderTarget
        else if flagAtStage Cos RandomUVs s i then .SceneRenderTarget2 else .SceneRenderTarget),
      some (if flagAtStage Cos RandomUVs s i then .SceneShaderResource
        else .SceneShaderResource2),
      (SelectPostProcess Cos (RandomUVs i) (s.CurrentPostProcessList[i])
        (FullScreenLoop Cos RandomUVs s.CurrentPostProcessList.length i s)).PostProcessMapVar⟩,
    ?_, hget, rfl, rfl, hflag, ?_⟩
  · simp only [stageDraw]
    rw [FullScreenLoop_succ Cos RandomUVs _ i s _ hget, stageBody_draws,
      List.getLast?_append, List.getLast?_singleton]
    simp [flagAtStage, readView, writeView]
  · intro hlt
    have hget2 : s.CurrentPostProcessList[i + 1]? = some (s.CurrentPostProcessList[i + 1]) :=
      List.getElem?_eq_getElem hlt
    have hd' : stageDraw Cos RandomUVs s (i + 1) = some
        ⟨s.CurrentPostProcessList[i + 1],
          some (if i + 1 + 1 = s.CurrentPostProcessList.length then .BackBufferRenderTarget
            else writeView (flagAtStage Cos RandomUVs s (i + 1))),
          some (readView (flagAtStage Cos RandomUVs s (i + 1))),
          (SelectPostProcess Cos (RandomUVs (i + 1)) (s.CurrentPostProcessList[i + 1])
            (FullScreenLoop Cos RandomUVs s.CurrentPostProcessList.length (i + 1)
              s)).PostProcessMapVar⟩ := by
      simp only [stageDraw]
      rw [FullScreenLoop_succ Cos RandomUVs _ (i + 1) s _ hget2, stageBody_draws,
        List.getLast?_append, List.getLast?_singleton]
      simp [flagAtStage]
    refine ⟨_, _, _, hd', rfl, rfl, ?_⟩
    · have hne : i + 1 ≠ s.CurrentPostProcessList.length := by omega
      rw [hflag]
      simp only [hne, if_false]
      cases flagAtStage Cos RandomUVs s i <;>
        simp [readView, RenderTargetView.texture, ShaderResourceView.texture]

/-- C10: when entry `i` of the chain is Bloom, iteration `i` of the loop of
`FullScreenPostProcess` issues exactly four draws, in this order:
BloomSelection from the current read texture into the bloom texture,
GaussianBlurHori from the bloom texture into the other ping-pong texture,
GaussianBlurVert from that ping-pong texture into the bloom texture, and the
Bloom composite with the original read texture as scene texture and the bloom
texture as `PostProcessMap`. -/
theorem C10_bloom_four_draws {α : Type} [LinearOrderedField α] (Cos : α → α)
    (RandomUVs : Nat → α × α) (s : Globals α) (i : Nat)
    (hi : s.CurrentPostProcessList[i]? = some .Bloom) :
    (FullScreenLoop Cos RandomUVs s.CurrentPostProcessList.length (i + 1) s).draws =
      (FullScreenLoop Cos RandomUVs s.CurrentPostProcessList.length i s).draws ++
        [⟨.BloomSelection, some .BloomRenderTarget,
            some (if flagAtStage Cos RandomUVs s i then .SceneShaderResource
              else .SceneShaderResource2),
            (FullScreenLoop Cos RandomUVs s.CurrentPostProcessList.length i s).PostProcessMapVar⟩,
         ⟨.GaussianBlurHori,
            some (if flagAtStage Cos RandomUVs s i then .SceneRenderTarget2
              else .SceneRenderTarget),
            some .BloomShaderResource,
            (FullScreenLoop Cos RandomUVs s.CurrentPostProcessList.length i s).PostProcessMapVar⟩,
         ⟨.GaussianBlurVert, some .BloomRenderTarget,
            some (if flagAtStage Cos RandomUVs s i then .SceneShaderResource2
              else .SceneShaderResource),
            (FullScreenLoop Cos RandomUVs s.CurrentPostProcessList.length i s).PostProcessMapVar⟩,
         ⟨.Bloom,
            some (if i + 1 = s.CurrentPostProcessList.length then .BackBufferRenderTarget
              else if flagAtStage Cos RandomUVs s i then .SceneRenderTarget2
              else .SceneRenderTarget),
            some (if flagAtStage Cos RandomUVs s i then .SceneShaderResource
              else .SceneShaderResource2),
            some .BloomShaderResource⟩] := by
  rw [FullScreenLoop_succ Cos RandomUVs _ i s _ hi, stageBody_draws, SelectPostProcess_draws,
    SelectPostProcess_map_bloom]
  cases h : (FullScreenLoop Cos RandomUVs s.CurrentPostProcessList.length i s).firstSceneRenderer <;>
    simp [bloomSubPasses, flagAtStage, readView, writeView, h]

end PostProcessPoly

namespace PostProcessPoly

section EditorFacts

variable {α : Type}

theorem findTechnique_name (n : PostProcesses) : findTechnique (PPTechniqueNames n) = some n := by
  cases n <;> decide

theorem eraseAt_length {β : Type} (v w : List β) (i : Nat) (h : eraseAt v i = some w) :
    w.length + 1 = v.length := by
  unfold eraseAt at h
  split_ifs at h with hi
  cases h
  rw [List.length_eraseIdx, if_pos hi]
  omega

theorem swapAt_length {β : Type} (v w : List β) (i j : Nat) (h : swapAt v i j = some w) :
    w.length = v.length := by
  unfold swapAt at h
  split at h
  · cases h
    simp
  · cases h

/-- The invariant of the chain editor: the two vectors have the same length
and hold at least one entry. -/
theorem applyEdit_invariant (e : ChainEdit) (s s' : Globals α) (h : applyEdit e s = some s')
    (hs : s.CurrentPostProcessListString.length = s.CurrentPostProcessList.length ∧
      1 ≤ s.CurrentPostProcessList.length) :
    s'.CurrentPostProcessListString.length = s'.CurrentPostProcessList.length ∧
      1 ≤ s'.CurrentPostProcessList.length := by
  obtain ⟨hpar, hne⟩ := hs
  cases e with
  | Add n =>
    simp only [applyEdit, Add, findTechnique_name, Option.some.injEq] at h
    subst h
    simp [hpar]
  | SelectRow i =>
    simp only [applyEdit, SelectRow, Option.some.injEq] at h
    subst h
    split_ifs <;> exact ⟨hpar, hne⟩
  | Remove =>
    simp only [applyEdit, Remove] at h
    split_ifs at h with hc
    · split at h
      · next l n hl hn =>
        cases h
        have h1 := eraseAt_length _ _ _ hl
        have h2 := eraseAt_length _ _ _ hn
        simp only
        omega
      · cases h
    · cases h
      exact ⟨hpar, hne⟩
  | MoveUp =>
    simp only [applyEdit, MoveUp] at h
    split_ifs at h with hc
    · split at h
      · next l n hl hn =>
        cases h
        have h1 := swapAt_length _ _ _ _ hl
        have h2 := swapAt_length _ _ _ _ hn
        simp only
        omega
      · cases h
    · cases h
      exact ⟨hpar, hne⟩
  | MoveDown =>
    simp only [applyEdit, MoveDown] at h
    split_ifs at h with hc
    · split at h
      · next l n hl hn =>
        cases h
        have h1 := swapAt_length _ _ _ _ hl
        have h2 := swapAt_length _ _ _ _ hn
        simp only
        omega
      · cases h
    · cases h
      exact ⟨hpar, hne⟩

theorem applyEdits_invariant (es : List ChainEdit) (s s' : Globals α)
    (h : applyEdits es s = some s')
    (hs : s.CurrentPostProcessListString.length = s.CurrentPostProcessList.length ∧
      1 ≤ s.CurrentPostProcessList.length) :
    s'.CurrentPostProcessListString.length = s'.CurrentPostProcessList.length ∧
      1 ≤ s'.CurrentPostProcessList.length := by
  induction es generalizing s with
  | nil =>
    simp only [applyEdits, Option.some.injEq] at h
    subst h
    exact hs
  | cons e es ih =>
    simp only [applyEdits] at h
    cases hstep : applyEdit e s with
    | none => simp [hstep] at h
    | some t =>
      rw [hstep] at h
      exact ih t h (applyEdit_invariant e s t hstep hs)

end EditorFacts

/-- C3: with exactly one entry in the chain (in `CurrentPostProcessList` and
in the parallel `CurrentPostProcessListString`), the "Remove" button of
PostProcessPoly.cpp leaves the whole state, so both vectors, unchanged; and
the Control key of PostProcess.cpp leaves a chain of one entry unchanged. -/
theorem C3_remove_keeps_last_entry {α : Type} (s : Globals α)
    (hlist : s.CurrentPostProcessList.length = 1)
    (hnames : s.CurrentPostProcessListString.length = s.CurrentPostProcessList.length)
    (l : List PostProcess.PostProcesses) (hl : l.length = 1) :
    Remove s = some s ∧ PostProcess.RemovePostProcess l = l := by
  constructor
  · simp [Remove, hnames, hlist]
  · simp [PostProcess.RemovePostProcess, hl]

/-- C4: "Move Up" with the selected index 0 and "Move Down" with the selected
index on the last entry of the chain leave the whole state unchanged, so the
two vectors and the selected index. -/
theorem C4_move_at_boundary {α : Type} (s : Globals α) :
    (s.listBoxIndex = 0 → MoveUp s = some s) ∧
      (s.listBoxIndex + 1 = s.CurrentPostProcessList.length → MoveDown s = some s) := by
  constructor
  · intro h
    simp [MoveUp, h]
  · intro h
    have : ¬ s.listBoxIndex < sizeMinusOne s.CurrentPostProcessList.length := by
      unfold sizeMinusOne
      omega
    simp [MoveDown, this]

/-- C5: every state that a sequence of chain editor actions ("Add", row
selection, "Remove", "Move Up", "Move Down") reaches from the initial state
has at least one entry in `CurrentPostProcessList` and in
`CurrentPostProcessListString`. -/
theorem C5_chain_never_empty {α : Type} [LinearOrderedField α] (edits : List ChainEdit)
    (s : Globals α) (h : applyEdits edits startup = some s) :
    1 ≤ s.CurrentPostProcessList.length ∧ 1 ≤ s.CurrentPostProcessListString.length := by
  have := applyEdits_invariant edits startup s h ⟨rfl, by simp [startup]⟩
  omega

end PostProcessPoly

namespace PostProcessPoly

section AnimationFacts

variable {α : Type} [LinearOrderedField α] [FloorRing α]

theorem UpdatePostProcesses_BurnLevel (Mod : α → α → α) (t : α) (s : Globals α) :
    (UpdatePostProcesses Mod t s).BurnLevel = Mod (s.BurnLevel + BurnSpeed * t) 1 := by
  unfold UpdatePostProcesses
  simp only
  split_ifs <;> rfl

theorem UpdateSequence_BurnLevel (Mod : α → α → α) (hMod : ∀ x, Mod x 1 = x - (⌊x⌋ : α))
    (ts : List α) (s : Globals α) (b : α) (hb : s.BurnLevel = Int.fract b) :
    (UpdateSequence Mod ts s).BurnLevel = Int.fract (b + BurnSpeed * ts.sum) := by
  induction ts generalizing s b with
  | nil => simpa [UpdateSequence] using hb
  | cons t ts ih =>
    simp only [UpdateSequence, List.sum_cons]
    rw [ih (UpdatePostProcesses Mod t s) (b + BurnSpeed * t)]
    · congr 1
      ring
    · rw [UpdatePostProcesses_BurnLevel, hMod, hb]
      change Int.fract (Int.fract b + BurnSpeed * t) = _
      rw [Int.fract, Int.fract, Int.fract]
      have : Int.fract b + BurnSpeed * t = (b + BurnSpeed * t) - (⌊b⌋ : α) := by
        rw [Int.fract]
        ring
      rw [Int.fract] at this
      rw [this, Int.floor_sub_int]
      push_cast
      ring

end AnimationFacts

/-- C6: over exact arithmetic with `Mod x 1` the mathematical modulo, from a
state with `BurnLevel = 0` the calls of `UpdatePostProcesses` for any sequence
of update times leave `BurnLevel` equal to the fractional part of
`BurnSpeed * T`, `T` the sum of the update times and `BurnSpeed = 0.2`, which
lies in `[0, 1)`. The sequence is arbitrary, so this holds after every call. -/
theorem C6_burn_level {α : Type} [LinearOrderedField α] [FloorRing α] (Mod : α → α → α)
    (hMod : ∀ x, Mod x 1 = x - (⌊x⌋ : α)) (s : Globals α) (h0 : s.BurnLevel = 0)
    (updateTimes : List α) :
    (UpdateSequence Mod updateTimes s).BurnLevel
        = BurnSpeed * updateTimes.sum - (⌊(BurnSpeed * updateTimes.sum : α)⌋ : α) ∧
      (BurnSpeed : α) = 2 / 10 ∧
      0 ≤ (UpdateSequence Mod updateTimes s).BurnLevel ∧
      (UpdateSequence Mod updateTimes s).BurnLevel < 1 := by
  have h := UpdateSequence_BurnLevel Mod hMod updateTimes s 0 (by simpa using h0)
  rw [zero_add] at h
  refine ⟨h, rfl, ?_, ?_⟩
  · rw [h]
    exact Int.fract_nonneg _
  · rw [h]
    exact Int.fract_lt_one _

end PostProcessPoly

namespace PostProcessPoly

open HSL

/-- C7: the colour `(1/2, 1/4, 1/4, 1)`, whose components lie in `[0, 1]`, is
not reproduced: `RGBToHSL` gives hue 0, saturation 1/3 and lightness 3/8, and
`HSLToRBG` turns that into `(5/6, -1/12, -1/12, 1)`; for the grey
`(1/2, 1/2, 1/2, 1)` the hue of `RGBToHSL` is the quotient `0 / 0`. -/
theorem C7_roundtrip_fails :
    HSL.RGBToHSL (⟨1 / 2, 1 / 4, 1 / 4, 1⟩ : HSL.Vec4 ℚ) = some ⟨0, 1 / 3, 3 / 8, 1⟩ ∧
      HSL.HSLToRBG (⟨0, 1 / 3, 3 / 8, 1⟩ : HSL.Vec4 ℚ) = ⟨5 / 6, -1 / 12, -1 / 12, 1⟩ ∧
      (HSL.RGBToHSL (⟨1 / 2, 1 / 4, 1 / 4, 1⟩ : HSL.Vec4 ℚ)).map HSL.HSLToRBG
        ≠ some ⟨1 / 2, 1 / 4, 1 / 4, 1⟩ ∧
      HSL.RGBToHSL (⟨1 / 2, 1 / 2, 1 / 2, 1⟩ : HSL.Vec4 ℚ) = none := by
  have h1 : HSL.RGBToHSL (⟨1 / 2, 1 / 4, 1 / 4, 1⟩ : HSL.Vec4 ℚ) = some ⟨0, 1 / 3, 3 / 8, 1⟩ := by
    norm_num [HSL.RGBToHSL, HSL.saturation, HSL.hueSextant, HSL.toDegrees, HSL.checkedDiv,
      abs_of_nonpos]
  have h2 : HSL.HSLToRBG (⟨0, 1 / 3, 3 / 8, 1⟩ : HSL.Vec4 ℚ) = ⟨5 / 6, -1 / 12, -1 / 12, 1⟩ := by
    norm_num [HSL.HSLToRBG, HSL.fmodf, abs_of_nonpos]
  refine ⟨h1, h2, ?_, ?_⟩
  · rw [h1, Option.map_some', h2]
    norm_num
  · norm_num [HSL.RGBToHSL, HSL.saturation, HSL.hueSextant, HSL.checkedDiv]

section AreaFacts

variable {α : Type} [LinearOrderedField α]

theorem SetPostProcessArea_vars (camera : CCamera α) (areaCentre : CVector3 α)
    (width height depthOffset : α) (s : Globals α) (c tl br : Vec4 α)
    (hc : camera.GetViewMatrix ⟨areaCentre.x, areaCentre.y, areaCentre.z, 1⟩ = c)
    (htl : camera.GetProjMatrix ⟨c.x - width / 2, c.y + height / 2, c.z, c.w⟩ = tl)
    (hbr : camera.GetProjMatrix ⟨c.x - width / 2 + width, c.y + height / 2 - height, c.z, c.w⟩
      = br)
    (h1 : tl.w ≠ 0) (h2 : br.w ≠ 0) :
    (SetPostProcessArea camera areaCentre width height depthOffset s).PPAreaTopLeftVar =
        some (tl.x / tl.w / 2 + 1 / 2, -(tl.y / tl.w) / 2 + 1 / 2) ∧
      (SetPostProcessArea camera areaCentre width height depthOffset s).PPAreaBottomRightVar =
        some (br.x / br.w / 2 + 1 / 2, -(br.y / br.w) / 2 + 1 / 2) ∧
      (SetPostProcessArea camera areaCentre width height depthOffset s).PPAreaDepthVar =
        checkedDiv (tl.z + depthOffset) (tl.w + depthOffset) := by
  subst hc htl hbr
  simp [SetPostProcessArea, checkedDiv, h1, h2]

end AreaFacts

/-- C9, over exact arithmetic: for a projection with clip `x = sx * x`, clip
`y = sy * y` and clip `w = z`, and an area centre whose camera-space position
has `x = 0`, `y = 0` and `z > 0`, `SetPostProcessArea` sets both corners of the
UV rectangle and their midpoint is `(1/2, 1/2)`, for every width, height and
depth offset. The rounding of `float` is left out; with it the midpoint is
off by a rounding error, see the counterexample. -/
theorem C9_area_centre {α : Type} [LinearOrderedField α] (camera : CCamera α)
    (areaCentre : CVector3 α) (width height depthOffset sx sy z : α) (s : Globals α)
    (hz : 0 < z)
    (hview : (camera.GetViewMatrix ⟨areaCentre.x, areaCentre.y, areaCentre.z, 1⟩).x = 0 ∧
      (camera.GetViewMatrix ⟨areaCentre.x, areaCentre.y, areaCentre.z, 1⟩).y = 0 ∧
      (camera.GetViewMatrix ⟨areaCentre.x, areaCentre.y, areaCentre.z, 1⟩).z = z)
    (hproj : ∀ v : Vec4 α, (camera.GetProjMatrix v).x = sx * v.x ∧
      (camera.GetProjMatrix v).y = sy * v.y ∧ (camera.GetProjMatrix v).w = v.z) :
    ∃ topLeftUV bottomRightUV : α × α,
      (SetPostProcessArea camera areaCentre width height depthOffset s).PPAreaTopLeftVar =
        some topLeftUV ∧
      (SetPostProcessArea camera areaCentre width height depthOffset s).PPAreaBottomRightVar =
        some bottomRightUV ∧
      (topLeftUV.1 + bottomRightUV.1) / 2 = 1 / 2 ∧
      (topLeftUV.2 + bottomRightUV.2) / 2 = 1 / 2 := by
  obtain ⟨hx, hy, hzz⟩ := hview
  have hz0 : z ≠ 0 := ne_of_gt hz
  obtain ⟨a, b, -⟩ := SetPostProcessArea_vars camera areaCentre width height depthOffset s
    _ _ _ rfl rfl rfl (by rw [(hproj _).2.2, hzz]; exact hz0)
    (by rw [(hproj _).2.2, hzz]; exact hz0)
  refine ⟨_, _, a, b, ?_, ?_⟩
  · simp only [(hproj _).1, (hproj _).2.2, hx, hzz]
    field_simp
    ring
  · simp only [(hproj _).2.1, (hproj _).2.2, hy, hzz]
    field_simp
    ring

end PostProcessPoly

namespace PostProcessPoly

open HSL

/-- Witness of C2: stage 0 of the chain `[Tint, Invert]`. -/
theorem C2_stage_routing_witness :
    0 < exampleTintInvert.CurrentPostProcessList.length ∧
    ∃ d, stageDraw (fun x => x) (fun _ => (0, 0)) exampleTintInvert 0 = some d ∧
      exampleTintInvert.CurrentPostProcessList[0]? = some d.technique ∧
      d.SceneTexture = some (if flagAtStage (fun x => x) (fun _ => (0, 0)) exampleTintInvert 0
        then .SceneShaderResource else .SceneShaderResource2) ∧
      d.renderTarget = some (if 0 + 1 = exampleTintInvert.CurrentPostProcessList.length
        then .BackBufferRenderTarget
        else if flagAtStage (fun x => x) (fun _ => (0, 0)) exampleTintInvert 0
        then .SceneRenderTarget2
        else .SceneRenderTarget) ∧
      flagAtStage (fun x => x) (fun _ => (0, 0)) exampleTintInvert (0 + 1) =
        !flagAtStage (fun x => x) (fun _ => (0, 0)) exampleTintInvert 0 ∧
      (0 + 1 < exampleTintInvert.CurrentPostProcessList.length →
        ∃ d' rt sr, stageDraw (fun x => x) (fun _ => (0, 0)) exampleTintInvert (0 + 1) = some d' ∧
          d.renderTarget = some rt ∧ d'.SceneTexture = some sr ∧ sr.texture = rt.texture) :=
  ⟨by decide, C2_stage_routing (fun x => x) (fun _ => (0, 0)) exampleTintInvert 0 (by decide)⟩

/-- Witness of C3: the initial chain `[Copy]` of PostProcessPoly.cpp and the
chain `[Copy]` in PostProcess.cpp. -/
theorem C3_remove_keeps_last_entry_witness :
    (startup : Globals ℚ).CurrentPostProcessList.length = 1 ∧
    (startup : Globals ℚ).CurrentPostProcessListString.length =
      (startup : Globals ℚ).CurrentPostProcessList.length ∧
    [PostProcess.PostProcesses.Copy].length = 1 ∧
    Remove (startup : Globals ℚ) = some startup ∧
    PostProcess.RemovePostProcess [PostProcess.PostProcesses.Copy] =
      [PostProcess.PostProcesses.Copy] :=
  ⟨rfl, rfl, rfl, C3_remove_keeps_last_entry (startup : Globals ℚ) rfl rfl
    [PostProcess.PostProcesses.Copy] rfl⟩

/-- Witness of C4: "Move Up" in the initial state (index 0) and "Move Down"
with the second of two rows selected. -/
theorem C4_move_at_boundary_witness :
    ((startup : Globals ℚ).listBoxIndex = 0 ∧ MoveUp (startup : Globals ℚ) = some startup) ∧
    (exampleTintInvert.listBoxIndex + 1 = exampleTintInvert.CurrentPostProcessList.length ∧
      MoveDown exampleTintInvert = some exampleTintInvert) :=
  ⟨⟨rfl, (C4_move_at_boundary (startup : Globals ℚ)).1 rfl⟩,
    ⟨rfl, (C4_move_at_boundary exampleTintInvert).2 rfl⟩⟩

/-- Witness of C5: "Add" of Tint, selection of row 1, "Remove". -/
theorem C5_chain_never_empty_witness :
    applyEdits [.Add .Tint, .SelectRow 1, .Remove] (startup : Globals ℚ) =
      some { (startup : Globals ℚ) with listBoxIndex := 1 } ∧
    1 ≤ ({ (startup : Globals ℚ) with listBoxIndex := 1 } : Globals ℚ).CurrentPostProcessList.length ∧
    1 ≤ ({ (startup : Globals ℚ) with
      listBoxIndex := 1 } : Globals ℚ).CurrentPostProcessListString.length :=
  have h : applyEdits [.Add .Tint, .SelectRow 1, .Remove] (startup : Globals ℚ) =
      some { (startup : Globals ℚ) with listBoxIndex := 1 } := by
    have hT : findTechnique "PPTint" = some PostProcesses.Tint := findTechnique_name .Tint
    simp [applyEdits, applyEdit, Add, SelectRow, Remove, eraseAt, PPTechniqueNames, hT, startup]
  ⟨h, C5_chain_never_empty _ _ h⟩

/-- Witness of C6: three updates of 1/2, 3 and 2 seconds from the initial
state. -/
theorem C6_burn_level_witness :
    (∀ x : ℚ, Mod x 1 = x - (⌊x⌋ : ℚ)) ∧ (startup : Globals ℚ).BurnLevel = 0 ∧
    ((UpdateSequence Mod [1 / 2, 3, 2] (startup : Globals ℚ)).BurnLevel
        = BurnSpeed * [(1 / 2 : ℚ), 3, 2].sum - (⌊(BurnSpeed * [(1 / 2 : ℚ), 3, 2].sum : ℚ)⌋ : ℚ) ∧
      (BurnSpeed : ℚ) = 2 / 10 ∧
      0 ≤ (UpdateSequence Mod [1 / 2, 3, 2] (startup : Globals ℚ)).BurnLevel ∧
      (UpdateSequence Mod [1 / 2, 3, 2] (startup : Globals ℚ)).BurnLevel < 1) :=
  have hMod : ∀ x : ℚ, Mod x 1 = x - (⌊x⌋ : ℚ) := by
    intro x
    simp [Mod]
  ⟨hMod, rfl, C6_burn_level Mod hMod (startup : Globals ℚ) rfl [1 / 2, 3, 2]⟩

/-- Witness of C9: the same camera and centre, an area 20 wide and 30 high. -/
theorem C9_area_centre_witness :
    (0 : ℚ) < 100 ∧
    ((exampleCamera.GetViewMatrix ⟨exampleCentre.x, exampleCentre.y, exampleCentre.z, 1⟩).x = 0 ∧
      (exampleCamera.GetViewMatrix ⟨exampleCentre.x, exampleCentre.y, exampleCentre.z, 1⟩).y = 0 ∧
      (exampleCamera.GetViewMatrix ⟨exampleCentre.x, exampleCentre.y, exampleCentre.z, 1⟩).z
        = 100) ∧
    (∀ v : Vec4 ℚ, (exampleCamera.GetProjMatrix v).x = 2 * v.x ∧
      (exampleCamera.GetProjMatrix v).y = 3 * v.y ∧ (exampleCamera.GetProjMatrix v).w = v.z) ∧
    ∃ topLeftUV bottomRightUV : ℚ × ℚ,
      (SetPostProcessArea exampleCamera exampleCentre 20 30 (-9)
        (startup : Globals ℚ)).PPAreaTopLeftVar = some topLeftUV ∧
      (SetPostProcessArea exampleCamera exampleCentre 20 30 (-9)
        (startup : Globals ℚ)).PPAreaBottomRightVar = some bottomRightUV ∧
      (topLeftUV.1 + bottomRightUV.1) / 2 = 1 / 2 ∧
      (topLeftUV.2 + bottomRightUV.2) / 2 = 1 / 2 :=
  have hz : (0 : ℚ) < 100 := by norm_num
  have hview :
      (exampleCamera.GetViewMatrix ⟨exampleCentre.x, exampleCentre.y, exampleCentre.z, 1⟩).x = 0 ∧
      (exampleCamera.GetViewMatrix ⟨exampleCentre.x, exampleCentre.y, exampleCentre.z, 1⟩).y = 0 ∧
      (exampleCamera.GetViewMatrix ⟨exampleCentre.x, exampleCentre.y, exampleCentre.z, 1⟩).z
        = 100 := ⟨rfl, rfl, rfl⟩
  have hproj : ∀ v : Vec4 ℚ, (exampleCamera.GetProjMatrix v).x = 2 * v.x ∧
      (exampleCamera.GetProjMatrix v).y = 3 * v.y ∧ (exampleCamera.GetProjMatrix v).w = v.z :=
    fun _ => ⟨rfl, rfl, rfl⟩
  ⟨hz, hview, hproj,
    C9_area_centre exampleCamera exampleCentre 20 30 (-9) 2 3 100 (startup : Globals ℚ)
      hz hview hproj⟩

/-- Witness of C10: the chain `[Copy, Bloom, Invert]`, entry 1. -/
theorem C10_bloom_four_draws_witness :
    exampleWithBloom.CurrentPostProcessList[1]? = some .Bloom ∧
    (FullScreenLoop (fun x => x) (fun _ => (0, 0))
        exampleWithBloom.CurrentPostProcessList.length (1 + 1) exampleWithBloom).draws =
      (FullScreenLoop (fun x => x) (fun _ => (0, 0))
        exampleWithBloom.CurrentPostProcessList.length 1 exampleWithBloom).draws ++
        [⟨.BloomSelection, some .BloomRenderTarget,
            some (if flagAtStage (fun x => x) (fun _ => (0, 0)) exampleWithBloom 1
              then .SceneShaderResource else .SceneShaderResource2),
            (FullScreenLoop (fun x => x) (fun _ => (0, 0))
              exampleWithBloom.CurrentPostProcessList.length 1
              exampleWithBloom).PostProcessMapVar⟩,
         ⟨.GaussianBlurHori,
            some (if flagAtStage (fun x => x) (fun _ => (0, 0)) exampleWithBloom 1
              then .SceneRenderTarget2 else .SceneRenderTarget),
            some .BloomShaderResource,
            (FullScreenLoop (fun x => x) (fun _ => (0, 0))
              exampleWithBloom.CurrentPostProcessList.length 1
              exampleWithBloom).PostProcessMapVar⟩,
         ⟨.GaussianBlurVert, some .BloomRenderTarget,
            some (if flagAtStage (fun x => x) (fun _ => (0, 0)) exampleWithBloom 1
              then .SceneShaderResource2 else .SceneShaderResource),
            (FullScreenLoop (fun x => x) (fun _ => (0, 0))
              exampleWithBloom.CurrentPostProcessList.length 1
              exampleWithBloom).PostProcessMapVar⟩,
         ⟨.Bloom,
            some (if 1 + 1 = exampleWithBloom.CurrentPostProcessList.length
              then .BackBufferRenderTarget
              else if flagAtStage (fun x => x) (fun _ => (0, 0)) exampleWithBloom 1
              then .SceneRenderTarget2 else .SceneRenderTarget),
            some (if flagAtStage (fun x => x) (fun _ => (0, 0)) exampleWithBloom 1
              then .SceneShaderResource else .SceneShaderResource2),
            some .BloomShaderResource⟩] :=
  ⟨rfl, C10_bloom_four_draws (fun x => x) (fun _ => (0, 0)) exampleWithBloom 1 rfl⟩

end PostProcessPoly

namespace PostProcessPoly

section StageFacts

variable {α : Type} [LinearOrderedField α]

theorem flagAtStage_succ (Cos : α → α) (R : Nat → α × α) (s : Globals α) (i : Nat)
    (hi : i < s.CurrentPostProcessList.length) :
    flagAtStage Cos R s (i + 1) = !flagAtStage Cos R s i := by
  have hget : s.CurrentPostProcessList[i]? = some (s.CurrentPostProcessList[i]) :=
    List.getElem?_eq_getElem hi
  simp only [flagAtStage]
  rw [FullScreenLoop_succ Cos R _ i s _ hget, stageBody_firstSceneRenderer]

theorem flagAtStage_iterate (Cos : α → α) (R : Nat → α × α) (s : Globals α) (i : Nat)
    (hi : i ≤ s.CurrentPostProcessList.length) :
    flagAtStage Cos R s i = (fun b => !b)^[i] s.firstSceneRenderer := by
  induction i with
  | zero => rfl
  | succ i ih =>
    rw [flagAtStage_succ Cos R s i (by omega), ih (by omega), Function.iterate_succ_apply']

theorem stageDraw_eq (Cos : α → α) (R : Nat → α × α) (s : Globals α) (i : Nat)
    (hi : i < s.CurrentPostProcessList.length) :
    stageDraw Cos R s i = some
      ⟨s.CurrentPostProcessList[i],
        some (if i + 1 = s.CurrentPostProcessList.length then .BackBufferRenderTarget
          else writeView (flagAtStage Cos R s i)),
        some (readView (flagAtStage Cos R s i)),
        (SelectPostProcess Cos (R i) (s.CurrentPostProcessList[i])
          (FullScreenLoop Cos R s.CurrentPostProcessList.length i s)).PostProcessMapVar⟩ := by
  have hget : s.CurrentPostProcessList[i]? = some (s.CurrentPostProcessList[i]) :=
    List.getElem?_eq_getElem hi
  simp only [stageDraw]
  rw [FullScreenLoop_succ Cos R _ i s _ hget, stageBody_draws,
    List.getLast?_append, List.getLast?_singleton]
  simp [flagAtStage]

theorem FullScreenLoop_draws_length (Cos : α → α) (R : Nat → α × α) (s : Globals α) (k : Nat)
    (hk : k ≤ s.CurrentPostProcessList.length) :
    (FullScreenLoop Cos R s.CurrentPostProcessList.length k s).draws.length =
      s.draws.length + k + 3 * (s.CurrentPostProcessList.take k).count .Bloom := by
  induction k with
  | zero => simp [FullScreenLoop]
  | succ k ih =>
    have hlt : k < s.CurrentPostProcessList.length := by omega
    have hget : s.CurrentPostProcessList[k]? = some (s.CurrentPostProcessList[k]) :=
      List.getElem?_eq_getElem hlt
    rw [FullScreenLoop_succ Cos R _ k s _ hget, stageBody_draws, SelectPostProcess_draws,
      List.take_succ, hget]
    simp only [List.length_append, List.length_singleton, ih (by omega), Option.toList_some,
      List.count_append, List.count_singleton]
    by_cases hb : s.CurrentPostProcessList[k] = .Bloom
    · simp [hb, bloomSubPasses]
      omega
    · simp [hb]
      omega

theorem stageDraw_techniques (Cos : α → α) (R : Nat → α × α) (s : Globals α) (k : Nat)
    (hk : k ≤ s.CurrentPostProcessList.length) :
    (List.range k).filterMap (fun i => (stageDraw Cos R s i).map Draw.technique) =
      s.CurrentPostProcessList.take k := by
  induction k with
  | zero => simp
  | succ k ih =>
    have hlt : k < s.CurrentPostProcessList.length := by omega
    have hget : s.CurrentPostProcessList[k]? = some (s.CurrentPostProcessList[k]) :=
      List.getElem?_eq_getElem hlt
    rw [List.range_succ, List.filterMap_append, ih (by omega), List.take_succ, hget]
    simp [stageDraw_eq Cos R s k hlt]

end StageFacts

end PostProcessPoly

namespace PostProcessPoly

/-- C11: `SelectPostProcess(Bloom)` leaves `firstSceneRenderer` as it is, and
the body of the loop of `FullScreenPostProcess` negates the flag once whatever
the filter, Bloom included. So with Bloom as entry `j` of a chain, every later
stage `i` starts with the same flag, and its draw has the same render target
and scene texture, as with any other filter as entry `j`. -/
theorem C11_bloom_single_toggle {α : Type} [LinearOrderedField α] (Cos : α → α)
    (RandomUVs : Nat → α × α) (s : Globals α) (j i : Nat) (other : PostProcesses)
    (hji : j < i) (hi : i < s.CurrentPostProcessList.length) :
    (∀ (R : α × α) (t : Globals α),
      (SelectPostProcess Cos R .Bloom t).firstSceneRenderer = t.firstSceneRenderer) ∧
    (∀ (R : α × α) (listCount k : Nat) (filter : PostProcesses) (t : Globals α),
      (stageBody Cos R listCount k filter t).firstSceneRenderer = !t.firstSceneRenderer) ∧
    ({ s with CurrentPostProcessList := s.CurrentPostProcessList.set j .Bloom } :
      Globals α).CurrentPostProcessList[j]? = some .Bloom ∧
    flagAtStage Cos RandomUVs
        { s with CurrentPostProcessList := s.CurrentPostProcessList.set j .Bloom } (j + 1) =
      !flagAtStage Cos RandomUVs
        { s with CurrentPostProcessList := s.CurrentPostProcessList.set j .Bloom } j ∧
    flagAtStage Cos RandomUVs
        { s with CurrentPostProcessList := s.CurrentPostProcessList.set j .Bloom } i =
      flagAtStage Cos RandomUVs
        { s with CurrentPostProcessList := s.CurrentPostProcessList.set j other } i ∧
    (stageDraw Cos RandomUVs
        { s with CurrentPostProcessList := s.CurrentPostProcessList.set j .Bloom } i).map
        (fun d => (d.renderTarget, d.SceneTexture)) =
      (stageDraw Cos RandomUVs
        { s with CurrentPostProcessList := s.CurrentPostProcessList.set j other } i).map
        (fun d => (d.renderTarget, d.SceneTexture)) := by
  have hjn : j < s.CurrentPostProcessList.length := by omega
  have hlen : ∀ f : PostProcesses,
      ({ s with CurrentPostProcessList := s.CurrentPostProcessList.set j f } :
        Globals α).CurrentPostProcessList.length = s.CurrentPostProcessList.length := by
    intro f
    simp
  have hflag : flagAtStage Cos RandomUVs
        { s with CurrentPostProcessList := s.CurrentPostProcessList.set j .Bloom } i =
      flagAtStage Cos RandomUVs
        { s with CurrentPostProcessList := s.CurrentPostProcessList.set j other } i := by
    rw [flagAtStage_iterate Cos RandomUVs _ i (by rw [hlen]; omega),
      flagAtStage_iterate Cos RandomUVs _ i (by rw [hlen]; omega)]
  refine ⟨fun R t => SelectPostProcess_firstSceneRenderer Cos R .Bloom t,
    fun R listCount k filter t => stageBody_firstSceneRenderer Cos R listCount k filter t,
    ?_, flagAtStage_succ Cos RandomUVs _ j (by rw [hlen]; exact hjn), hflag, ?_⟩
  · simp [hjn]
  · rw [stageDraw_eq Cos RandomUVs _ i (by rw [hlen]; exact hi),
      stageDraw_eq Cos RandomUVs _ i (by rw [hlen]; exact hi), hflag]
    simp

/-- C12, as the code has it: with an empty chain `FullScreenPostProcess` runs
its loop body not at all, so it issues no draw and leaves every global as it
is; with a chain of at least one entry its last draw, of the technique of the
last entry, has the back buffer as render target. -/
theorem C12_empty_chain_draws_nothing {α : Type} [LinearOrderedField α] (Cos : α → α)
    (RandomUVs : Nat → α × α) (s : Globals α) :
    (s.CurrentPostProcessList = [] → FullScreenPostProcess Cos RandomUVs s = s) ∧
    (s.CurrentPostProcessList ≠ [] →
      ∃ d, (FullScreenPostProcess Cos RandomUVs s).draws.getLast? = some d ∧
        d.renderTarget = some .BackBufferRenderTarget ∧
        s.CurrentPostProcessList.getLast? = some d.technique) := by
  constructor
  · intro h
    simp [FullScreenPostProcess, h, FullScreenLoop]
  · intro h
    have hpos : 0 < s.CurrentPostProcessList.length := List.length_pos.2 h
    have hlast : s.CurrentPostProcessList.length - 1 < s.CurrentPostProcessList.length := by
      omega
    have hd := stageDraw_eq Cos RandomUVs s (s.CurrentPostProcessList.length - 1) hlast
    have hsucc : s.CurrentPostProcessList.length - 1 + 1 = s.CurrentPostProcessList.length := by
      omega
    simp only [stageDraw, hsucc] at hd
    refine ⟨_, hd, ?_, ?_⟩
    · simp
    · rw [List.getLast?_eq_getElem?]
      exact List.getElem?_eq_getElem hlast

/-- C12, counterexample: with the empty chain `FullScreenPostProcess` does not
add one draw to the draws issued before. -/
theorem C12_empty_chain_counterexample :
    ¬ ∃ d : Draw,
      (FullScreenPostProcess (fun x => x) (fun _ => (0, 0)) exampleEmptyChain).draws =
        exampleEmptyChain.draws ++ [d] := by
  have h : FullScreenPostProcess (fun x => x) (fun _ => (0, 0)) exampleEmptyChain =
      exampleEmptyChain := by
    simp [FullScreenPostProcess, FullScreenLoop, exampleEmptyChain]
  rw [h]
  simp

/-- C13, as the code has it: every stage of `FullScreenPostProcess`, the final
one that renders to the back buffer included, negates `firstSceneRenderer`. -/
theorem C13_every_stage_toggles {α : Type} [LinearOrderedField α] (Cos : α → α)
    (RandomUVs : Nat → α × α) (s : Globals α) (i : Nat)
    (hi : i < s.CurrentPostProcessList.length) :
    flagAtStage Cos RandomUVs s (i + 1) = !flagAtStage Cos RandomUVs s i ∧
    (i + 1 = s.CurrentPostProcessList.length →
      (FullScreenPostProcess Cos RandomUVs s).firstSceneRenderer =
        !flagAtStage Cos RandomUVs s i) := by
  refine ⟨flagAtStage_succ Cos RandomUVs s i hi, ?_⟩
  intro hlast
  have h := flagAtStage_succ Cos RandomUVs s i hi
  rw [hlast] at h
  exact h

/-- C13, counterexample: in the initial state the chain is `[Copy]`, so stage 0
is the final stage, and `FullScreenPostProcess` changes `firstSceneRenderer`
from `false` to `true`. -/
theorem C13_final_stage_counterexample :
    (startup : Globals ℚ).CurrentPostProcessList.length = 1 ∧
    (startup : Globals ℚ).firstSceneRenderer = false ∧
    (FullScreenPostProcess (fun x => x) (fun _ => (0, 0))
      (startup : Globals ℚ)).firstSceneRenderer = true := by
  refine ⟨rfl, rfl, ?_⟩
  have h := flagAtStage_succ (fun x => x) (fun _ => ((0 : ℚ), (0 : ℚ))) (startup : Globals ℚ) 0
    (by simp [startup])
  simpa [flagAtStage, FullScreenPostProcess, FullScreenLoop, startup] using h

/-- C14: in `FullScreenPostProcess` each iteration `i` below the chain length
issues, after what `SelectPostProcess` does, exactly one draw, with the
technique of entry `i`, and negates `firstSceneRenderer`; so the stage draws
are as many as the chain entries with the techniques of the chain in order,
the draws issued are those and three more per Bloom entry, and the flag ends
negated as many times as the chain has entries. For the chain `[Tint, Invert]`
these are two draws, Tint then Invert, and the flag is back at its value. -/
theorem C14_one_draw_and_flip_per_entry {α : Type} [LinearOrderedField α] (Cos : α → α)
    (RandomUVs : Nat → α × α) (s : Globals α) :
    (∀ i, i < s.CurrentPostProcessList.length →
      ∃ filter d, s.CurrentPostProcessList[i]? = some filter ∧
        (FullScreenLoop Cos RandomUVs s.CurrentPostProcessList.length (i + 1) s).draws =
          (SelectPostProcess Cos (RandomUVs i) filter
            (FullScreenLoop Cos RandomUVs s.CurrentPostProcessList.length i s)).draws ++ [d] ∧
        d.technique = filter ∧
        flagAtStage Cos RandomUVs s (i + 1) = !flagAtStage Cos RandomUVs s i) ∧
    (List.range s.CurrentPostProcessList.length).filterMap
        (fun i => (stageDraw Cos RandomUVs s i).map Draw.technique) =
      s.CurrentPostProcessList ∧
    (FullScreenPostProcess Cos RandomUVs s).draws.length =
      s.draws.length + s.CurrentPostProcessList.length +
        3 * s.CurrentPostProcessList.count .Bloom ∧
    (FullScreenPostProcess Cos RandomUVs s).firstSceneRenderer =
      (fun b => !b)^[s.CurrentPostProcessList.length] s.firstSceneRenderer ∧
    (FullScreenPostProcess (fun x => x) (fun _ => (0, 0)) exampleTintInvert).draws =
      [⟨.Tint, some .SceneRenderTarget, some .SceneShaderResource2, none⟩,
       ⟨.Invert, some .BackBufferRenderTarget, some .SceneShaderResource, none⟩] ∧
    (FullScreenPostProcess (fun x => x) (fun _ => (0, 0)) exampleTintInvert).firstSceneRenderer =
      exampleTintInvert.firstSceneRenderer := by
  refine ⟨?_, ?_, ?_, ?_, ?_, ?_⟩
  · intro i hi
    have hget : s.CurrentPostProcessList[i]? = some (s.CurrentPostProcessList[i]) :=
      List.getElem?_eq_getElem hi
    exact ⟨_, _, hget, by rw [FullScreenLoop_succ Cos RandomUVs _ i s _ hget, stageBody_draws],
      rfl, flagAtStage_succ Cos RandomUVs s i hi⟩
  · have h := stageDraw_techniques Cos RandomUVs s _ (le_refl _)
    rwa [List.take_length] at h
  · have h := FullScreenLoop_draws_length Cos RandomUVs s _ (le_refl _)
    rwa [List.take_length] at h
  · exact flagAtStage_iterate Cos RandomUVs s _ (le_refl _)
  · simp [FullScreenPostProcess, FullScreenLoop, exampleTintInvert, startup, stageBody,
      SelectPostProcess, caseTint, selectBuffers, ApplyAndDraw, SetFullScreenPostProcessArea]
  · simp [FullScreenPostProcess, FullScreenLoop, exampleTintInvert, startup, stageBody,
      SelectPostProcess, caseTint, selectBuffers, ApplyAndDraw, SetFullScreenPostProcessArea]

end PostProcessPoly

namespace PostProcessPoly

open HSL

section HueFacts

variable {α : Type} [LinearOrderedField α]

theorem quotient_range (a b hi lo : α) (ha : lo ≤ a ∧ a ≤ hi) (hb : lo ≤ b ∧ b ≤ hi)
    (hd : hi - lo ≠ 0) : -1 ≤ (a - b) / (hi - lo) ∧ (a - b) / (hi - lo) ≤ 1 := by
  have hpos : 0 < hi - lo := lt_of_le_of_ne (by linarith [ha.1, ha.2]) (Ne.symm hd)
  constructor
  · rw [le_div_iff₀ hpos]
    linarith [ha.1, hb.2]
  · rw [div_le_one hpos]
    linarith [ha.2, hb.1]

theorem hueSextant_range (ra ga ba q : α)
    (h : hueSextant ra ga ba (max ra (max ga ba))
      (max ra (max ga ba) - min ra (min ga ba)) = some q) : -1 ≤ q ∧ q ≤ 5 := by
  have hr : min ra (min ga ba) ≤ ra ∧ ra ≤ max ra (max ga ba) :=
    ⟨min_le_left _ _, le_max_left _ _⟩
  have hg : min ra (min ga ba) ≤ ga ∧ ga ≤ max ra (max ga ba) :=
    ⟨le_trans (min_le_right _ _) (min_le_left _ _),
      le_trans (le_max_left _ _) (le_max_right _ _)⟩
  have hb : min ra (min ga ba) ≤ ba ∧ ba ≤ max ra (max ga ba) :=
    ⟨le_trans (min_le_right _ _) (min_le_right _ _),
      le_trans (le_max_right _ _) (le_max_right _ _)⟩
  have key : ∀ a b r : α, min ra (min ga ba) ≤ a ∧ a ≤ max ra (max ga ba) →
      min ra (min ga ba) ≤ b ∧ b ≤ max ra (max ga ba) →
      checkedDiv (a - b) (max ra (max ga ba) - min ra (min ga ba)) = some r →
      -1 ≤ r ∧ r ≤ 1 := by
    intro a b r ha hb hr
    unfold checkedDiv at hr
    split_ifs at hr with hd
    cases hr
    exact quotient_range a b _ _ ha hb hd
  unfold hueSextant at h
  by_cases h0 : max ra (max ga ba) = 0
  · rw [if_pos h0] at h
    cases h
    constructor <;> norm_num
  · rw [if_neg h0] at h
    by_cases h1 : ra = max ra (max ga ba)
    · rw [if_pos h1] at h
      have := key ga ba q hg hb h
      constructor <;> linarith [this.1, this.2]
    · rw [if_neg h1] at h
      by_cases h2 : ga = max ra (max ga ba)
      · rw [if_pos h2] at h
        cases hq : checkedDiv (ba - ra) (max ra (max ga ba) - min ra (min ga ba)) with
        | none => simp [hq] at h
        | some r =>
          rw [hq] at h
          simp only [Option.map_some', Option.some.injEq] at h
          have := key ba ra r hb hr hq
          constructor <;> linarith [this.1, this.2]
      · rw [if_neg h2] at h
        cases hq : checkedDiv (ra - ga) (max ra (max ga ba) - min ra (min ga ba)) with
        | none => simp [hq] at h
        | some r =>
          rw [hq] at h
          simp only [Option.map_some', Option.some.injEq] at h
          have := key ra ga r hr hg hq
          constructor <;> linarith [this.1, this.2]

theorem toDegrees_range (q : α) (h : -1 ≤ q ∧ q ≤ 5) : 0 ≤ toDegrees q ∧ toDegrees q < 360 := by
  unfold toDegrees
  split_ifs with hneg
  · constructor <;> linarith [h.1]
  · constructor <;> linarith [h.2]

theorem RGBToHSL_hue_range (c hsl : Vec4 α) (h : RGBToHSL c = some hsl) :
    0 ≤ hsl.x ∧ hsl.x < 360 := by
  simp only [RGBToHSL] at h
  split at h
  · next s q hs hq =>
    cases h
    exact toDegrees_range q (hueSextant_range _ _ _ q hq)
  · cases h

end HueFacts

theorem findTechnique_none (name : String) (h : ∀ p, PPTechniqueNames p ≠ name) :
    findTechnique name = none := by
  unfold findTechnique
  rw [List.find?_eq_none]
  intro p _
  simpa using h p

/-- C16: from the initial state, "Add" of Tint, "Add" of Invert, a click on row
2 and "Remove" give the chain `[Copy, Tint]` with `listBoxIndex = 2`, the chain
length; a second "Remove" then erases at index 2 of two vectors of size 2. -/
theorem C16_remove_leaves_index_outside :
    applyEdits [.Add .Tint, .Add .Invert, .SelectRow 2, .Remove] (startup : Globals ℚ) =
      some { (startup : Globals ℚ) with
        CurrentPostProcessList := [.Copy, .Tint]
        CurrentPostProcessListString := ["PPCopy", "PPTint"]
        listBoxIndex := 2 } ∧
    ¬ (2 < [PostProcesses.Copy, PostProcesses.Tint].length) ∧
    eraseAt [PostProcesses.Copy, PostProcesses.Tint] 2 = none ∧
    applyEdits [.Add .Tint, .Add .Invert, .SelectRow 2, .Remove, .Remove]
      (startup : Globals ℚ) = none := by
  have hT : findTechnique "PPTint" = some PostProcesses.Tint := findTechnique_name .Tint
  have hI : findTechnique "PPInvert" = some PostProcesses.Invert := findTechnique_name .Invert
  refine ⟨?_, by decide, by decide, ?_⟩
  · simp [applyEdits, applyEdit, Add, SelectRow, Remove, eraseAt, PPTechniqueNames, hT, hI,
      startup]
  · simp [applyEdits, applyEdit, Add, SelectRow, Remove, eraseAt, PPTechniqueNames, hT, hI,
      startup]

end PostProcessPoly

namespace PostProcessPoly

open HSL

section RotationFacts

variable {α : Type} [LinearOrderedField α] [FloorRing α]

theorem rotateTint_eq (t : α) (c : Vec4 α) :
    rotateTint t c =
      (RGBToHSL c).map (fun hsl => HSLToRBG { hsl with x := rotatedHue t hsl.x }) := rfl

theorem UpdatePostProcesses_PPTint2Colour1 (Mod : α → α → α) (t : α) (s : Globals α)
    (h : s.PPTint2Rotate = true) :
    (UpdatePostProcesses Mod t s).PPTint2Colour1 =
      s.PPTint2Colour1.bind (rotateTint (TintHueRotateSpeed * t)) := by
  simp [UpdatePostProcesses, h]

end RotationFacts

/-- C17, as the code has it, over exact arithmetic: in `UpdatePostProcesses`
with `PPTint2Rotate` set, for a tint colour to which `RGBToHSL` gives a hue `h`
and an update time `dt ≥ 0` with `h + 10 * dt` below 720 and other than 360,
the hue handed to `HSLToRBG`, `rotatedHue (10 * dt) h`, lies in `[0, 360)`.
The rounding of `float` is left out; with it a sum just below 360 can become
360, see the counterexample. -/
theorem C17_rotated_hue_in_range {α : Type} [LinearOrderedField α] [FloorRing α]
    (Mod : α → α → α) (s : Globals α) (colour hsl : Vec4 α) (updateTime : α)
    (hrot : s.PPTint2Rotate = true) (hcol : s.PPTint2Colour1 = some colour)
    (hhsl : RGBToHSL colour = some hsl) (h0 : 0 ≤ updateTime)
    (hlt : hsl.x + TintHueRotateSpeed * updateTime < 720)
    (hne : hsl.x + TintHueRotateSpeed * updateTime ≠ 360) :
    (UpdatePostProcesses Mod updateTime s).PPTint2Colour1 =
      some (HSLToRBG { hsl with x := rotatedHue (TintHueRotateSpeed * updateTime) hsl.x }) ∧
    (TintHueRotateSpeed : α) = 10 ∧
    0 ≤ rotatedHue (TintHueRotateSpeed * updateTime) hsl.x ∧
    rotatedHue (TintHueRotateSpeed * updateTime) hsl.x < 360 := by
  have hx := RGBToHSL_hue_range colour hsl hhsl
  refine ⟨?_, rfl, ?_, ?_⟩
  · rw [UpdatePostProcesses_PPTint2Colour1 Mod updateTime s hrot, hcol, Option.some_bind,
      rotateTint_eq, hhsl, Option.map_some']
  · simp only [rotatedHue, TintHueRotateSpeed] at hne ⊢
    split_ifs with h
    · linarith
    · linarith [hx.1]
  · simp only [rotatedHue, TintHueRotateSpeed] at hne hlt ⊢
    split_ifs with h
    · linarith
    · exact lt_of_le_of_ne (not_lt.1 h) hne

/-- C17, counterexample: the initial first colour of Tint2, `(0, 0, 1, 1)`, has
hue 240. An update time of 12 hands the hue 360 to `HSLToRBG`, an update time
of 100 the hue 880; neither lies in `[0, 360)`. For the grey
`(1/2, 1/2, 1/2, 1)` there is no hue to rotate. In `float` arithmetic the
colour `(1, 0, 1/2, 1)` has hue 330, and with the update time `3 - 2^-21` the
sum `330 + 10 * dt` rounds to 360, which the test `> 360` lets through. -/
theorem C17_rotated_hue_counterexample :
    RGBToHSL (⟨0, 0, 1, 1⟩ : Vec4 ℚ) = some ⟨240, 1, 1 / 2, 1⟩ ∧
    (UpdatePostProcesses Mod 12 (startup : Globals ℚ)).PPTint2Colour1 =
      some (HSLToRBG ⟨360, 1, 1 / 2, 1⟩) ∧
    (UpdatePostProcesses Mod 100 (startup : Globals ℚ)).PPTint2Colour1 =
      some (HSLToRBG ⟨880, 1, 1 / 2, 1⟩) ∧
    ¬ ((360 : ℚ) < 360) ∧ ¬ ((880 : ℚ) < 360) ∧
    rotateTint (TintHueRotateSpeed * 1) (⟨1 / 2, 1 / 2, 1 / 2, 1⟩ : Vec4 ℚ) = none ∧
    Binary32.RGBToHSL ⟨1, 0, 1 / 2, 1⟩ = some ⟨330, 1, 1 / 2, 1⟩ ∧
    Binary32.round32 (3 - 1 / 2 ^ 21) = 3 - 1 / 2 ^ 21 ∧
    Binary32.rotatedHue (Binary32.mul TintHueRotateSpeed (3 - 1 / 2 ^ 21)) 330 = 360 := by
  have hblue : RGBToHSL (⟨0, 0, 1, 1⟩ : Vec4 ℚ) = some ⟨240, 1, 1 / 2, 1⟩ := by
    norm_num [RGBToHSL, saturation, hueSextant, toDegrees, checkedDiv]
  have hgrey : RGBToHSL (⟨1 / 2, 1 / 2, 1 / 2, 1⟩ : Vec4 ℚ) = none := by
    norm_num [RGBToHSL, saturation, hueSextant, checkedDiv]
  have hstart : (startup : Globals ℚ).PPTint2Colour1 = some ⟨0, 0, 1, 1⟩ := rfl
  refine ⟨hblue, ?_, ?_, by norm_num, by norm_num, ?_, by decide!, by decide!, by decide!⟩
  · rw [UpdatePostProcesses_PPTint2Colour1 Mod 12 _ rfl, hstart, Option.some_bind,
      rotateTint_eq, hblue, Option.map_some']
    norm_num [rotatedHue, TintHueRotateSpeed]
  · rw [UpdatePostProcesses_PPTint2Colour1 Mod 100 _ rfl, hstart, Option.some_bind,
      rotateTint_eq, hblue, Option.map_some']
    norm_num [rotatedHue, TintHueRotateSpeed]
  · rw [rotateTint_eq, hgrey, Option.map_none']

/-- Witness of C17: one second from the initial state, blue of hue 240. -/
theorem C17_rotated_hue_in_range_witness :
    (startup : Globals ℚ).PPTint2Rotate = true ∧
    (startup : Globals ℚ).PPTint2Colour1 = some ⟨0, 0, 1, 1⟩ ∧
    RGBToHSL (⟨0, 0, 1, 1⟩ : Vec4 ℚ) = some ⟨240, 1, 1 / 2, 1⟩ ∧
    (0 : ℚ) ≤ 1 ∧
    (⟨240, 1, 1 / 2, 1⟩ : Vec4 ℚ).x + TintHueRotateSpeed * 1 < 720 ∧
    (⟨240, 1, 1 / 2, 1⟩ : Vec4 ℚ).x + TintHueRotateSpeed * 1 ≠ 360 ∧
    ((UpdatePostProcesses Mod 1 (startup : Globals ℚ)).PPTint2Colour1 =
      some (HSLToRBG { (⟨240, 1, 1 / 2, 1⟩ : Vec4 ℚ) with
        x := rotatedHue (TintHueRotateSpeed * 1) (⟨240, 1, 1 / 2, 1⟩ : Vec4 ℚ).x }) ∧
    (TintHueRotateSpeed : ℚ) = 10 ∧
    0 ≤ rotatedHue (TintHueRotateSpeed * 1) (⟨240, 1, 1 / 2, 1⟩ : Vec4 ℚ).x ∧
    rotatedHue (TintHueRotateSpeed * 1) (⟨240, 1, 1 / 2, 1⟩ : Vec4 ℚ).x < 360) :=
  have hblue : RGBToHSL (⟨0, 0, 1, 1⟩ : Vec4 ℚ) = some ⟨240, 1, 1 / 2, 1⟩ := by
    norm_num [RGBToHSL, saturation, hueSextant, toDegrees, checkedDiv]
  have hlt : (⟨240, 1, 1 / 2, 1⟩ : Vec4 ℚ).x + TintHueRotateSpeed * 1 < 720 := by
    norm_num [TintHueRotateSpeed]
  have hne : (⟨240, 1, 1 / 2, 1⟩ : Vec4 ℚ).x + TintHueRotateSpeed * 1 ≠ 360 := by
    norm_num [TintHueRotateSpeed]
  ⟨rfl, rfl, hblue, by norm_num, hlt, hne,
    C17_rotated_hue_in_range Mod (startup : Globals ℚ) ⟨0, 0, 1, 1⟩ ⟨240, 1, 1 / 2, 1⟩ 1
      rfl rfl hblue (by norm_num) hlt hne⟩

/-- C18: with the first colour of Tint2 at `(1/2, 1/4, 1/4, 1)`, of hue 0,
saturation 1/3 and lightness 3/8, one `UpdatePostProcesses` of one second with
rotation on gives `(5/6, 5/72, -1/12, 1)`, of hue 10, saturation 11/9 and
lightness 3/8: the saturation is not the one before the tick. -/
theorem C18_tick_changes_saturation :
    exampleDullTint.PPTint2Rotate = true ∧
    exampleDullTint.PPTint2Colour1 = some ⟨1 / 2, 1 / 4, 1 / 4, 1⟩ ∧
    RGBToHSL (⟨1 / 2, 1 / 4, 1 / 4, 1⟩ : Vec4 ℚ) = some ⟨0, 1 / 3, 3 / 8, 1⟩ ∧
    (UpdatePostProcesses Mod 1 exampleDullTint).PPTint2Colour1 =
      some ⟨5 / 6, 5 / 72, -1 / 12, 1⟩ ∧
    RGBToHSL (⟨5 / 6, 5 / 72, -1 / 12, 1⟩ : Vec4 ℚ) = some ⟨10, 11 / 9, 3 / 8, 1⟩ ∧
    (11 / 9 : ℚ) ≠ 1 / 3 := by
  have h1 : RGBToHSL (⟨1 / 2, 1 / 4, 1 / 4, 1⟩ : Vec4 ℚ) = some ⟨0, 1 / 3, 3 / 8, 1⟩ := by
    norm_num [RGBToHSL, saturation, hueSextant, toDegrees, checkedDiv, abs_of_nonpos]
  have hcol : exampleDullTint.PPTint2Colour1 = some ⟨1 / 2, 1 / 4, 1 / 4, 1⟩ := rfl
  refine ⟨rfl, hcol, h1, ?_, ?_, by norm_num⟩
  · rw [UpdatePostProcesses_PPTint2Colour1 Mod 1 _ rfl, hcol, Option.some_bind,
      rotateTint_eq, h1, Option.map_some']
    norm_num [rotatedHue, TintHueRotateSpeed, HSLToRBG, fmodf, abs_of_nonpos]
  · norm_num [RGBToHSL, saturation, hueSextant, toDegrees, checkedDiv, abs_of_nonpos]

end PostProcessPoly

namespace PostProcessPoly

open HSL

theorem newDraws_append {α : Type} (s u : Globals α) (new : List Draw)
    (h : u.draws = s.draws ++ new) : newDraws s u = new.map FrameEvent.Draw := by
  simp [newDraws, h]

section FrameFacts

variable {α : Type} [LinearOrderedField α]

theorem FullScreenPostProcess_draws (Cos : α → α) (R : Nat → α × α) (s : Globals α) :
    ∃ new, (FullScreenPostProcess Cos R s).draws = s.draws ++ new ∧
      s.CurrentPostProcessList.length ≤ new.length := by
  obtain ⟨new, h, hlen, -⟩ := FullScreenLoop_hazardFree Cos R _ s _ (le_refl _)
  exact ⟨new, h, hlen⟩

/-- The events of `RenderScene`: the scene render into the first scene texture,
the copy into the second, the polygon pass, the Spiral area pass, the draws of
`FullScreenPostProcess` started with `firstSceneRenderer = false`, then the
interface, the text and the presentation. -/
theorem RenderScene_events (camera : CCamera α) (cubeyPosition : CVector3 α) (Cos : α → α)
    (RandomUVs : Nat → α × α) (RenderImGui : Globals α → Option (Globals α)) (s : Globals α) :
    ∃ (t : Globals α) (chainDraws : List Draw),
      t.CurrentPostProcessList = s.CurrentPostProcessList ∧ t.firstSceneRenderer = false ∧
      (FullScreenPostProcess Cos RandomUVs t).draws = t.draws ++ chainDraws ∧
      s.CurrentPostProcessList.length ≤ chainDraws.length ∧
      (RenderScene camera cubeyPosition Cos RandomUVs RenderImGui s).events =
        [FrameEvent.RenderAllEntities (some .SceneRenderTarget) false,
         FrameEvent.Draw ⟨.Copy, some .SceneRenderTarget2, some .SceneShaderResource,
           s.PostProcessMapVar⟩,
         FrameEvent.RenderAllEntities (some .SceneRenderTarget2) true,
         FrameEvent.Draw ⟨.Spiral, some .SceneRenderTarget2, some .SceneShaderResource,
           s.PostProcessMapVar⟩] ++
        chainDraws.map FrameEvent.Draw ++
        [FrameEvent.RenderImGui, FrameEvent.RenderSceneText, FrameEvent.Present] := by
  obtain ⟨chainDraws, hchain, hlen⟩ := FullScreenPostProcess_draws Cos RandomUVs
    (ApplyAndDraw .Spiral
      (SelectPostProcess Cos (RandomUVs 0) .Spiral
        (SetPostProcessArea camera cubeyPosition 20 20 (-9)
          (ApplyAndDraw .Copy
            (SetFullScreenPostProcessArea (SelectPostProcess Cos (RandomUVs 0) .Copy
              { s with
                renderTarget := some .SceneRenderTarget2
                SceneTextureVar := some .SceneShaderResource
                firstSceneRenderer := false }))))))
  refine ⟨_, chainDraws, ?_, ?_, hchain, ?_, ?_⟩
  · simp [ApplyAndDraw, SelectPostProcess, caseSpiral, SetPostProcessArea,
      SetFullScreenPostProcessArea]
  · simp [ApplyAndDraw, SelectPostProcess, caseSpiral, SetPostProcessArea,
      SetFullScreenPostProcessArea]
  · simpa [ApplyAndDraw, SelectPostProcess, caseSpiral, SetPostProcessArea,
      SetFullScreenPostProcessArea] using hlen
  · simp only [RenderScene]
    rw [newDraws_append _ _ chainDraws hchain]
    simp [newDraws, ApplyAndDraw, SelectPostProcess, caseSpiral, SetPostProcessArea,
      SetFullScreenPostProcessArea]

end FrameFacts

/-- C19, as the code has it: one `RenderScene` issues, in this order, the scene
render, a full-screen Copy into the second scene texture, the polygon pass,
the Spiral area pass, then the draws of `FullScreenPostProcess` (at least one
per chain entry), then the interface, the on-screen text and `Present`: the
area pass is drawn before the full-screen chain starts. -/
theorem C19_frame_order {α : Type} [LinearOrderedField α] (camera : CCamera α)
    (cubeyPosition : CVector3 α) (Cos : α → α) (RandomUVs : Nat → α × α)
    (RenderImGui : Globals α → Option (Globals α)) (s : Globals α) :
    ∃ (t : Globals α) (chainDraws : List Draw),
      t.CurrentPostProcessList = s.CurrentPostProcessList ∧ t.firstSceneRenderer = false ∧
      (FullScreenPostProcess Cos RandomUVs t).draws = t.draws ++ chainDraws ∧
      s.CurrentPostProcessList.length ≤ chainDraws.length ∧
      (RenderScene camera cubeyPosition Cos RandomUVs RenderImGui s).events =
        [FrameEvent.RenderAllEntities (some .SceneRenderTarget) false,
         FrameEvent.Draw ⟨.Copy, some .SceneRenderTarget2, some .SceneShaderResource,
           s.PostProcessMapVar⟩,
         FrameEvent.RenderAllEntities (some .SceneRenderTarget2) true,
         FrameEvent.Draw ⟨.Spiral, some .SceneRenderTarget2, some .SceneShaderResource,
           s.PostProcessMapVar⟩] ++
        chainDraws.map FrameEvent.Draw ++
        [FrameEvent.RenderImGui, FrameEvent.RenderSceneText, FrameEvent.Present] :=
  RenderScene_events camera cubeyPosition Cos RandomUVs RenderImGui s

/-- C19, counterexample: with the chain `[Tint, Invert]` the Spiral area pass is
the fourth event of the frame and the two chain stages, Tint and Invert, are
the fifth and the sixth. -/
theorem C19_frame_order_counterexample :
    (RenderScene exampleCamera exampleCentre (fun x => x) (fun _ => (0, 0)) some
      exampleTintInvert).events =
      [FrameEvent.RenderAllEntities (some .SceneRenderTarget) false,
       FrameEvent.Draw ⟨.Copy, some .SceneRenderTarget2, some .SceneShaderResource, none⟩,
       FrameEvent.RenderAllEntities (some .SceneRenderTarget2) true,
       FrameEvent.Draw ⟨.Spiral, some .SceneRenderTarget2, some .SceneShaderResource, none⟩,
       FrameEvent.Draw ⟨.Tint, some .SceneRenderTarget, some .SceneShaderResource2, none⟩,
       FrameEvent.Draw ⟨.Invert, some .BackBufferRenderTarget, some .SceneShaderResource, none⟩,
       FrameEvent.RenderImGui, FrameEvent.RenderSceneText, FrameEvent.Present] := by
  simp [RenderScene, newDraws, FullScreenPostProcess, FullScreenLoop, exampleTintInvert, startup,
    stageBody, SelectPostProcess, caseTint, caseSpiral, selectBuffers, ApplyAndDraw,
    SetFullScreenPostProcessArea, SetPostProcessArea]

/-- C20, as the code has it: the Spiral area pass, the fourth event of
`RenderScene`, is drawn with `SceneRenderTarget2` bound, the view of the second
ping-pong texture, and reads the first scene texture. -/
theorem C20_area_pass_target {α : Type} [LinearOrderedField α] (camera : CCamera α)
    (cubeyPosition : CVector3 α) (Cos : α → α) (RandomUVs : Nat → α × α)
    (RenderImGui : Globals α → Option (Globals α)) (s : Globals α) :
    (RenderScene camera cubeyPosition Cos RandomUVs RenderImGui s).events[3]? =
      some (FrameEvent.Draw ⟨.Spiral, some .SceneRenderTarget2, some .SceneShaderResource,
        s.PostProcessMapVar⟩) ∧
    RenderTargetView.SceneRenderTarget2.texture = Texture.SceneTexture2 := by
  obtain ⟨t, chainDraws, -, -, -, -, h⟩ :=
    RenderScene_events camera cubeyPosition Cos RandomUVs RenderImGui s
  rw [h]
  refine ⟨?_, rfl⟩
  simp

/-- C20, counterexample: in a frame from the initial state, whose chain `[Copy]`
holds no Spiral, the Spiral draw has `SceneRenderTarget2` as render target,
which is not the back buffer view; the back buffer is the target of the chain
stage that follows. -/
theorem C20_area_pass_counterexample :
    (RenderScene exampleCamera exampleCentre (fun x => x) (fun _ => (0, 0)) some
      (startup : Globals ℚ)).events =
      [FrameEvent.RenderAllEntities (some .SceneRenderTarget) false,
       FrameEvent.Draw ⟨.Copy, some .SceneRenderTarget2, some .SceneShaderResource, none⟩,
       FrameEvent.RenderAllEntities (some .SceneRenderTarget2) true,
       FrameEvent.Draw ⟨.Spiral, some .SceneRenderTarget2, some .SceneShaderResource, none⟩,
       FrameEvent.Draw ⟨.Copy, some .BackBufferRenderTarget, some .SceneShaderResource2, none⟩,
       FrameEvent.RenderImGui, FrameEvent.RenderSceneText, FrameEvent.Present] ∧
    RenderTargetView.SceneRenderTarget2 ≠ RenderTargetView.BackBufferRenderTarget ∧
    RenderTargetView.SceneRenderTarget2.texture ≠ Texture.BackBuffer := by
  refine ⟨?_, by decide, by decide⟩
  simp [RenderScene, newDraws, FullScreenPostProcess, FullScreenLoop, startup,
    stageBody, SelectPostProcess, caseSpiral, selectBuffers, ApplyAndDraw,
    SetFullScreenPostProcessArea, SetPostProcessArea]

end PostProcessPoly

namespace PostProcessPoly

open HSL

/-- Witness of C11: entry 1 of a chain of three, stage 2 after it, Tint as the
other filter. -/
theorem C11_bloom_single_toggle_witness :
    1 < 2 ∧ 2 < exampleWithoutBloom.CurrentPostProcessList.length ∧
    ((∀ (R : ℚ × ℚ) (t : Globals ℚ),
      (SelectPostProcess (fun x => x) R .Bloom t).firstSceneRenderer = t.firstSceneRenderer) ∧
    (∀ (R : ℚ × ℚ) (listCount k : Nat) (filter : PostProcesses) (t : Globals ℚ),
      (stageBody (fun x => x) R listCount k filter t).firstSceneRenderer =
        !t.firstSceneRenderer) ∧
    ({ exampleWithoutBloom with
        CurrentPostProcessList := exampleWithoutBloom.CurrentPostProcessList.set 1 .Bloom } :
      Globals ℚ).CurrentPostProcessList[1]? = some .Bloom ∧
    flagAtStage (fun x => x) (fun _ => (0, 0))
        { exampleWithoutBloom with
          CurrentPostProcessList := exampleWithoutBloom.CurrentPostProcessList.set 1 .Bloom }
        (1 + 1) =
      !flagAtStage (fun x => x) (fun _ => (0, 0))
        { exampleWithoutBloom with
          CurrentPostProcessList := exampleWithoutBloom.CurrentPostProcessList.set 1 .Bloom } 1 ∧
    flagAtStage (fun x => x) (fun _ => (0, 0))
        { exampleWithoutBloom with
          CurrentPostProcessList := exampleWithoutBloom.CurrentPostProcessList.set 1 .Bloom } 2 =
      flagAtStage (fun x => x) (fun _ => (0, 0))
        { exampleWithoutBloom with
          CurrentPostProcessList := exampleWithoutBloom.CurrentPostProcessList.set 1 .Tint } 2 ∧
    (stageDraw (fun x => x) (fun _ => (0, 0))
        { exampleWithoutBloom with
          CurrentPostProcessList := exampleWithoutBloom.CurrentPostProcessList.set 1 .Bloom }
        2).map (fun d => (d.renderTarget, d.SceneTexture)) =
      (stageDraw (fun x => x) (fun _ => (0, 0))
        { exampleWithoutBloom with
          CurrentPostProcessList := exampleWithoutBloom.CurrentPostProcessList.set 1 .Tint }
        2).map (fun d => (d.renderTarget, d.SceneTexture))) :=
  ⟨by decide, by decide,
    C11_bloom_single_toggle (fun x => x) (fun _ => (0, 0)) exampleWithoutBloom 1 2 .Tint
      (by decide) (by decide)⟩

/-- Witness of C12: the empty chain, and the initial chain `[Copy]`. -/
theorem C12_empty_chain_draws_nothing_witness :
    (exampleEmptyChain.CurrentPostProcessList = [] ∧
      FullScreenPostProcess (fun x => x) (fun _ => (0, 0)) exampleEmptyChain =
        exampleEmptyChain) ∧
    ((startup : Globals ℚ).CurrentPostProcessList ≠ [] ∧
      ∃ d, (FullScreenPostProcess (fun x => x) (fun _ => (0, 0))
          (startup : Globals ℚ)).draws.getLast? = some d ∧
        d.renderTarget = some .BackBufferRenderTarget ∧
        (startup : Globals ℚ).CurrentPostProcessList.getLast? = some d.technique) :=
  ⟨⟨rfl, (C12_empty_chain_draws_nothing (fun x => x) (fun _ => (0, 0)) exampleEmptyChain).1 rfl⟩,
    ⟨by decide,
      (C12_empty_chain_draws_nothing (fun x => x) (fun _ => (0, 0)) (startup : Globals ℚ)).2
        (by decide)⟩⟩

/-- Witness of C13: stage 0 of the initial chain `[Copy]`, the final stage. -/
theorem C13_every_stage_toggles_witness :
    0 < (startup : Globals ℚ).CurrentPostProcessList.length ∧
    (flagAtStage (fun x => x) (fun _ => (0, 0)) (startup : Globals ℚ) (0 + 1) =
      !flagAtStage (fun x => x) (fun _ => (0, 0)) (startup : Globals ℚ) 0 ∧
    (0 + 1 = (startup : Globals ℚ).CurrentPostProcessList.length →
      (FullScreenPostProcess (fun x => x) (fun _ => (0, 0))
        (startup : Globals ℚ)).firstSceneRenderer =
        !flagAtStage (fun x => x) (fun _ => (0, 0)) (startup : Globals ℚ) 0)) :=
  ⟨by decide,
    C13_every_stage_toggles (fun x => x) (fun _ => (0, 0)) (startup : Globals ℚ) 0 (by decide)⟩

/-- Witness of C14: iteration 1 of the chain `[Tint, Invert]`. -/
theorem C14_one_draw_and_flip_per_entry_witness :
    1 < exampleTintInvert.CurrentPostProcessList.length ∧
    ∃ filter d, exampleTintInvert.CurrentPostProcessList[1]? = some filter ∧
      (FullScreenLoop (fun x => x) (fun _ => (0, 0))
          exampleTintInvert.CurrentPostProcessList.length (1 + 1) exampleTintInvert).draws =
        (SelectPostProcess (fun x => x) ((fun _ => (0, 0)) 1) filter
          (FullScreenLoop (fun x => x) (fun _ => (0, 0))
            exampleTintInvert.CurrentPostProcessList.length 1 exampleTintInvert)).draws ++ [d] ∧
      d.technique = filter ∧
      flagAtStage (fun x => x) (fun _ => (0, 0)) exampleTintInvert (1 + 1) =
        !flagAtStage (fun x => x) (fun _ => (0, 0)) exampleTintInvert 1 :=
  ⟨by decide,
    (C14_one_draw_and_flip_per_entry (fun x => x) (fun _ => (0, 0)) exampleTintInvert).1 1
      (by decide)⟩

end PostProcessPoly

namespace PostProcessPoly

open HSL

section FrameProperty

variable {α : Type} [LinearOrderedField α]

theorem SelectPostProcess_animated (Cos : α → α) (R : α × α) (filter : PostProcesses)
    (s : Globals α) :
    (SelectPostProcess Cos R filter s).BurnLevel = s.BurnLevel ∧
    (SelectPostProcess Cos R filter s).SpiralTimer = s.SpiralTimer ∧
    (SelectPostProcess Cos R filter s).HeatHazeTimer = s.HeatHazeTimer ∧
    (SelectPostProcess Cos R filter s).WiggleTimer = s.WiggleTimer ∧
    (SelectPostProcess Cos R filter s).PPTint2Colour1 = s.PPTint2Colour1 ∧
    (SelectPostProcess Cos R filter s).PPTint2Colour2 = s.PPTint2Colour2 := by
  cases filter <;>
    simp [SelectPostProcess, caseTint, caseTint2, caseGreyNoise, caseBurn, caseDistort,
      caseSpiral, caseHeatHaze, caseWater, caseRetro, caseGaussianBlur, caseGameboy, caseBloom,
      bloomSettings, bloomSelectionPass, bloomBlurHoriPass, bloomBlurVertPass, ApplyAndDraw,
      SetFullScreenPostProcessArea]

theorem stageBody_animated (Cos : α → α) (R : α × α) (listCount i : Nat)
    (filter : PostProcesses) (s : Globals α) :
    (stageBody Cos R listCount i filter s).BurnLevel = s.BurnLevel ∧
    (stageBody Cos R listCount i filter s).SpiralTimer = s.SpiralTimer ∧
    (stageBody Cos R listCount i filter s).HeatHazeTimer = s.HeatHazeTimer ∧
    (stageBody Cos R listCount i filter s).WiggleTimer = s.WiggleTimer ∧
    (stageBody Cos R listCount i filter s).PPTint2Colour1 = s.PPTint2Colour1 ∧
    (stageBody Cos R listCount i filter s).PPTint2Colour2 = s.PPTint2Colour2 := by
  obtain ⟨h1, h2, h3, h4, h5, h6⟩ := SelectPostProcess_animated Cos R filter s
  unfold stageBody selectBuffers
  simp only [ApplyAndDraw, SetFullScreenPostProcessArea]
  split_ifs <;> exact ⟨h1, h2, h3, h4, h5, h6⟩

theorem FullScreenLoop_animated (Cos : α → α) (R : Nat → α × α) (n k : Nat) (s : Globals α) :
    (FullScreenLoop Cos R n k s).BurnLevel = s.BurnLevel ∧
    (FullScreenLoop Cos R n k s).SpiralTimer = s.SpiralTimer ∧
    (FullScreenLoop Cos R n k s).HeatHazeTimer = s.HeatHazeTimer ∧
    (FullScreenLoop Cos R n k s).WiggleTimer = s.WiggleTimer ∧
    (FullScreenLoop Cos R n k s).PPTint2Colour1 = s.PPTint2Colour1 ∧
    (FullScreenLoop Cos R n k s).PPTint2Colour2 = s.PPTint2Colour2 := by
  induction k with
  | zero => exact ⟨rfl, rfl, rfl, rfl, rfl, rfl⟩
  | succ k ih =>
    obtain ⟨h1, h2, h3, h4, h5, h6⟩ := ih
    simp only [FullScreenLoop]
    split
    · next filter _ =>
      obtain ⟨g1, g2, g3, g4, g5, g6⟩ :=
        stageBody_animated Cos (R k) n k filter (FullScreenLoop Cos R n k s)
      exact ⟨g1.trans h1, g2.trans h2, g3.trans h3, g4.trans h4, g5.trans h5, g6.trans h6⟩
    · exact ⟨h1, h2, h3, h4, h5, h6⟩

end FrameProperty

/-- C21, as the code has it: for every filter tag `SelectPostProcess`, and for
every chain `FullScreenPostProcess`, leave `BurnLevel`, `SpiralTimer`,
`HeatHazeTimer`, `WiggleTimer`, `PPTint2Colour1` and `PPTint2Colour2` as they
are. `UpdatePostProcesses` assigns the four timers from the update time and,
with `PPTint2Rotate` set, rotates the two colours. The two colour pickers of
the panel "PPTint2" write the colour they edit and nothing else of this state;
`SetPostProcessArea`, the chain editor, the "Default" buttons and the two
strength sliders write none of it. -/
theorem C21_sequencer_keeps_animated_state {α : Type} [LinearOrderedField α] [FloorRing α]
    (Cos : α → α) (R : α × α) (RandomUVs : Nat → α × α) (filter : PostProcesses)
    (Mod : α → α → α) (updateTime : α) (col : α × α × α) (camera : CCamera α)
    (areaCentre : CVector3 α) (width height depthOffset value : α) (name : String) (i : Nat)
    (s : Globals α) :
    ((SelectPostProcess Cos R filter s).BurnLevel = s.BurnLevel ∧
      (SelectPostProcess Cos R filter s).SpiralTimer = s.SpiralTimer ∧
      (SelectPostProcess Cos R filter s).HeatHazeTimer = s.HeatHazeTimer ∧
      (SelectPostProcess Cos R filter s).WiggleTimer = s.WiggleTimer ∧
      (SelectPostProcess Cos R filter s).PPTint2Colour1 = s.PPTint2Colour1 ∧
      (SelectPostProcess Cos R filter s).PPTint2Colour2 = s.PPTint2Colour2) ∧
    ((FullScreenPostProcess Cos RandomUVs s).BurnLevel = s.BurnLevel ∧
      (FullScreenPostProcess Cos RandomUVs s).SpiralTimer = s.SpiralTimer ∧
      (FullScreenPostProcess Cos RandomUVs s).HeatHazeTimer = s.HeatHazeTimer ∧
      (FullScreenPostProcess Cos RandomUVs s).WiggleTimer = s.WiggleTimer ∧
      (FullScreenPostProcess Cos RandomUVs s).PPTint2Colour1 = s.PPTint2Colour1 ∧
      (FullScreenPostProcess Cos RandomUVs s).PPTint2Colour2 = s.PPTint2Colour2) ∧
    ((UpdatePostProcesses Mod updateTime s).BurnLevel =
        Mod (s.BurnLevel + BurnSpeed * updateTime) 1 ∧
      (UpdatePostProcesses Mod updateTime s).SpiralTimer =
        s.SpiralTimer + SpiralSpeed * updateTime ∧
      (UpdatePostProcesses Mod updateTime s).HeatHazeTimer =
        s.HeatHazeTimer + HeatHazeSpeed * updateTime ∧
      (UpdatePostProcesses Mod updateTime s).WiggleTimer =
        s.WiggleTimer + WiggleSpeed * updateTime ∧
      (UpdatePostProcesses Mod updateTime s).PPTint2Colour1 =
        (if s.PPTint2Rotate then
          s.PPTint2Colour1.bind (rotateTint (TintHueRotateSpeed * updateTime))
        else s.PPTint2Colour1) ∧
      (UpdatePostProcesses Mod updateTime s).PPTint2Colour2 =
        (if s.PPTint2Rotate then
          s.PPTint2Colour2.bind (rotateTint (TintHueRotateSpeed * updateTime))
        else s.PPTint2Colour2)) ∧
    (animatedState (ColorEdit3PPTint2Color1 col s) =
        (s.BurnLevel, s.SpiralTimer, s.HeatHazeTimer, s.WiggleTimer,
          s.PPTint2Colour1.map (fun c => ⟨col.1, col.2.1, col.2.2, c.w⟩), s.PPTint2Colour2) ∧
      animatedState (ColorEdit3PPTint2Color2 col s) =
        (s.BurnLevel, s.SpiralTimer, s.HeatHazeTimer, s.WiggleTimer,
          s.PPTint2Colour1, s.PPTint2Colour2.map (fun c => ⟨col.1, col.2.1, col.2.2, c.w⟩))) ∧
    (animatedState (SetPostProcessArea camera areaCentre width height depthOffset s) =
        animatedState s ∧
      animatedState (Add name s) = animatedState s ∧
      animatedState (SelectRow i s) = animatedState s ∧
      (∀ s', Remove s = some s' → animatedState s' = animatedState s) ∧
      (∀ s', MoveUp s = some s' → animatedState s' = animatedState s) ∧
      (∀ s', MoveDown s = some s' → animatedState s' = animatedState s) ∧
      animatedState (DefaultPPTint s) = animatedState s ∧
      animatedState (DefaultPPTint2 s) = animatedState s ∧
      animatedState (DefaultPPGrayNoise s) = animatedState s ∧
      animatedState (DefaultPPDistort s) = animatedState s ∧
      animatedState (DefaultPPWater s) = animatedState s ∧
      animatedState (DefaultPPRetro s) = animatedState s ∧
      animatedState (DefaultPPGaussianBlur s) = animatedState s ∧
      animatedState (DefaultPPBloom s) = animatedState s ∧
      animatedState (DefaultPPGameboy s) = animatedState s ∧
      animatedState (BlurStrengthSlider value s) = animatedState s ∧
      animatedState (BloomStrengthSlider value s) = animatedState s) := by
  refine ⟨SelectPostProcess_animated Cos R filter s,
    FullScreenLoop_animated Cos RandomUVs _ _ s, ?_, ?_, ?_⟩
  · unfold UpdatePostProcesses
    simp only
    split_ifs <;> exact ⟨rfl, rfl, rfl, rfl, rfl, rfl⟩
  · exact ⟨rfl, rfl⟩
  · refine ⟨rfl, ?_, ?_, ?_, ?_, ?_, rfl, rfl, rfl, rfl, rfl, rfl, rfl, rfl, rfl, rfl, rfl⟩
    · unfold Add
      simp only
      split <;> rfl
    · unfold SelectRow
      split <;> rfl
    · intro s' h
      unfold Remove at h
      simp only at h
      split_ifs at h
      · split at h
        · cases h
          rfl
        · cases h
      · cases h
        rfl
    · intro s' h
      unfold MoveUp at h
      simp only at h
      split_ifs at h
      · split at h
        · cases h
          rfl
        · cases h
      · cases h
        rfl
    · intro s' h
      unfold MoveDown at h
      simp only at h
      split_ifs at h
      · split at h
        · cases h
          rfl
        · cases h
      · cases h
        rfl

/-- C21, counterexample: in the initial state the colour picker
"PPTint2Color1", set to red, turns `PPTint2Colour1` from `(0, 0, 1, 1)` into
`(1, 0, 0, 1)`: a write of the animated state outside `UpdatePostProcesses`. -/
theorem C21_colour_picker_counterexample :
    (startup : Globals ℚ).PPTint2Colour1 = some ⟨0, 0, 1, 1⟩ ∧
    (ColorEdit3PPTint2Color1 (1, 0, 0) (startup : Globals ℚ)).PPTint2Colour1 =
      some ⟨1, 0, 0, 1⟩ ∧
    (ColorEdit3PPTint2Color1 (1, 0, 0) (startup : Globals ℚ)).PPTint2Colour1 ≠
      (startup : Globals ℚ).PPTint2Colour1 := by
  refine ⟨rfl, rfl, ?_⟩
  simp [ColorEdit3PPTint2Color1, startup]

/-- C22: `SelectPostProcess` binds the current value of the setting for Tint,
Tint2, GreyNoise, Distort, Water, Retro and Gameboy. For GaussianBlurHori and
GaussianBlurVert it binds the constant 5 whatever `GaussianBlurSigma` is (40
at startup), and for Bloom it binds `BloomStrenght`, which the "Bloom Strength
Slider" does not write: with the slider at 10 Bloom still binds 40. -/
theorem C22_blur_sigma_is_a_constant {α : Type} [LinearOrderedField α] (Cos : α → α)
    (R : α × α) (value : α) (s : Globals α) :
    ((SelectPostProcess Cos R .Tint s).TintColourVar = some (rgb12 s.PPTintColour) ∧
      (SelectPostProcess Cos R .Tint2 s).TintColourVar = s.PPTint2Colour1.map rgb12 ∧
      (SelectPostProcess Cos R .Tint2 s).TintColour2Var = s.PPTint2Colour2.map rgb12 ∧
      (SelectPostProcess Cos R .GreyNoise s).NoiseScaleVar =
        (if s.GrainSize = 0 then none else
          some ((s.BackBufferWidth : α) / s.GrainSize, (s.BackBufferHeight : α) / s.GrainSize)) ∧
      (SelectPostProcess Cos R .Distort s).DistortLevelVar = some s.DistortLevel ∧
      (SelectPostProcess Cos R .Water s).TintColourVar = some (rgb12 s.PPWaterColour) ∧
      (SelectPostProcess Cos R .Retro s).PixelationVar = some s.Pixelation ∧
      (SelectPostProcess Cos R .Retro s).ColourPalletVar = some s.ColourDepth ∧
      (SelectPostProcess Cos R .Gameboy s).GameboyPixelsVar = some s.GameboyPixels ∧
      (SelectPostProcess Cos R .Gameboy s).GameboyColourDepthVar = some s.GameboyColourDepth ∧
      (SelectPostProcess Cos R .Gameboy s).GameboyColourVar = some (rgb12 s.GameboyColour)) ∧
    ((SelectPostProcess Cos R .GaussianBlurHori s).GaussianBlurSigmaVar = some 5 ∧
      (SelectPostProcess Cos R .GaussianBlurVert s).GaussianBlurSigmaVar = some 5 ∧
      (SelectPostProcess Cos R .GaussianBlurHori
        (BlurStrengthSlider value s)).GaussianBlurSigmaVar = some 5 ∧
      (BloomStrengthSlider value s).GaussianBlurSigma = value ∧
      (SelectPostProcess Cos R .Bloom (BloomStrengthSlider value s)).GaussianBlurSigmaVar =
        some s.BloomStrenght) ∧
    ((startup : Globals ℚ).GaussianBlurSigma = 40 ∧
      (SelectPostProcess (fun x => x) (0, 0) .GaussianBlurHori
        (startup : Globals ℚ)).GaussianBlurSigmaVar = some 5 ∧
      (5 : ℚ) ≠ 40 ∧
      (BloomStrengthSlider 10 (startup : Globals ℚ)).GaussianBlurSigma = 10 ∧
      (SelectPostProcess (fun x => x) (0, 0) .Bloom
        (BloomStrengthSlider 10 (startup : Globals ℚ))).GaussianBlurSigmaVar = some 40 ∧
      (40 : ℚ) ≠ 10) := by
  refine ⟨?_, ?_, ?_⟩
  · refine ⟨?_, ?_, ?_, ?_, ?_, ?_, ?_, ?_, ?_, ?_, ?_⟩ <;>
      first
      | (simp [SelectPostProcess, caseTint, caseTint2, caseDistort, caseWater, caseRetro,
          caseGaussianBlur, caseGameboy]
         done)
      | (by_cases h : s.GrainSize = 0 <;> simp [SelectPostProcess, caseGreyNoise, checkedDiv, h])
  · refine ⟨?_, ?_, ?_, ?_, ?_⟩ <;>
      simp [SelectPostProcess, caseGaussianBlur, BlurStrengthSlider, BloomStrengthSlider,
        caseBloom, caseGameboy, bloomSettings, bloomSelectionPass, bloomBlurHoriPass,
        bloomBlurVertPass, ApplyAndDraw, SetFullScreenPostProcessArea]
  · refine ⟨rfl, ?_, by norm_num, ?_, ?_, by norm_num⟩ <;>
      simp [SelectPostProcess, caseGaussianBlur, BloomStrengthSlider,
        caseBloom, caseGameboy, bloomSettings, bloomSelectionPass, bloomBlurHoriPass,
        bloomBlurVertPass, ApplyAndDraw, SetFullScreenPostProcessArea, startup]

/-- C23: "Add" with the technique name of a tag `t` appends `t` to
`CurrentPostProcessList` and the name to `CurrentPostProcessListString`, after
the entries already there; the technique names are pairwise distinct and the
search of "Add" finds for the name of `t` the tag `t`. -/
theorem C23_add_appends_tag_and_name {α : Type} (t : PostProcesses) (s : Globals α) :
    (Add (PPTechniqueNames t) s).CurrentPostProcessList = s.CurrentPostProcessList ++ [t] ∧
    (Add (PPTechniqueNames t) s).CurrentPostProcessListString =
      s.CurrentPostProcessListString ++ [PPTechniqueNames t] ∧
    (∀ u v : PostProcesses, PPTechniqueNames u = PPTechniqueNames v → u = v) ∧
    findTechnique (PPTechniqueNames t) = some t := by
  refine ⟨?_, ?_, ?_, findTechnique_name t⟩
  · simp [Add, findTechnique_name]
  · simp [Add, findTechnique_name]
  · intro u v h
    have hu := findTechnique_name u
    rw [h, findTechnique_name v] at hu
    exact (Option.some.inj hu).symm

/-- C25: `SelectPostProcess(Retro)` binds `Pixelation`, `ColourPallet` and,
through the blur case it runs into, the Gaussian blur sigma 5;
`SelectPostProcess(Bloom)` binds its own seven parameters and the bloom map
and, through the Gameboy case it runs into, the three Gameboy parameters. -/
theorem C25_retro_and_bloom_fall_through {α : Type} [LinearOrderedField α] (Cos : α → α)
    (R : α × α) (s : Globals α) :
    ((SelectPostProcess Cos R .Retro s).PixelationVar = some s.Pixelation ∧
      (SelectPostProcess Cos R .Retro s).ColourPalletVar = some s.ColourDepth ∧
      (SelectPostProcess Cos R .Retro s).GaussianBlurSigmaVar = some 5 ∧
      SelectPostProcess Cos R .Retro s = caseGaussianBlur
        { s with PixelationVar := some s.Pixelation, ColourPalletVar := some s.ColourDepth }) ∧
    ((SelectPostProcess Cos R .Bloom s).GaussianBlurSigmaVar = some s.BloomStrenght ∧
      (SelectPostProcess Cos R .Bloom s).BloomThresholdVar = some s.BloomThreshold ∧
      (SelectPostProcess Cos R .Bloom s).BloomPixelationVar = some s.BloomPixelation ∧
      (SelectPostProcess Cos R .Bloom s).BloomIntensityVar = some s.BloomIntensity ∧
      (SelectPostProcess Cos R .Bloom s).BloomOriginalIntensityVar =
        some s.BloomOriginalIntensity ∧
      (SelectPostProcess Cos R .Bloom s).BloomSaturationVar = some s.BloomSaturation ∧
      (SelectPostProcess Cos R .Bloom s).BloomOriginalSaturationVar =
        some s.BloomOriginalSaturation ∧
      (SelectPostProcess Cos R .Bloom s).PostProcessMapVar = some .BloomShaderResource ∧
      (SelectPostProcess Cos R .Bloom s).GameboyPixelsVar = some s.GameboyPixels ∧
      (SelectPostProcess Cos R .Bloom s).GameboyColourDepthVar = some s.GameboyColourDepth ∧
      (SelectPostProcess Cos R .Bloom s).GameboyColourVar = some (rgb12 s.GameboyColour)) := by
  constructor
  · refine ⟨?_, ?_, ?_, rfl⟩ <;> simp [SelectPostProcess, caseRetro, caseGaussianBlur]
  · refine ⟨?_, ?_, ?_, ?_, ?_, ?_, ?_, ?_, ?_, ?_, ?_⟩ <;>
      simp [SelectPostProcess, caseBloom, caseGameboy, bloomSettings, bloomSelectionPass,
        bloomBlurHoriPass, bloomBlurVertPass, ApplyAndDraw, SetFullScreenPostProcessArea]

end PostProcessPoly

namespace PostProcessPoly

open HSL

/-- C26: the "Default" buttons of the panels PPTint, PPGrayNoise, PPDistort,
PPWater, PPBloom and PPGameboy assign the startup values. The button of
PPTint2 leaves `PPTint2Colour1/2` as they are and sets `PPTintColour` to
`(1, 1, 0, 1)`; the button of PPRetro leaves `Pixelation` as it is and sets
`DistortLevel` to 120; the button of PPGaussianBlur sets `GaussianBlurSigma`
to 5 where the startup value is 40. -/
theorem C26_default_buttons {α : Type} [LinearOrderedField α] (s : Globals α) :
    ((DefaultPPTint s).PPTintColour = (startup : Globals α).PPTintColour ∧
      (DefaultPPGrayNoise s).GrainSize = (startup : Globals α).GrainSize ∧
      (DefaultPPDistort s).DistortLevel = (startup : Globals α).DistortLevel ∧
      (DefaultPPWater s).PPWaterColour = (startup : Globals α).PPWaterColour ∧
      (DefaultPPBloom s).GaussianBlurSigma = (startup : Globals α).GaussianBlurSigma ∧
      (DefaultPPBloom s).BloomThreshold = (startup : Globals α).BloomThreshold ∧
      (DefaultPPBloom s).BloomPixelation = (startup : Globals α).BloomPixelation ∧
      (DefaultPPBloom s).BloomIntensity = (startup : Globals α).BloomIntensity ∧
      (DefaultPPBloom s).BloomOriginalIntensity =
        (startup : Globals α).BloomOriginalIntensity ∧
      (DefaultPPBloom s).BloomSaturation = (startup : Globals α).BloomSaturation ∧
      (DefaultPPBloom s).BloomOriginalSaturation =
        (startup : Globals α).BloomOriginalSaturation ∧
      (DefaultPPGameboy s).GameboyPixels = (startup : Globals α).GameboyPixels ∧
      (DefaultPPGameboy s).GameboyColourDepth = (startup : Globals α).GameboyColourDepth ∧
      (DefaultPPGameboy s).GameboyColour = (startup : Globals α).GameboyColour ∧
      (DefaultPPRetro s).ColourDepth = (startup : Globals α).ColourDepth) ∧
    ((DefaultPPTint2 s).PPTint2Colour1 = s.PPTint2Colour1 ∧
      (DefaultPPTint2 s).PPTint2Colour2 = s.PPTint2Colour2 ∧
      (DefaultPPTint2 s).PPTintColour = ⟨1, 1, 0, 1⟩ ∧
      (DefaultPPRetro s).Pixelation = s.Pixelation ∧
      (DefaultPPRetro s).DistortLevel = 120 ∧
      (DefaultPPGaussianBlur s).GaussianBlurSigma = 5) ∧
    ((DefaultPPTint2 exampleEdited).PPTint2Colour1 = some ⟨1 / 6, 0, 1, 1⟩ ∧
      (startup : Globals ℚ).PPTint2Colour1 = some ⟨0, 0, 1, 1⟩ ∧
      (DefaultPPTint2 exampleEdited).PPTint2Colour2 = some ⟨5 / 6, 1, 0, 1⟩ ∧
      (startup : Globals ℚ).PPTint2Colour2 = some ⟨1, 1, 0, 1⟩ ∧
      (DefaultPPRetro exampleEdited).Pixelation = 64 ∧
      (startup : Globals ℚ).Pixelation = 128 ∧
      (DefaultPPGaussianBlur exampleEdited).GaussianBlurSigma = 5 ∧
      (startup : Globals ℚ).GaussianBlurSigma = 40) := by
  refine ⟨?_, ?_, ?_⟩
  · simp [DefaultPPTint, DefaultPPGrayNoise, DefaultPPDistort, DefaultPPWater, DefaultPPBloom,
      DefaultPPGameboy, DefaultPPRetro, startup]
  · simp [DefaultPPTint2, DefaultPPRetro, DefaultPPGaussianBlur]
  · simp [DefaultPPTint2, DefaultPPRetro, DefaultPPGaussianBlur, exampleEdited, startup]

section ParallelFacts

variable {α : Type}

theorem eraseIdx_map {β γ : Type} (f : β → γ) (l : List β) (i : Nat) :
    (l.map f).eraseIdx i = (l.eraseIdx i).map f := by
  induction l generalizing i with
  | nil => simp
  | cons a l ih =>
    cases i with
    | zero => simp
    | succ i => simp [ih]

theorem names_eq_map (s : Globals α)
    (hnames : ∀ i : Nat, s.CurrentPostProcessListString[i]? =
      (s.CurrentPostProcessList[i]?).map PPTechniqueNames) :
    s.CurrentPostProcessListString = s.CurrentPostProcessList.map PPTechniqueNames := by
  apply List.ext_getElem?
  intro i
  rw [hnames i, List.getElem?_map]

theorem parallel_of_map (s : Globals α)
    (h : s.CurrentPostProcessListString = s.CurrentPostProcessList.map PPTechniqueNames) :
    s.CurrentPostProcessListString.length = s.CurrentPostProcessList.length ∧
      ∀ i : Nat, s.CurrentPostProcessListString[i]? =
        (s.CurrentPostProcessList[i]?).map PPTechniqueNames := by
  constructor
  · rw [h, List.length_map]
  · intro i
    rw [h, List.getElem?_map]

theorem swapAt_map {β γ : Type} (f : β → γ) (l : List β) (i j : Nat) (hi : i < l.length)
    (hj : j < l.length) :
    ∃ l', swapAt l i j = some l' ∧ swapAt (l.map f) i j = some (l'.map f) := by
  refine ⟨(l.set i l[j]).set j l[i], ?_, ?_⟩
  · simp [swapAt, List.getElem?_eq_getElem hi, List.getElem?_eq_getElem hj]
  · simp [swapAt, List.getElem?_eq_getElem hi, List.getElem?_eq_getElem hj]

end ParallelFacts

/-- C27: in a state whose two vectors have the same length, with each name the
technique name of the tag at the same index, and whose selected index lies
inside the chain, "Add" of a registered name, "Remove", "Move Up" and "Move
Down" each end in a state (none reaches outside a vector) whose two vectors
again have the same length and correspond entry by entry. -/
theorem C27_edits_keep_vectors_parallel {α : Type} (t : PostProcesses) (s : Globals α)
    (hlen : s.CurrentPostProcessListString.length = s.CurrentPostProcessList.length)
    (hnames : ∀ i : Nat, s.CurrentPostProcessListString[i]? =
      (s.CurrentPostProcessList[i]?).map PPTechniqueNames)
    (hidx : s.listBoxIndex < s.CurrentPostProcessList.length) :
    ((Add (PPTechniqueNames t) s).CurrentPostProcessListString.length =
        (Add (PPTechniqueNames t) s).CurrentPostProcessList.length ∧
      ∀ i : Nat, (Add (PPTechniqueNames t) s).CurrentPostProcessListString[i]? =
        ((Add (PPTechniqueNames t) s).CurrentPostProcessList[i]?).map PPTechniqueNames) ∧
    (∃ s', Remove s = some s' ∧
      s'.CurrentPostProcessListString.length = s'.CurrentPostProcessList.length ∧
      ∀ i : Nat, s'.CurrentPostProcessListString[i]? =
        (s'.CurrentPostProcessList[i]?).map PPTechniqueNames) ∧
    (∃ s', MoveUp s = some s' ∧
      s'.CurrentPostProcessListString.length = s'.CurrentPostProcessList.length ∧
      ∀ i : Nat, s'.CurrentPostProcessListString[i]? =
        (s'.CurrentPostProcessList[i]?).map PPTechniqueNames) ∧
    (∃ s', MoveDown s = some s' ∧
      s'.CurrentPostProcessListString.length = s'.CurrentPostProcessList.length ∧
      ∀ i : Nat, s'.CurrentPostProcessListString[i]? =
        (s'.CurrentPostProcessList[i]?).map PPTechniqueNames) := by
  have hmap := names_eq_map s hnames
  refine ⟨?_, ?_, ?_, ?_⟩
  · apply parallel_of_map
    simp [Add, findTechnique_name, hmap]
  · by_cases hc : s.CurrentPostProcessListString.length > 1
    · refine ⟨{ s with
        CurrentPostProcessList := s.CurrentPostProcessList.eraseIdx s.listBoxIndex
        CurrentPostProcessListString :=
          s.CurrentPostProcessListString.eraseIdx s.listBoxIndex }, ?_, ?_⟩
      · have hc' : s.CurrentPostProcessList.length > 1 := by omega
        simp [Remove, eraseAt, hlen, hidx, hc']
      · apply parallel_of_map
        simp only [hmap, eraseIdx_map]
    · refine ⟨s, ?_, hlen, hnames⟩
      simp [Remove, hc]
  · by_cases hc : s.CurrentPostProcessListString.length > 1 ∧ s.listBoxIndex > 0
    · obtain ⟨l', h1, h2⟩ := swapAt_map PPTechniqueNames s.CurrentPostProcessList
        s.listBoxIndex (s.listBoxIndex - 1) hidx (by omega)
      refine ⟨{ s with
        CurrentPostProcessList := l'
        CurrentPostProcessListString := l'.map PPTechniqueNames
        listBoxIndex := s.listBoxIndex - 1 }, ?_, ?_⟩
      · rw [← hmap] at h2
        simp [MoveUp, hc, h1, h2]
      · exact parallel_of_map _ rfl
    · refine ⟨s, ?_, hlen, hnames⟩
      simp only [MoveUp, hc, if_false]
  · by_cases hc : s.CurrentPostProcessListString.length > 1 ∧
        s.listBoxIndex < sizeMinusOne s.CurrentPostProcessList.length
    · have hlt : s.listBoxIndex + 1 < s.CurrentPostProcessList.length := by
        have := hc.2
        unfold sizeMinusOne at this
        omega
      obtain ⟨l', h1, h2⟩ := swapAt_map PPTechniqueNames s.CurrentPostProcessList
        s.listBoxIndex (s.listBoxIndex + 1) hidx hlt
      refine ⟨{ s with
        CurrentPostProcessList := l'
        CurrentPostProcessListString := l'.map PPTechniqueNames
        listBoxIndex := s.listBoxIndex + 1 }, ?_, ?_⟩
      · rw [← hmap] at h2
        simp [MoveDown, hc, h1, h2]
      · exact parallel_of_map _ rfl
    · refine ⟨s, ?_, hlen, hnames⟩
      simp only [MoveDown, hc, if_false]

/-- Witness of C27: the chain `[Tint, Invert]` with its names, row 1 selected,
and "Add" of Burn. -/
theorem C27_edits_keep_vectors_parallel_witness :
    exampleTintInvert.CurrentPostProcessListString.length =
      exampleTintInvert.CurrentPostProcessList.length ∧
    (∀ i : Nat, exampleTintInvert.CurrentPostProcessListString[i]? =
      (exampleTintInvert.CurrentPostProcessList[i]?).map PPTechniqueNames) ∧
    exampleTintInvert.listBoxIndex < exampleTintInvert.CurrentPostProcessList.length ∧
    (((Add (PPTechniqueNames .Burn) exampleTintInvert).CurrentPostProcessListString.length =
        (Add (PPTechniqueNames .Burn) exampleTintInvert).CurrentPostProcessList.length ∧
      ∀ i : Nat, (Add (PPTechniqueNames .Burn) exampleTintInvert).CurrentPostProcessListString[i]? =
        ((Add (PPTechniqueNames .Burn) exampleTintInvert).CurrentPostProcessList[i]?).map
          PPTechniqueNames) ∧
    (∃ s', Remove exampleTintInvert = some s' ∧
      s'.CurrentPostProcessListString.length = s'.CurrentPostProcessList.length ∧
      ∀ i : Nat, s'.CurrentPostProcessListString[i]? =
        (s'.CurrentPostProcessList[i]?).map PPTechniqueNames) ∧
    (∃ s', MoveUp exampleTintInvert = some s' ∧
      s'.CurrentPostProcessListString.length = s'.CurrentPostProcessList.length ∧
      ∀ i : Nat, s'.CurrentPostProcessListString[i]? =
        (s'.CurrentPostProcessList[i]?).map PPTechniqueNames) ∧
    (∃ s', MoveDown exampleTintInvert = some s' ∧
      s'.CurrentPostProcessListString.length = s'.CurrentPostProcessList.length ∧
      ∀ i : Nat, s'.CurrentPostProcessListString[i]? =
        (s'.CurrentPostProcessList[i]?).map PPTechniqueNames)) :=
  have hnames : ∀ i : Nat, exampleTintInvert.CurrentPostProcessListString[i]? =
      (exampleTintInvert.CurrentPostProcessList[i]?).map PPTechniqueNames := by
    intro i
    have h : exampleTintInvert.CurrentPostProcessListString =
        exampleTintInvert.CurrentPostProcessList.map PPTechniqueNames := by
      simp [exampleTintInvert, PPTechniqueNames]
    rw [h, List.getElem?_map]
  ⟨rfl, hnames, by decide,
    C27_edits_keep_vectors_parallel .Burn exampleTintInvert rfl hnames (by decide)⟩

end PostProcessPoly

namespace PostProcess

section RenderFacts

variable {α : Type} [LinearOrderedField α]

theorem prepareSettings_frame (Cos : α → α) (Mod : α → α → α) (R : α × α) (updateTime : α)
    (filter : PostProcesses) (s : Globals α) :
    (prepareSettings Cos Mod R updateTime filter s).firstSceneRenderer = s.firstSceneRenderer ∧
    (prepareSettings Cos Mod R updateTime filter s).events = s.events ∧
    (prepareSettings Cos Mod R updateTime filter s).CurrentPostProcessList =
      s.CurrentPostProcessList := by
  cases filter <;> simp [prepareSettings]

omit [LinearOrderedField α] in
theorem renderStage_frame (filter : PostProcesses) (s : Globals α) :
    (renderStage filter s).firstSceneRenderer = !s.firstSceneRenderer ∧
    (renderStage filter s).events = s.events ++
      [FrameEvent.Draw ⟨filter,
        some (if s.firstSceneRenderer then .SceneRenderTarget2 else .SceneRenderTarget),
        some (if s.firstSceneRenderer then .SceneShaderResource else .SceneShaderResource2),
        s.PostProcessMapVar⟩] ∧
    (renderStage filter s).CurrentPostProcessList = s.CurrentPostProcessList := by
  unfold renderStage
  cases h : s.firstSceneRenderer <;> simp [h]

theorem RenderLoop_list (Cos : α → α) (Mod : α → α → α) (R : Nat → α × α) (updateTime : α)
    (k : Nat) (s : Globals α) :
    (RenderLoop Cos Mod R updateTime k s).CurrentPostProcessList = s.CurrentPostProcessList := by
  induction k with
  | zero => rfl
  | succ k ih =>
    simp only [RenderLoop]
    split
    · rw [(renderStage_frame _ _).2.2, (prepareSettings_frame _ _ _ _ _ _).2.2, ih]
    · exact ih

/-- The loop of `RenderScene` entered with `firstSceneRenderer` set: after `k`
iterations the flag is set exactly for even `k`, and `k` draws were issued, the
one of iteration `i` with the technique of entry `i`, reading the first scene
texture and writing the second for even `i` and the other way round for odd
`i`. -/
theorem RenderLoop_stages (Cos : α → α) (Mod : α → α → α) (R : Nat → α × α) (updateTime : α)
    (s : Globals α) (hflag : s.firstSceneRenderer = true) (k : Nat)
    (hk : k ≤ s.CurrentPostProcessList.length) :
    ∃ stages : List Draw,
      (RenderLoop Cos Mod R updateTime k s).events = s.events ++ stages.map FrameEvent.Draw ∧
      (RenderLoop Cos Mod R updateTime k s).firstSceneRenderer = decide (k % 2 = 0) ∧
      stages.length = k ∧
      ∀ i : Nat, i < k → ∃ d, stages[i]? = some d ∧
        s.CurrentPostProcessList[i]? = some d.technique ∧
        d.SceneTexture = some (if i % 2 = 0 then .SceneShaderResource
          else .SceneShaderResource2) ∧
        d.renderTarget = some (if i % 2 = 0 then .SceneRenderTarget2
          else .SceneRenderTarget) := by
  induction k with
  | zero => exact ⟨[], by simp [RenderLoop, hflag]⟩
  | succ k ih =>
    obtain ⟨stages, hev, hfl, hlen, hall⟩ := ih (by omega)
    have hlt : k < s.CurrentPostProcessList.length := by omega
    have hget : s.CurrentPostProcessList[k]? = some (s.CurrentPostProcessList[k]) :=
      List.getElem?_eq_getElem hlt
    have hstep : RenderLoop Cos Mod R updateTime (k + 1) s =
        renderStage (s.CurrentPostProcessList[k])
          (prepareSettings Cos Mod (R k) updateTime (s.CurrentPostProcessList[k])
            (RenderLoop Cos Mod R updateTime k s)) := by
      simp only [RenderLoop, RenderLoop_list, hget]
    obtain ⟨p1, p2, -⟩ := prepareSettings_frame Cos Mod (R k) updateTime
      (s.CurrentPostProcessList[k]) (RenderLoop Cos Mod R updateTime k s)
    obtain ⟨r1, r2, -⟩ := renderStage_frame (s.CurrentPostProcessList[k])
      (prepareSettings Cos Mod (R k) updateTime (s.CurrentPostProcessList[k])
        (RenderLoop Cos Mod R updateTime k s))
    rw [p1, hfl] at r1
    rw [p1, p2, hfl, hev] at r2
    obtain ⟨dk, hdk⟩ : ∃ dk : Draw, dk = ⟨s.CurrentPostProcessList[k],
      some (if decide (k % 2 = 0) = true then .SceneRenderTarget2 else .SceneRenderTarget),
      some (if decide (k % 2 = 0) = true then .SceneShaderResource else .SceneShaderResource2),
      (prepareSettings Cos Mod (R k) updateTime (s.CurrentPostProcessList[k])
        (RenderLoop Cos Mod R updateTime k s)).PostProcessMapVar⟩ := ⟨_, rfl⟩
    rw [← hdk] at r2
    refine ⟨stages ++ [dk], ?_, ?_, ?_, ?_⟩
    · rw [hstep, r2]
      simp
    · rw [hstep, r1]
      rcases Nat.mod_two_eq_zero_or_one k with h | h
      · have h1 : (k + 1) % 2 = 1 := by omega
        simp [h, h1]
      · have h1 : (k + 1) % 2 = 0 := by omega
        simp [h, h1]
    · simp [hlen]
    · intro i hi
      by_cases hik : i < k
      · obtain ⟨d, hd, hrest⟩ := hall i hik
        refine ⟨d, ?_, hrest⟩
        rw [List.getElem?_append_left (by omega), hd]
      · have hik' : i = k := by omega
        subst hik'
        refine ⟨dk, ?_, ?_, ?_, ?_⟩
        · rw [List.getElem?_append_right (by omega)]
          simp [hlen]
        · rw [hget, hdk]
        · rw [hdk]
          simp
        · rw [hdk]
          simp

end RenderFacts

/-- C24: `RenderScene` of PostProcess.cpp issues the scene render into the first
scene texture, then one draw per chain entry, stage `i` with the technique of
entry `i`, reading the first scene texture (A) and writing the second (B) for
even `i` and reading B and writing A for odd `i`, then exactly one Copy draw to
the back buffer, then the interface, the text and the presentation. The Copy
reads A for a chain of even length, the empty one included, and B otherwise,
which is the texture the last stage wrote. -/
theorem C24_old_render_scene_routing {α : Type} [LinearOrderedField α] (Cos : α → α)
    (Mod : α → α → α) (RandomUVs : Nat → α × α) (updateTime : α) (s : Globals α) :
    ∃ (stages : List Draw) (finalMap : Option ShaderResourceView),
      (RenderScene Cos Mod RandomUVs updateTime s).events =
        s.events ++ [FrameEvent.RenderAllEntities (some .SceneRenderTarget)] ++
          stages.map FrameEvent.Draw ++
          [FrameEvent.Draw ⟨.Copy, some .BackBufferRenderTarget,
              some (if s.CurrentPostProcessList.length % 2 = 0 then .SceneShaderResource
                else .SceneShaderResource2), finalMap⟩,
            FrameEvent.RenderImGui, FrameEvent.RenderSceneText, FrameEvent.Present] ∧
      stages.length = s.CurrentPostProcessList.length ∧
      (∀ i : Nat, i < s.CurrentPostProcessList.length → ∃ d, stages[i]? = some d ∧
        s.CurrentPostProcessList[i]? = some d.technique ∧
        d.SceneTexture = some (if i % 2 = 0 then .SceneShaderResource
          else .SceneShaderResource2) ∧
        d.renderTarget = some (if i % 2 = 0 then .SceneRenderTarget2
          else .SceneRenderTarget)) ∧
      (∀ d, stages.getLast? = some d → ∃ rt, d.renderTarget = some rt ∧
        ShaderResourceView.texture (if s.CurrentPostProcessList.length % 2 = 0
          then .SceneShaderResource else .SceneShaderResource2) = rt.texture) ∧
      (s.CurrentPostProcessList = [] → stages = [] ∧
        ShaderResourceView.texture (if s.CurrentPostProcessList.length % 2 = 0
          then .SceneShaderResource else .SceneShaderResource2) =
          RenderTargetView.SceneRenderTarget.texture) := by
  obtain ⟨s0, hs0⟩ : ∃ s0 : Globals α, s0 = { s with
      renderTarget := some .SceneRenderTarget
      firstSceneRenderer := true
      events := s.events ++ [FrameEvent.RenderAllEntities (some .SceneRenderTarget)]
      BlurLevelVar := some (if s.motionBlurEnabled then s.motionBlurAmount else 1) } :=
    ⟨_, rfl⟩
  have hl0 : s0.CurrentPostProcessList = s.CurrentPostProcessList := by rw [hs0]
  have he0 : s0.events =
      s.events ++ [FrameEvent.RenderAllEntities (some .SceneRenderTarget)] := by rw [hs0]
  obtain ⟨stages, hev, hfl, hlen, hall⟩ := RenderLoop_stages Cos Mod RandomUVs updateTime
    s0 (by rw [hs0]) s.CurrentPostProcessList.length (by rw [hl0])
  rw [he0] at hev
  rw [hl0] at hall
  have hrun : RenderScene Cos Mod RandomUVs updateTime s =
      (let t := RenderLoop Cos Mod RandomUVs updateTime s.CurrentPostProcessList.length s0
       let t := { t with renderTarget := some .BackBufferRenderTarget }
       let t :=
         if t.firstSceneRenderer then
           { t with SceneTextureVar := some .SceneShaderResource, firstSceneRenderer := false }
         else
           { t with SceneTextureVar := some .SceneShaderResource2, firstSceneRenderer := true }
       let t := { t with
         events := t.events ++
           [FrameEvent.Draw ⟨.Copy, t.renderTarget, t.SceneTextureVar, t.PostProcessMapVar⟩] }
       let t := { t with SceneTexture2Var := none }
       { t with events := t.events ++
          [FrameEvent.RenderImGui, FrameEvent.RenderSceneText, FrameEvent.Present] }) := by
    rw [hs0]
    rfl
  refine ⟨stages, (RenderLoop Cos Mod RandomUVs updateTime s.CurrentPostProcessList.length
    s0).PostProcessMapVar, ?_, hlen, hall, ?_, ?_⟩
  · rw [hrun]
    by_cases hpar : s.CurrentPostProcessList.length % 2 = 0
    · simp only [hpar, decide_True] at hfl
      simp [hfl, hev, hpar]
    · simp only [hpar, decide_False] at hfl
      simp [hfl, hev, hpar]
  · intro d hd
    have hpos : 0 < stages.length := by
      cases stages with
      | nil => simp at hd
      | cons a l => simp
    rw [List.getLast?_eq_getElem?] at hd
    obtain ⟨d', hd', -, -, hrt⟩ := hall (stages.length - 1) (by omega)
    rw [hd] at hd'
    cases hd'
    refine ⟨_, hrt, ?_⟩
    rw [← hlen]
    have : (stages.length - 1) % 2 = 0 ↔ ¬ stages.length % 2 = 0 := by omega
    by_cases hpar : stages.length % 2 = 0
    · have h1 : ¬ (stages.length - 1) % 2 = 0 := by omega
      simp [hpar, h1, ShaderResourceView.texture, RenderTargetView.texture]
    · have h1 : (stages.length - 1) % 2 = 0 := by omega
      simp [hpar, h1, ShaderResourceView.texture, RenderTargetView.texture]
  · intro hnil
    refine ⟨?_, ?_⟩
    · apply List.eq_nil_of_length_eq_zero
      rw [hlen, hnil]
      rfl
    · simp [hnil, ShaderResourceView.texture, RenderTargetView.texture]

end PostProcess

namespace PostProcess

/-- C24 at the startup chain (Copy, Invert) and at the empty chain: the events
of one frame, evaluated. -/
theorem C24_old_render_scene_routing_witness :
    (∃ (stages : List Draw) (finalMap : Option ShaderResourceView),
      (RenderScene (fun x : ℚ => x) (fun a _ => a) (fun _ => (0, 0)) 0 startup).events =
        [FrameEvent.RenderAllEntities (some .SceneRenderTarget)] ++
          stages.map FrameEvent.Draw ++
          [FrameEvent.Draw ⟨.Copy, some .BackBufferRenderTarget,
              some .SceneShaderResource, finalMap⟩,
            FrameEvent.RenderImGui, FrameEvent.RenderSceneText, FrameEvent.Present] ∧
      stages.length = 2) ∧
    (RenderScene (fun x : ℚ => x) (fun a _ => a) (fun _ => (0, 0)) 0 startup).events =
      [FrameEvent.RenderAllEntities (some .SceneRenderTarget),
        FrameEvent.Draw ⟨.Copy, some .SceneRenderTarget2, some .SceneShaderResource, none⟩,
        FrameEvent.Draw ⟨.Invert, some .SceneRenderTarget, some .SceneShaderResource2, none⟩,
        FrameEvent.Draw ⟨.Copy, some .BackBufferRenderTarget, some .SceneShaderResource, none⟩,
        FrameEvent.RenderImGui, FrameEvent.RenderSceneText, FrameEvent.Present] ∧
    (RenderScene (fun x : ℚ => x) (fun a _ => a) (fun _ => (0, 0)) 0
        { (startup : Globals ℚ) with CurrentPostProcessList := [] }).events =
      [FrameEvent.RenderAllEntities (some .SceneRenderTarget),
        FrameEvent.Draw ⟨.Copy, some .BackBufferRenderTarget, some .SceneShaderResource, none⟩,
        FrameEvent.RenderImGui, FrameEvent.RenderSceneText, FrameEvent.Present] := by
  refine ⟨?_, ?_, ?_⟩
  · obtain ⟨stages, finalMap, h1, h2, -⟩ := C24_old_render_scene_routing
      (fun x : ℚ => x) (fun a _ => a) (fun _ => (0, 0)) 0 startup
    exact ⟨stages, finalMap, by simpa [startup] using h1, by simpa [startup] using h2⟩
  · simp [RenderScene, RenderLoop, renderStage, prepareSettings, startup]
  · simp [RenderScene, RenderLoop, renderStage, prepareSettings, startup]

end PostProcess

namespace PostProcessPoly

open HSL

section RangeFacts

variable {α : Type} [LinearOrderedField α]

theorem rgb_bounds (r g b : α) :
    (min r (min g b) ≤ r ∧ r ≤ max r (max g b)) ∧
    (min r (min g b) ≤ g ∧ g ≤ max r (max g b)) ∧
    (min r (min g b) ≤ b ∧ b ≤ max r (max g b)) := by
  refine ⟨⟨min_le_left r _, le_max_left r _⟩, ⟨?_, ?_⟩, ⟨?_, ?_⟩⟩
  · exact min_le_of_right_le (min_le_left g b)
  · exact le_max_of_le_right (le_max_left g b)
  · exact min_le_of_right_le (min_le_right g b)
  · exact le_max_of_le_right (le_max_right g b)

theorem grey_iff (r g b : α) : max r (max g b) = min r (min g b) ↔ (r = g ∧ g = b) := by
  constructor
  · intro h
    obtain ⟨⟨h1, h2⟩, ⟨h3, h4⟩, ⟨h5, h6⟩⟩ := rgb_bounds r g b
    rw [h] at h2 h4 h6
    constructor
    · linarith [le_antisymm h1 h2, le_antisymm h3 h4]
    · linarith [le_antisymm h3 h4, le_antisymm h5 h6]
  · rintro ⟨rfl, rfl⟩
    simp

theorem max_is_component (r g b : α) :
    r = max r (max g b) ∨ g = max r (max g b) ∨ b = max r (max g b) := by
  rcases max_choice r (max g b) with h | h
  · exact Or.inl h.symm
  · rcases max_choice g b with h' | h'
    · exact Or.inr (Or.inl (by rw [h, h']))
    · exact Or.inr (Or.inr (by rw [h, h']))

theorem min_is_component (r g b : α) :
    r = min r (min g b) ∨ g = min r (min g b) ∨ b = min r (min g b) := by
  rcases min_choice r (min g b) with h | h
  · exact Or.inl h.symm
  · rcases min_choice g b with h' | h'
    · exact Or.inr (Or.inl (by rw [h, h']))
    · exact Or.inr (Or.inr (by rw [h, h']))

theorem unit_max_min (r g b : α) (hr : 0 ≤ r ∧ r ≤ 1) (hg : 0 ≤ g ∧ g ≤ 1)
    (hb : 0 ≤ b ∧ b ≤ 1) :
    0 ≤ min r (min g b) ∧ max r (max g b) ≤ 1 :=
  ⟨le_min hr.1 (le_min hg.1 hb.1), max_le hr.2 (max_le hg.2 hb.2)⟩

theorem divisor_pos (M m : α) (h0 : 0 ≤ m) (hlt : m < M) (h1 : M ≤ 1) :
    0 < 1 - |2 * ((M + m) / 2) - 1| := by
  have e : 2 * ((M + m) / 2) - 1 = M + m - 1 := by ring
  rw [e]
  have : |M + m - 1| < 1 := abs_lt.mpr ⟨by linarith, by linarith⟩
  linarith

theorem saturation_range (M m : α) (h0 : 0 ≤ m) (hlt : m < M) (h1 : M ≤ 1) :
    0 < (M - m) / (1 - |2 * ((M + m) / 2) - 1|) ∧
    (M - m) / (1 - |2 * ((M + m) / 2) - 1|) ≤ 1 := by
  have hpos := divisor_pos M m h0 hlt h1
  constructor
  · exact div_pos (by linarith) hpos
  · rw [div_le_one hpos]
    have e : 2 * ((M + m) / 2) - 1 = M + m - 1 := by ring
    rw [e]
    have : |M + m - 1| ≤ 1 - M + m := abs_le.mpr ⟨by linarith, by linarith⟩
    linarith

theorem saturation_one_iff (M m : α) (h0 : 0 ≤ m) (hlt : m < M) (h1 : M ≤ 1) :
    (M - m) / (1 - |2 * ((M + m) / 2) - 1|) = 1 ↔
      ((m = 0 ∧ (M + m) / 2 ≤ 1 / 2) ∨ (M = 1 ∧ 1 / 2 ≤ (M + m) / 2)) := by
  have hpos := divisor_pos M m h0 hlt h1
  have e : 2 * ((M + m) / 2) - 1 = M + m - 1 := by ring
  rw [div_eq_one_iff_eq (ne_of_gt hpos), e]
  by_cases hs : 0 ≤ M + m - 1
  · rw [abs_of_nonneg hs]
    constructor
    · intro h
      right
      constructor <;> linarith
    · rintro (⟨ha, hb⟩ | ⟨ha, hb⟩) <;> linarith
  · have hs' : M + m - 1 < 0 := lt_of_not_le hs
    rw [abs_of_neg hs']
    constructor
    · intro h
      left
      constructor <;> linarith
    · rintro (⟨ha, hb⟩ | ⟨ha, hb⟩) <;> linarith

theorem RGBToHSL_grey (v w : α) :
    RGBToHSL ⟨v, v, v, w⟩ = if v = 0 then some ⟨0, 0, 0, w⟩ else none := by
  by_cases hv : v = 0
  · subst hv
    simp [RGBToHSL, saturation, hueSextant, toDegrees]
  · simp [RGBToHSL, saturation, hueSextant, checkedDiv, hv]

theorem RGBToHSL_nongrey (c : Vec4 α)
    (hd : max c.x (max c.y c.z) ≠ min c.x (min c.y c.z))
    (hM : max c.x (max c.y c.z) ≠ 0)
    (hD : 1 - |2 * ((max c.x (max c.y c.z) + min c.x (min c.y c.z)) / 2) - 1| ≠ 0) :
    ∃ q, hueSextant c.x c.y c.z (max c.x (max c.y c.z))
        (max c.x (max c.y c.z) - min c.x (min c.y c.z)) = some q ∧
      RGBToHSL c = some ⟨toDegrees q,
        (max c.x (max c.y c.z) - min c.x (min c.y c.z)) /
          (1 - |2 * ((max c.x (max c.y c.z) + min c.x (min c.y c.z)) / 2) - 1|),
        (max c.x (max c.y c.z) + min c.x (min c.y c.z)) / 2, c.w⟩ := by
  have hd' : max c.x (max c.y c.z) - min c.x (min c.y c.z) ≠ 0 := sub_ne_zero.mpr hd
  have hq : ∃ q, hueSextant c.x c.y c.z (max c.x (max c.y c.z))
      (max c.x (max c.y c.z) - min c.x (min c.y c.z)) = some q := by
    unfold hueSextant checkedDiv
    rw [if_neg hM, if_neg hd', if_neg hd', if_neg hd']
    by_cases h1 : c.x = max c.x (max c.y c.z)
    · rw [if_pos h1]
      exact ⟨_, rfl⟩
    · rw [if_neg h1]
      by_cases h2 : c.y = max c.x (max c.y c.z)
      · rw [if_pos h2]
        exact ⟨_, rfl⟩
      · rw [if_neg h2]
        exact ⟨_, rfl⟩
  obtain ⟨q, hq⟩ := hq
  refine ⟨q, hq, ?_⟩
  simp only [RGBToHSL, hq]
  simp only [saturation, checkedDiv]
  rw [if_neg hd, if_neg hD]

end RangeFacts

/-- C28, over exact arithmetic (the rounding of `float` left out): for an RGB
input with components in [0,1], `RGBToHSL` takes a quotient by zero exactly
when the input is grey with a non-zero value. For such an input the saturation
guard `Cmax == Cmin` gives 0, while the hue guard `Cmax == 0` lets the hue
branch evaluate `(g - b) / delta` with `delta = 0`. For every input that is not
grey both divisors, `delta` and `1 - |2L - 1|`, are non-zero and the conversion
has a result. -/
theorem C28_division_by_zero_exactly_for_grey {α : Type} [LinearOrderedField α]
    (c : Vec4 α) (hr : 0 ≤ c.x ∧ c.x ≤ 1) (hg : 0 ≤ c.y ∧ c.y ≤ 1)
    (hb : 0 ≤ c.z ∧ c.z ≤ 1) :
    (RGBToHSL c = none ↔ (c.x = c.y ∧ c.y = c.z ∧ c.x ≠ 0)) ∧
    ((c.x = c.y ∧ c.y = c.z ∧ c.x ≠ 0) →
      max c.x (max c.y c.z) - min c.x (min c.y c.z) = 0 ∧
      saturation (max c.x (max c.y c.z)) (min c.x (min c.y c.z))
        (max c.x (max c.y c.z) - min c.x (min c.y c.z))
        ((max c.x (max c.y c.z) + min c.x (min c.y c.z)) / 2) = some 0 ∧
      hueSextant c.x c.y c.z (max c.x (max c.y c.z))
        (max c.x (max c.y c.z) - min c.x (min c.y c.z)) =
        checkedDiv (c.y - c.z) (max c.x (max c.y c.z) - min c.x (min c.y c.z)) ∧
      checkedDiv (c.y - c.z) (max c.x (max c.y c.z) - min c.x (min c.y c.z)) = none) ∧
    (¬ (c.x = c.y ∧ c.y = c.z) →
      max c.x (max c.y c.z) - min c.x (min c.y c.z) ≠ 0 ∧
      1 - |2 * ((max c.x (max c.y c.z) + min c.x (min c.y c.z)) / 2) - 1| ≠ 0 ∧
      ∃ hsl, RGBToHSL c = some hsl) := by
  obtain ⟨hm0, hM1⟩ := unit_max_min c.x c.y c.z hr hg hb
  have hnon : ¬ (c.x = c.y ∧ c.y = c.z) →
      max c.x (max c.y c.z) - min c.x (min c.y c.z) ≠ 0 ∧
      1 - |2 * ((max c.x (max c.y c.z) + min c.x (min c.y c.z)) / 2) - 1| ≠ 0 ∧
      ∃ hsl, RGBToHSL c = some hsl := by
    intro hng
    have hd : max c.x (max c.y c.z) ≠ min c.x (min c.y c.z) :=
      fun h => hng ((grey_iff _ _ _).mp h)
    have hlt : min c.x (min c.y c.z) < max c.x (max c.y c.z) :=
      lt_of_le_of_ne (le_trans (rgb_bounds c.x c.y c.z).1.1 (rgb_bounds c.x c.y c.z).1.2)
        (Ne.symm hd)
    have hD := ne_of_gt (divisor_pos _ _ hm0 hlt hM1)
    obtain ⟨q, -, hq⟩ := RGBToHSL_nongrey c hd (by intro h; rw [h] at hlt; linarith) hD
    exact ⟨sub_ne_zero.mpr hd, hD, _, hq⟩
  refine ⟨?_, ?_, hnon⟩
  · constructor
    · intro hnone
      by_cases hgrey : c.x = c.y ∧ c.y = c.z
      · refine ⟨hgrey.1, hgrey.2, ?_⟩
        intro h0
        obtain ⟨x, y, z, w⟩ := c
        obtain ⟨h1, h2⟩ := hgrey
        simp only at h1 h2 h0
        subst h1 h2 h0
        rw [RGBToHSL_grey] at hnone
        simp at hnone
      · obtain ⟨-, -, hsl, hh⟩ := hnon hgrey
        rw [hh] at hnone
        cases hnone
    · rintro ⟨h1, h2, h0⟩
      obtain ⟨x, y, z, w⟩ := c
      simp only at h1 h2 h0
      subst h1 h2
      rw [RGBToHSL_grey, if_neg h0]
  · rintro ⟨h1, h2, h0⟩
    have hx : max c.x (max c.y c.z) = c.x := by rw [← h2, ← h1]; simp
    have hn : min c.x (min c.y c.z) = c.x := by rw [← h2, ← h1]; simp
    rw [hx, hn]
    refine ⟨sub_self _, ?_, ?_, ?_⟩
    · simp [saturation]
    · simp [hueSextant, h0]
    · simp [checkedDiv]

/-- C28 at the grey (1/2, 1/2, 1/2, 1). -/
theorem C28_division_by_zero_exactly_for_grey_witness :
    (RGBToHSL (⟨1 / 2, 1 / 2, 1 / 2, 1⟩ : Vec4 ℚ) = none ↔
      ((1 / 2 : ℚ) = 1 / 2 ∧ (1 / 2 : ℚ) = 1 / 2 ∧ (1 / 2 : ℚ) ≠ 0)) ∧
    RGBToHSL (⟨1 / 2, 1 / 2, 1 / 2, 1⟩ : Vec4 ℚ) = none ∧
    RGBToHSL (⟨0, 0, 0, 1⟩ : Vec4 ℚ) = some ⟨0, 0, 0, 1⟩ :=
  ⟨(C28_division_by_zero_exactly_for_grey (⟨1 / 2, 1 / 2, 1 / 2, 1⟩ : Vec4 ℚ)
      (by norm_num) (by norm_num) (by norm_num)).1,
    by norm_num [RGBToHSL, saturation, hueSextant, toDegrees, checkedDiv],
    by norm_num [RGBToHSL, saturation, hueSextant, toDegrees, checkedDiv]⟩

/-- C29, over exact arithmetic (the rounding of `float` left out): for an
RGBA input with components in [0,1] that is not grey, `RGBToHSL` returns a hue
in [0,360), a saturation in (0,1], a lightness in (0,1) and the alpha of the
input. -/
theorem C29_nongrey_output_ranges {α : Type} [LinearOrderedField α]
    (c : Vec4 α) (hr : 0 ≤ c.x ∧ c.x ≤ 1) (hg : 0 ≤ c.y ∧ c.y ≤ 1)
    (hb : 0 ≤ c.z ∧ c.z ≤ 1) (hng : ¬ (c.x = c.y ∧ c.y = c.z)) :
    ∃ hsl, RGBToHSL c = some hsl ∧
      (0 ≤ hsl.x ∧ hsl.x < 360) ∧ (0 < hsl.y ∧ hsl.y ≤ 1) ∧
      (0 < hsl.z ∧ hsl.z < 1) ∧ hsl.w = c.w := by
  obtain ⟨hm0, hM1⟩ := unit_max_min c.x c.y c.z hr hg hb
  have hd : max c.x (max c.y c.z) ≠ min c.x (min c.y c.z) :=
    fun h => hng ((grey_iff _ _ _).mp h)
  have hlt : min c.x (min c.y c.z) < max c.x (max c.y c.z) :=
    lt_of_le_of_ne (le_trans (rgb_bounds c.x c.y c.z).1.1 (rgb_bounds c.x c.y c.z).1.2)
      (Ne.symm hd)
  have hD := ne_of_gt (divisor_pos _ _ hm0 hlt hM1)
  obtain ⟨q, -, hq⟩ := RGBToHSL_nongrey c hd (by intro h; rw [h] at hlt; linarith) hD
  refine ⟨_, hq, RGBToHSL_hue_range c _ hq, saturation_range _ _ hm0 hlt hM1, ⟨?_, ?_⟩, rfl⟩
  · show 0 < (max c.x (max c.y c.z) + min c.x (min c.y c.z)) / 2
    linarith
  · show (max c.x (max c.y c.z) + min c.x (min c.y c.z)) / 2 < 1
    linarith

/-- C29 at the colour (1, 1/2, 1/4, 1): hue 20, saturation 1, lightness 5/8. -/
theorem C29_nongrey_output_ranges_witness :
    (∃ hsl, RGBToHSL (⟨1, 1 / 2, 1 / 4, 1⟩ : Vec4 ℚ) = some hsl ∧
      (0 ≤ hsl.x ∧ hsl.x < 360) ∧ (0 < hsl.y ∧ hsl.y ≤ 1) ∧
      (0 < hsl.z ∧ hsl.z < 1) ∧ hsl.w = 1) ∧
    RGBToHSL (⟨1, 1 / 2, 1 / 4, 1⟩ : Vec4 ℚ) = some ⟨20, 1, 5 / 8, 1⟩ :=
  ⟨C29_nongrey_output_ranges (⟨1, 1 / 2, 1 / 4, 1⟩ : Vec4 ℚ)
      (by norm_num) (by norm_num) (by norm_num) (by norm_num),
    by norm_num [RGBToHSL, saturation, hueSextant, toDegrees, checkedDiv, abs_of_pos]⟩

end PostProcessPoly

namespace PostProcessPoly

open HSL

section RoundTripFacts

variable {α : Type} [LinearOrderedField α] [FloorRing α]

theorem fmodf_two (u : α) (k : ℤ) (h0 : 0 ≤ u) (h1 : 2 * (k : α) ≤ u)
    (h2 : u < 2 * (k : α) + 2) : fmodf u 2 = u - 2 * (k : α) := by
  unfold fmodf
  have hq : 0 ≤ u / 2 := by positivity
  rw [if_pos hq]
  have hf : ⌊u / 2⌋ = k := by
    rw [Int.floor_eq_iff]
    constructor
    · rw [le_div_iff₀ (by norm_num)]
      linarith
    · rw [div_lt_iff₀ (by norm_num)]
      linarith
  rw [hf]

/-- `HSLToRBG` at saturation 1 in the sextant `k` of the hue `60 * u`, where
`d` is the chroma `1 - |2L - 1|`. -/
theorem HSLToRBG_sextants (u L w d : α) (hc : 1 - |2 * L - 1| = d) :
    (0 ≤ u → u < 1 →
      HSLToRBG ⟨u * 60, 1, L, w⟩ = ⟨d + (L - d / 2), d * u + (L - d / 2), L - d / 2, w⟩) ∧
    (1 ≤ u → u < 2 →
      HSLToRBG ⟨u * 60, 1, L, w⟩ =
        ⟨d * (2 - u) + (L - d / 2), d + (L - d / 2), L - d / 2, w⟩) ∧
    (2 ≤ u → u < 3 →
      HSLToRBG ⟨u * 60, 1, L, w⟩ =
        ⟨L - d / 2, d + (L - d / 2), d * (u - 2) + (L - d / 2), w⟩) ∧
    (3 ≤ u → u < 4 →
      HSLToRBG ⟨u * 60, 1, L, w⟩ =
        ⟨L - d / 2, d * (4 - u) + (L - d / 2), d + (L - d / 2), w⟩) ∧
    (4 ≤ u → u < 5 →
      HSLToRBG ⟨u * 60, 1, L, w⟩ =
        ⟨d * (u - 4) + (L - d / 2), L - d / 2, d + (L - d / 2), w⟩) ∧
    (5 ≤ u → u < 6 →
      HSLToRBG ⟨u * 60, 1, L, w⟩ =
        ⟨d + (L - d / 2), L - d / 2, d * (6 - u) + (L - d / 2), w⟩) := by
  have hu : u * 60 / 60 = u := by field_simp
  refine ⟨?_, ?_, ?_, ?_, ?_, ?_⟩
  · intro h0 h1
    have hf := fmodf_two u 0 h0 (by simp; linarith) (by simp; linarith)
    have ha : |u - 1| = 1 - u := by rw [abs_of_nonpos (by linarith)]; ring
    have b1 : u * 60 < 60 := by linarith
    simp only [HSLToRBG, hu, hf, mul_one, hc, if_pos b1]
    simp [ha]
  · intro h0 h1
    have hf := fmodf_two u 0 (by linarith) (by simp; linarith) (by simp; linarith)
    have ha : |u - 1| = u - 1 := abs_of_nonneg (by linarith)
    have b1 : ¬ u * 60 < 60 := by linarith
    have b2 : u * 60 < 120 := by linarith
    simp only [HSLToRBG, hu, hf, mul_one, hc, if_neg b1, if_pos b2]
    simp [ha]
    left
    ring
  · intro h0 h1
    have hf := fmodf_two u 1 (by linarith) (by simp; linarith) (by simp; linarith)
    have ha : |u - 2 - 1| = 1 - (u - 2) := by rw [abs_of_nonpos (by linarith)]; ring
    have b1 : ¬ u * 60 < 60 := by linarith
    have b2 : ¬ u * 60 < 120 := by linarith
    have b3 : u * 60 < 180 := by linarith
    simp only [HSLToRBG, hu, hf, mul_one, hc, if_neg b1, if_neg b2, if_pos b3, Int.cast_one]
    simp [ha]
  · intro h0 h1
    have hf := fmodf_two u 1 (by linarith) (by simp; linarith) (by simp; linarith)
    have ha : |u - 2 - 1| = u - 2 - 1 := abs_of_nonneg (by linarith)
    have b1 : ¬ u * 60 < 60 := by linarith
    have b2 : ¬ u * 60 < 120 := by linarith
    have b3 : ¬ u * 60 < 180 := by linarith
    have b4 : u * 60 < 240 := by linarith
    simp only [HSLToRBG, hu, hf, mul_one, hc, if_neg b1, if_neg b2, if_neg b3, if_pos b4,
      Int.cast_one]
    simp [ha]
    left
    ring
  · intro h0 h1
    have hf := fmodf_two u 2 (by linarith) (by push_cast; linarith) (by push_cast; linarith)
    have ha : |u - 4 - 1| = 1 - (u - 4) := by rw [abs_of_nonpos (by linarith)]; ring
    have b1 : ¬ u * 60 < 60 := by linarith
    have b2 : ¬ u * 60 < 120 := by linarith
    have b3 : ¬ u * 60 < 180 := by linarith
    have b4 : ¬ u * 60 < 240 := by linarith
    have b5 : u * 60 < 300 := by linarith
    have e : u - 2 * ((2 : ℤ) : α) = u - 4 := by push_cast; ring
    simp only [HSLToRBG, hu, hf, e, mul_one, hc, if_neg b1, if_neg b2, if_neg b3, if_neg b4,
      if_pos b5]
    simp [ha]
  · intro h0 h1
    have hf := fmodf_two u 2 (by linarith) (by push_cast; linarith) (by push_cast; linarith)
    have ha : |u - 4 - 1| = u - 4 - 1 := abs_of_nonneg (by linarith)
    have b1 : ¬ u * 60 < 60 := by linarith
    have b2 : ¬ u * 60 < 120 := by linarith
    have b3 : ¬ u * 60 < 180 := by linarith
    have b4 : ¬ u * 60 < 240 := by linarith
    have b5 : ¬ u * 60 < 300 := by linarith
    have e : u - 2 * ((2 : ℤ) : α) = u - 4 := by push_cast; ring
    simp only [HSLToRBG, hu, hf, e, mul_one, hc, if_neg b1, if_neg b2, if_neg b3, if_neg b4,
      if_neg b5]
    simp [ha]
    left
    ring

end RoundTripFacts

end PostProcessPoly

namespace PostProcessPoly

open HSL

section RoundTripCases

variable {α : Type} [LinearOrderedField α] [FloorRing α]

set_option maxHeartbeats 1000000 in
/-- The round trip at saturation 1, with the largest component `M` and the
smallest component `m` of the colour named: `M - m` is the chroma and `q` the
hue before the degree conversion. -/
theorem roundtrip_of_chroma (r g b w M m q : α)
    (hr : m ≤ r ∧ r ≤ M) (hg : m ≤ g ∧ g ≤ M) (hb : m ≤ b ∧ b ≤ M)
    (hmax : r = M ∨ g = M ∨ b = M) (hmin : r = m ∨ g = m ∨ b = m)
    (hlt : m < M) (hM0 : M ≠ 0)
    (hc : 1 - |2 * ((M + m) / 2) - 1| = M - m)
    (hq : hueSextant r g b M (M - m) = some q) :
    HSLToRBG ⟨toDegrees q, 1, (M + m) / 2, w⟩ = ⟨r, g, b, w⟩ := by
  have hpos : 0 < M - m := by linarith
  have hne : M - m ≠ 0 := ne_of_gt hpos
  have key : ∀ t : α, (M - m) * (t / (M - m)) = t := by
    intro t
    field_simp
  have S := fun u : α => HSLToRBG_sextants u ((M + m) / 2) w (M - m) hc
  unfold hueSextant at hq
  rw [if_neg hM0] at hq
  simp only [checkedDiv, if_neg hne] at hq
  by_cases h1 : r = M
  · rw [if_pos h1] at hq
    cases hq
    by_cases hgb : b ≤ g
    · have hbm : b = m :=
        le_antisymm (by rcases hmin with h | h | h <;> linarith) hb.1
      by_cases hgr : g < M
      · have hu0 : 0 ≤ (g - b) / (M - m) := div_nonneg (by linarith) hpos.le
        have hu1 : (g - b) / (M - m) < 1 := by
          rw [div_lt_one hpos]
          linarith
        have hdeg : toDegrees ((g - b) / (M - m)) = (g - b) / (M - m) * 60 := by
          unfold toDegrees
          rw [if_neg (by linarith)]
        rw [hdeg, (S _).1 hu0 hu1]
        simp only [Vec4.mk.injEq, and_true]
        refine ⟨?_, ?_, ?_⟩ <;> linarith [key (g - b)]
      · have hgM : g = M := le_antisymm hg.2 (not_lt.mp hgr)
        have hu : (g - b) / (M - m) = 1 := by
          rw [div_eq_one_iff_eq hne]
          linarith
        have hdeg : toDegrees ((g - b) / (M - m)) = 1 * 60 := by
          unfold toDegrees
          rw [hu, if_neg (by norm_num)]
        rw [hdeg, (S 1).2.1 (le_refl _) (by norm_num)]
        simp only [Vec4.mk.injEq, and_true]
        refine ⟨?_, ?_, ?_⟩ <;> linarith
    · have hgb' : g < b := lt_of_not_le hgb
      have hgm : g = m :=
        le_antisymm (by rcases hmin with h | h | h <;> linarith) hg.1
      have hu0 : -1 ≤ (g - b) / (M - m) := by
        rw [le_div_iff₀ hpos]
        linarith
      have hu1 : (g - b) / (M - m) < 0 := div_neg_of_neg_of_pos (by linarith) hpos
      have hdeg : toDegrees ((g - b) / (M - m)) = ((g - b) / (M - m) + 6) * 60 := by
        unfold toDegrees
        rw [if_pos (by linarith)]
        ring
      rw [hdeg, (S _).2.2.2.2.2 (by linarith) (by linarith)]
      simp only [Vec4.mk.injEq, and_true]
      refine ⟨?_, ?_, ?_⟩ <;> linarith [key (g - b)]
  · rw [if_neg h1] at hq
    have hrM : r < M := lt_of_le_of_ne hr.2 h1
    by_cases h2 : g = M
    · rw [if_pos h2] at hq
      simp only [Option.map_some', Option.some.injEq] at hq
      subst hq
      by_cases hrb : r ≤ b
      · have hrm : r = m :=
          le_antisymm (by rcases hmin with h | h | h <;> linarith) hr.1
        by_cases hbM : b < M
        · have hu0 : 0 ≤ (b - r) / (M - m) := div_nonneg (by linarith) hpos.le
          have hu1 : (b - r) / (M - m) < 1 := by
            rw [div_lt_one hpos]
            linarith
          have hdeg : toDegrees (2 + (b - r) / (M - m)) = (2 + (b - r) / (M - m)) * 60 := by
            unfold toDegrees
            rw [if_neg (by linarith)]
          rw [hdeg, (S _).2.2.1 (by linarith) (by linarith)]
          simp only [Vec4.mk.injEq, and_true]
          refine ⟨?_, ?_, ?_⟩ <;> linarith [key (b - r)]
        · have hbM' : b = M := le_antisymm hb.2 (not_lt.mp hbM)
          have hu : (b - r) / (M - m) = 1 := by
            rw [div_eq_one_iff_eq hne]
            linarith
          have hdeg : toDegrees (2 + (b - r) / (M - m)) = 3 * 60 := by
            unfold toDegrees
            rw [hu, if_neg (by norm_num)]
            norm_num
          rw [hdeg, (S 3).2.2.2.1 (le_refl _) (by norm_num)]
          simp only [Vec4.mk.injEq, and_true]
          refine ⟨?_, ?_, ?_⟩ <;> linarith
      · have hrb' : b < r := lt_of_not_le hrb
        have hbm : b = m :=
          le_antisymm (by rcases hmin with h | h | h <;> linarith) hb.1
        have hu0 : -1 < (b - r) / (M - m) := by
          rw [lt_div_iff₀ hpos]
          linarith
        have hu1 : (b - r) / (M - m) < 0 := div_neg_of_neg_of_pos (by linarith) hpos
        have hdeg : toDegrees (2 + (b - r) / (M - m)) = (2 + (b - r) / (M - m)) * 60 := by
          unfold toDegrees
          rw [if_neg (by linarith)]
        rw [hdeg, (S _).2.1 (by linarith) (by linarith)]
        simp only [Vec4.mk.injEq, and_true]
        refine ⟨?_, ?_, ?_⟩ <;> linarith [key (b - r)]
    · rw [if_neg h2] at hq
      simp only [Option.map_some', Option.some.injEq] at hq
      subst hq
      have hgM : g < M := lt_of_le_of_ne hg.2 h2
      have hbM : b = M := by
        rcases hmax with h | h | h
        · exact absurd h h1
        · exact absurd h h2
        · exact h
      by_cases hgr : g ≤ r
      · have hgm : g = m :=
          le_antisymm (by rcases hmin with h | h | h <;> linarith) hg.1
        have hu0 : 0 ≤ (r - g) / (M - m) := div_nonneg (by linarith) hpos.le
        have hu1 : (r - g) / (M - m) < 1 := by
          rw [div_lt_one hpos]
          linarith
        have hdeg : toDegrees (4 + (r - g) / (M - m)) = (4 + (r - g) / (M - m)) * 60 := by
          unfold toDegrees
          rw [if_neg (by linarith)]
        rw [hdeg, (S _).2.2.2.2.1 (by linarith) (by linarith)]
        simp only [Vec4.mk.injEq, and_true]
        refine ⟨?_, ?_, ?_⟩ <;> linarith [key (r - g)]
      · have hgr' : r < g := lt_of_not_le hgr
        have hrm : r = m :=
          le_antisymm (by rcases hmin with h | h | h <;> linarith) hr.1
        have hu0 : -1 < (r - g) / (M - m) := by
          rw [lt_div_iff₀ hpos]
          linarith
        have hu1 : (r - g) / (M - m) < 0 := div_neg_of_neg_of_pos (by linarith) hpos
        have hdeg : toDegrees (4 + (r - g) / (M - m)) = (4 + (r - g) / (M - m)) * 60 := by
          unfold toDegrees
          rw [if_neg (by linarith)]
        rw [hdeg, (S _).2.2.2.1 (by linarith) (by linarith)]
        simp only [Vec4.mk.injEq, and_true]
        refine ⟨?_, ?_, ?_⟩ <;> linarith [key (r - g)]

end RoundTripCases

/-- C30: for a colour `c` with components in [0,1] that is not grey, the
saturation `RGBToHSL` returns is 1 exactly when the smallest component is 0 and
the lightness at most 1/2, or the largest component is 1 and the lightness at
least 1/2; and when it is 1, `HSLToRBG (RGBToHSL c) = c` over exact
arithmetic. -/
theorem C30_round_trip_at_saturation_one {α : Type} [LinearOrderedField α] [FloorRing α]
    (c hsl : Vec4 α) (hr : 0 ≤ c.x ∧ c.x ≤ 1) (hg : 0 ≤ c.y ∧ c.y ≤ 1)
    (hb : 0 ≤ c.z ∧ c.z ≤ 1) (hng : ¬ (c.x = c.y ∧ c.y = c.z))
    (h : RGBToHSL c = some hsl) :
    (hsl.y = 1 ↔
      ((min c.x (min c.y c.z) = 0 ∧ hsl.z ≤ 1 / 2) ∨
        (max c.x (max c.y c.z) = 1 ∧ 1 / 2 ≤ hsl.z))) ∧
    (hsl.y = 1 → HSLToRBG hsl = c) := by
  obtain ⟨hm0, hM1⟩ := unit_max_min c.x c.y c.z hr hg hb
  have hd : max c.x (max c.y c.z) ≠ min c.x (min c.y c.z) :=
    fun h => hng ((grey_iff _ _ _).mp h)
  have hlt : min c.x (min c.y c.z) < max c.x (max c.y c.z) :=
    lt_of_le_of_ne (le_trans (rgb_bounds c.x c.y c.z).1.1 (rgb_bounds c.x c.y c.z).1.2)
      (Ne.symm hd)
  have hD := ne_of_gt (divisor_pos _ _ hm0 hlt hM1)
  have hM0 : max c.x (max c.y c.z) ≠ 0 := by
    intro h
    rw [h] at hlt
    linarith
  obtain ⟨q, hq, hrgb⟩ := RGBToHSL_nongrey c hd hM0 hD
  rw [hrgb] at h
  cases h
  refine ⟨saturation_one_iff _ _ hm0 hlt hM1, ?_⟩
  intro hS
  simp only at hS
  rw [hS]
  have hc := (div_eq_one_iff_eq hD).mp hS
  obtain ⟨hr', hg', hb'⟩ := rgb_bounds c.x c.y c.z
  exact roundtrip_of_chroma c.x c.y c.z c.w _ _ q hr' hg' hb'
    (max_is_component _ _ _) (min_is_component _ _ _) hlt hM0 hc.symm hq

/-- C30 at the default tint colours (0, 0, 1, 1) and (1, 1, 0, 1). -/
theorem C30_round_trip_at_saturation_one_witness :
    RGBToHSL (⟨0, 0, 1, 1⟩ : Vec4 ℚ) = some ⟨240, 1, 1 / 2, 1⟩ ∧
    HSLToRBG (⟨240, 1, 1 / 2, 1⟩ : Vec4 ℚ) = ⟨0, 0, 1, 1⟩ ∧
    RGBToHSL (⟨1, 1, 0, 1⟩ : Vec4 ℚ) = some ⟨60, 1, 1 / 2, 1⟩ ∧
    HSLToRBG (⟨60, 1, 1 / 2, 1⟩ : Vec4 ℚ) = ⟨1, 1, 0, 1⟩ :=
  have h1 : RGBToHSL (⟨0, 0, 1, 1⟩ : Vec4 ℚ) = some ⟨240, 1, 1 / 2, 1⟩ := by
    norm_num [RGBToHSL, saturation, hueSextant, toDegrees, checkedDiv]
  have h2 : RGBToHSL (⟨1, 1, 0, 1⟩ : Vec4 ℚ) = some ⟨60, 1, 1 / 2, 1⟩ := by
    norm_num [RGBToHSL, saturation, hueSextant, toDegrees, checkedDiv]
  ⟨h1,
    (C30_round_trip_at_saturation_one (⟨0, 0, 1, 1⟩ : Vec4 ℚ) ⟨240, 1, 1 / 2, 1⟩
      (by norm_num) (by norm_num) (by norm_num) (by norm_num) h1).2 rfl,
    h2,
    (C30_round_trip_at_saturation_one (⟨1, 1, 0, 1⟩ : Vec4 ℚ) ⟨60, 1, 1 / 2, 1⟩
      (by norm_num) (by norm_num) (by norm_num) (by norm_num) h2).2 rfl⟩

end PostProcessPoly

namespace PostProcessPoly

open HSL

/-- C9, counterexample in `float` arithmetic: the camera of the exact witness
(clip `x = 2 x`, clip `y = 3 y`, clip `w = z`), the centre `(0, 0, 100)` on its
axis and an area 20 wide and 30 high. The corners are rounded one by one:
`x` comes out as 13421773 / 2^25 and 5033165 / 2^23, whose midpoint is
`1/2 + 2^-26`, and so does `y`. -/
theorem C9_area_centre_counterexample :
    (Binary32.SetPostProcessArea exampleCamera exampleCentre 20 30 0
      (startup : Globals ℚ)).PPAreaTopLeftVar =
        some (13421773 / 2 ^ 25, 9227469 / 2 ^ 25) ∧
    (Binary32.SetPostProcessArea exampleCamera exampleCentre 20 30 0
      (startup : Globals ℚ)).PPAreaBottomRightVar =
        some (5033165 / 2 ^ 23, 6081741 / 2 ^ 23) ∧
    ((13421773 / 2 ^ 25 + 5033165 / 2 ^ 23) / 2 : ℚ) = 1 / 2 + 1 / 2 ^ 26 ∧
    ((9227469 / 2 ^ 25 + 6081741 / 2 ^ 23) / 2 : ℚ) = 1 / 2 + 1 / 2 ^ 26 ∧
    ((13421773 / 2 ^ 25 + 5033165 / 2 ^ 23) / 2 : ℚ) ≠ 1 / 2 := by
  decide!

/-- C28, counterexample in `float` arithmetic: `(1, 1, 1 - 2^-24)` has `float`
components in [0,1] and is not grey. `Cmax + Cmin = 2 - 2^-24` lies halfway
between two floats and rounds to 2, so the lightness is 1 and the divisor
`1 - |2L - 1|` is 0 while `delta` is `2^-24`: the saturation takes a quotient
by zero. -/
theorem C28_division_by_zero_counterexample :
    Binary32.round32 (1 - 1 / 2 ^ 24) = 1 - 1 / 2 ^ 24 ∧
    ((0 : ℚ) ≤ 1 - 1 / 2 ^ 24 ∧ (1 - 1 / 2 ^ 24 : ℚ) ≤ 1) ∧
    ¬ ((1 : ℚ) = 1 ∧ (1 : ℚ) = 1 - 1 / 2 ^ 24) ∧
    Binary32.add 1 (1 - 1 / 2 ^ 24) = 2 ∧
    Binary32.sub 1 (1 - 1 / 2 ^ 24) = 1 / 2 ^ 24 ∧
    Binary32.sub 1 |Binary32.sub (Binary32.mul 2 1) 1| = 0 ∧
    Binary32.saturation 1 (1 - 1 / 2 ^ 24) (1 / 2 ^ 24) 1 = none ∧
    Binary32.RGBToHSL ⟨1, 1, 1 - 1 / 2 ^ 24, 1⟩ = none := by
  decide!

/-- C29, counterexample in `float` arithmetic: the picker colour
`(0, 0, 3/255)`, whose blue is the float 12632257 / 2^30, gets the saturation
`1 + 2^-23`, above 1; the colour `(1, 0, 2^-100)` gets the hue 360, which is
not below 360. -/
theorem C29_output_ranges_counterexample :
    Binary32.round32 (3 / 255) = 12632257 / 2 ^ 30 ∧
    Binary32.RGBToHSL ⟨0, 0, 12632257 / 2 ^ 30, 1⟩ =
      some ⟨240, 1 + 1 / 2 ^ 23, 12632257 / 2 ^ 31, 1⟩ ∧
    ¬ ((1 + 1 / 2 ^ 23 : ℚ) ≤ 1) ∧
    Binary32.round32 (1 / 2 ^ 100) = 1 / 2 ^ 100 ∧
    Binary32.RGBToHSL ⟨1, 0, 1 / 2 ^ 100, 1⟩ = some ⟨360, 1, 1 / 2, 1⟩ ∧
    ¬ ((360 : ℚ) < 360) := by
  decide!

end PostProcessPoly

namespace Binary32

section RoundingFacts

theorem binaryDigits_zero (fuel : Nat) : binaryDigits fuel 0 = 0 := by
  cases fuel <;> simp [binaryDigits]

theorem binaryDigits_pos (fuel n : Nat) (h : n ≤ fuel) (hn : n ≠ 0) :
    0 < binaryDigits fuel n := by
  cases fuel with
  | zero => omega
  | succ fuel => simp [binaryDigits, hn]

theorem lt_two_pow_binaryDigits (fuel n : Nat) (h : n ≤ fuel) :
    n < 2 ^ binaryDigits fuel n := by
  induction fuel generalizing n with
  | zero =>
    have : n = 0 := by omega
    subst this
    simp [binaryDigits]
  | succ fuel ih =>
    by_cases hn : n = 0
    · subst hn
      simp [binaryDigits]
    · have h2 : n / 2 ≤ fuel := by omega
      have := ih (n / 2) h2
      simp only [binaryDigits, hn, if_false, pow_succ]
      omega

theorem two_pow_binaryDigits_le (fuel n : Nat) (h : n ≤ fuel) (hn : n ≠ 0) :
    2 ^ (binaryDigits fuel n - 1) ≤ n := by
  induction fuel generalizing n with
  | zero => omega
  | succ fuel ih =>
    have h2 : n / 2 ≤ fuel := by omega
    simp only [binaryDigits, hn, if_false, Nat.add_sub_cancel]
    by_cases hh : n / 2 = 0
    · rw [hh, binaryDigits_zero]
      simp
      omega
    · have := ih (n / 2) h2 hh
      have hp := binaryDigits_pos fuel (n / 2) h2 hh
      have e : binaryDigits fuel (n / 2) = (binaryDigits fuel (n / 2) - 1) + 1 := by omega
      rw [e, pow_succ]
      omega

/-- A positive natural number `n` lies between `a` and `2 a`, `a` being the
power of two with one digit less than `n`. -/
theorem digits_bracket (n : Nat) (hn : n ≠ 0) :
    ((2 : ℚ) ^ (binaryDigits n n - 1) ≤ n ∧ (n : ℚ) < 2 * 2 ^ (binaryDigits n n - 1)) ∧
    ((binaryDigits n n : Int) = ((binaryDigits n n - 1 : Nat) : Int) + 1) := by
  have h1 := two_pow_binaryDigits_le n n (le_refl _) hn
  have h2 := lt_two_pow_binaryDigits n n (le_refl _)
  have hp := binaryDigits_pos n n (le_refl _) hn
  have e : binaryDigits n n = (binaryDigits n n - 1) + 1 := by omega
  refine ⟨⟨?_, ?_⟩, ?_⟩
  · exact_mod_cast h1
  · rw [e, pow_succ] at h2
    have : (n : ℚ) < ((2 ^ (binaryDigits n n - 1) * 2 : Nat) : ℚ) := by exact_mod_cast h2
    push_cast at this
    linarith
  · omega

/-- The value `exponent q` is the binary exponent of `q`. -/
theorem exponent_spec (q : ℚ) (hq : q ≠ 0) :
    (2 : ℚ) ^ exponent q ≤ |q| ∧ |q| < 2 ^ (exponent q + 1) := by
  have hn : q.num.natAbs ≠ 0 := by
    simpa using hq
  have hd : q.den ≠ 0 := q.den_nz
  obtain ⟨⟨na, nb⟩, ne⟩ := digits_bracket q.num.natAbs hn
  obtain ⟨⟨da, db⟩, de⟩ := digits_bracket q.den hd
  have dpos : (0 : ℚ) < q.den := by exact_mod_cast Nat.pos_of_ne_zero hd
  have habs : |q| = (q.num.natAbs : ℚ) / (q.den : ℚ) := by
    have h1 : |q| = |(q.num : ℚ)| / (q.den : ℚ) := by
      conv_lhs => rw [← Rat.num_div_den q]
      rw [abs_div, abs_of_nonneg (le_of_lt dpos)]
    rw [h1, Nat.cast_natAbs, Int.cast_abs]
  set a : ℚ := 2 ^ (binaryDigits q.num.natAbs q.num.natAbs - 1) with ha
  set b : ℚ := 2 ^ (binaryDigits q.den q.den - 1) with hb
  have apos : 0 < a := by positivity
  have bpos : 0 < b := by positivity
  have he0 : (2 : ℚ) ^ ((binaryDigits q.num.natAbs q.num.natAbs : Int) -
      (binaryDigits q.den q.den : Int)) = a / b := by
    rw [ne, de]
    have : (((binaryDigits q.num.natAbs q.num.natAbs - 1 : Nat) : Int) + 1 -
        (((binaryDigits q.den q.den - 1 : Nat) : Int) + 1)) =
        ((binaryDigits q.num.natAbs q.num.natAbs - 1 : Nat) : Int) -
          ((binaryDigits q.den q.den - 1 : Nat) : Int) := by ring
    rw [this, zpow_sub₀ (by norm_num), zpow_natCast, zpow_natCast]
  have two : (2 : ℚ) ≠ 0 := by norm_num
  unfold exponent
  simp only
  rw [he0]
  have hup : |q| < 2 * (a / b) := by
    rw [habs, div_lt_iff₀ dpos]
    have : 2 * (a / b) * (q.den : ℚ) = 2 * a * ((q.den : ℚ) / b) := by
      field_simp
    rw [this]
    have h1 : (1 : ℚ) ≤ (q.den : ℚ) / b := by
      rw [le_div_iff₀ bpos]
      linarith
    nlinarith
  have hlow : a / b / 2 ≤ |q| := by
    rw [habs, div_div, div_le_div_iff₀ (by positivity) dpos]
    nlinarith
  split_ifs with h
  · constructor
    · rw [zpow_sub₀ two, he0, zpow_one]
      exact hlow
    · rw [sub_add_cancel, he0]
      exact h
  · constructor
    · rw [he0]
      exact not_lt.mp h
    · rw [zpow_add₀ two, he0, zpow_one]
      linarith

/-- The function `roundEven` picks an integer at distance at most 1/2. -/
theorem roundEven_error (x : ℚ) : |(roundEven x : ℚ) - x| ≤ 1 / 2 := by
  have h0 : (⌊x⌋ : ℚ) ≤ x := Int.floor_le x
  have h1 : x < (⌊x⌋ : ℚ) + 1 := Int.lt_floor_add_one x
  unfold roundEven
  split_ifs with a b c
  · rw [abs_le]
    constructor <;> linarith
  · rw [abs_le]
    push_cast
    constructor <;> linarith
  · rw [abs_le]
    constructor <;> linarith
  · rw [abs_le]
    push_cast
    constructor <;> linarith

/-- The value `round32 q` lies within half a unit in the last place of `q`. -/
theorem round32_error (q : ℚ) :
    |round32 q - q| ≤ 2 ^ (max (exponent q) (-126) - 23) / 2 := by
  unfold round32
  split_ifs with h
  · subst h
    simp
    positivity
  · simp only
    have hu : (0 : ℚ) < 2 ^ (max (exponent q) (-126) - 23) := by positivity
    have e := roundEven_error (q / 2 ^ (max (exponent q) (-126) - 23))
    have key : (roundEven (q / 2 ^ (max (exponent q) (-126) - 23)) : ℚ) *
        2 ^ (max (exponent q) (-126) - 23) - q =
        ((roundEven (q / 2 ^ (max (exponent q) (-126) - 23)) : ℚ) -
          q / 2 ^ (max (exponent q) (-126) - 23)) * 2 ^ (max (exponent q) (-126) - 23) := by
      field_simp
    rw [key, abs_mul, abs_of_pos hu]
    calc _ ≤ 1 / 2 * 2 ^ (max (exponent q) (-126) - 23) :=
          mul_le_mul_of_nonneg_right e hu.le
      _ = _ := by ring

/-- For `q` of exponent at least -126 the value `round32 q` is an integer
multiple of `2 ^ (exponent q - 23)` whose factor has at most 24 binary digits,
or is `2 ^ 24`. -/
theorem round32_significand (q : ℚ) (hq : q ≠ 0) (he : -126 ≤ exponent q) :
    ∃ k : ℤ, round32 q = (k : ℚ) * 2 ^ (exponent q - 23) ∧ |k| ≤ 2 ^ 24 := by
  obtain ⟨h1, h2⟩ := exponent_spec q hq
  have hmax : max (exponent q) (-126) = exponent q := max_eq_left he
  refine ⟨roundEven (q / 2 ^ (exponent q - 23)), ?_, ?_⟩
  · unfold round32
    rw [if_neg hq]
    simp only [hmax]
  · have hu : (0 : ℚ) < 2 ^ (exponent q - 23) := by positivity
    have hlt : |q / 2 ^ (exponent q - 23)| < 2 ^ 24 := by
      rw [abs_div, abs_of_pos hu, div_lt_iff₀ hu]
      have : (2 : ℚ) ^ (24 : ℕ) * 2 ^ (exponent q - 23) = 2 ^ (exponent q + 1) := by
        rw [← zpow_natCast, ← zpow_add₀ (by norm_num)]
        congr 1
        push_cast
        ring
      rw [this]
      exact h2
    rw [abs_lt] at hlt
    have f0 := Int.floor_le (q / 2 ^ (exponent q - 23))
    have f1 := Int.lt_floor_add_one (q / 2 ^ (exponent q - 23))
    have hfl : -(2 : ℤ) ^ 24 ≤ ⌊q / 2 ^ (exponent q - 23)⌋ := by
      rw [Int.le_floor]
      push_cast
      linarith [hlt.1]
    have hfu : ⌊q / 2 ^ (exponent q - 23)⌋ + 1 ≤ (2 : ℤ) ^ 24 := by
      have : ⌊q / 2 ^ (exponent q - 23)⌋ < (2 : ℤ) ^ 24 := by
        rw [Int.floor_lt]
        push_cast
        exact hlt.2
      omega
    rw [abs_le]
    unfold roundEven
    split_ifs <;> constructor <;> omega

/-- The function `round32` on some values: 1/3 and 1/10 to 24 digits, a tie
above `2 ^ 24` to the even neighbour on either side, and two ties among the
subnormal numbers. -/
theorem round32_examples :
    round32 (1 / 3) = 11184811 / 2 ^ 25 ∧
    round32 (1 / 10) = 13421773 / 2 ^ 27 ∧
    round32 (2 ^ 24 + 1) = 2 ^ 24 ∧
    round32 (2 ^ 24 + 3) = 2 ^ 24 + 4 ∧
    round32 (-(2 ^ 24 + 3)) = -(2 ^ 24 + 4) ∧
    round32 (1 / 2 ^ 150) = 0 ∧
    round32 (3 / 2 ^ 150) = 1 / 2 ^ 148 := by
  decide!

end RoundingFacts

end Binary32
